import Mathlib

/-!
Terrain generator: height field and normal pipeline.

A shallow embedding of `src/main.cpp` (the height-field generator, the face-normal pass and
the vertex-normal pass) together with theorems about it.

Modelling conventions.

* `float`/`double` values are elements of a linear ordered field `α` (exact arithmetic); the
  library functions `sqrt` and `cos` are parameters of the definitions that call them, so the
  definitions stay computable (for instance at `ℚ`) and the theorems that need a genuine square
  root are stated at `ℝ` with `Real.sqrt`.
* `int` values are `Int`; on the grids the program accepts (50..300 per side) every index stays far
  below `2^31`, so no wrap-around is modelled.
* The global arrays are maps `Int → α` (the memory behind the pointer); their prior content is part
  of the input state.
* `rand()` reads the next element of a stream of non-negative draws.
* A division by a zero magnitude, which the source leaves unguarded, follows the field convention
  `x / 0 = 0`; a theorem that evaluates such a quotient says so in its statement.
-/

namespace TerrainGen

/-! ## Constants -/

/-- Minimum size of the circle for the circles algorithm. -/
def CIRCLE_MIN : Int := 5

/-- Range for the circle size. -/
def CIRCLE_RANGE : Int := 10

/-- Maximum displacement used by the circles algorithm. -/
def MAX_DISP : Int := 5

/-- Distance between vertices. -/
def VERT_SPACING : Int := 3

/-! ## Loops, random source, state -/

/-- The loop `for (int k = 0; k < n; k++) body` acting on a loop-carried state. -/
def forLoop {σ : Type} (n : Int) (body : Int → σ → σ) (s : σ) : σ :=
  (List.range n.toNat).foldl (fun acc k => body (k : Int) acc) s

/-- The random source: a stream of non-negative draws and the number of draws consumed. -/
structure Rng where
  draws : Nat → Nat
  pos : Nat

/-- One call of `rand()`: the next draw and the advanced source. -/
def rand (r : Rng) : Int × Rng :=
  ((r.draws r.pos : Int), { r with pos := r.pos + 1 })

/-- A `float[3]` local of the source. -/
structure Vec3 (α : Type) where
  c0 : α
  c1 : α
  c2 : α

/-- The terrain globals of the source. -/
structure Terrain (α : Type) where
  heightMap : Int → α
  triangleNormals : Int → α
  quadNormals : Int → α
  triangleVertexNormals : Int → α
  quadVertexNormals : Int → α
  terrainWidth : Int
  terrainDepth : Int
  terrainComplexity : Int
  algorithmMode : Char
  maxHeight : α
  minHeight : α

/-! ## Grid indexer -/

/-- Source `getIndex`: an index mapped to the 1D array of height values. -/
def getIndex (terrainDepth x z : Int) : Int :=
  x * terrainDepth + z

/-- Source `getNormalIndex`: the index of the X component of a face normal in its array. -/
def getNormalIndex (terrainDepth x z : Int) (type : Char) (first : Bool) : Int :=
  if type = 't' ∧ first = true then 6 * getIndex terrainDepth x z
  else if type = 't' then 6 * getIndex terrainDepth x z + 3
  else 3 * getIndex terrainDepth x z

/-- Source `drawTerrain`, line `vertexNormalIndex = 3 * getIndex(j,i)`: the slot at which the
renderer reads the vertex normal of vertex `(j,i)`. -/
def vertexNormalIndex (terrainDepth j i : Int) : Int :=
  3 * getIndex terrainDepth j i

/-- Source `main`: the length of the array `triangleNormals`,
`new float [3 * 2 * terrainWidth * terrainDepth]`. -/
def triangleNormalsSize (terrainWidth terrainDepth : Int) : Int :=
  3 * 2 * terrainWidth * terrainDepth

/-- Source `main`: the length of the array `quadNormals`,
`new float [3 * terrainWidth * terrainDepth]`. -/
def quadNormalsSize (terrainWidth terrainDepth : Int) : Int :=
  3 * terrainWidth * terrainDepth

/-! ## Height-field generator -/

section Generator

variable {α : Type} [LinearOrderedField α] [FloorRing α]

/-- Conversion `float → int` of C: truncation toward zero. -/
def truncToInt (v : α) : Int :=
  if 0 ≤ v then ⌊v⌋ else ⌈v⌉

/-- Source `pointDistance`: the distance between two points in 3D space. -/
def pointDistance (sqrt : α → α) (pointOne pointTwo : Vec3 α) : α :=
  sqrt ((pointTwo.c0 - pointOne.c0) ^ 2 + (pointTwo.c1 - pointOne.c1) ^ 2
    + (pointTwo.c2 - pointOne.c2) ^ 2)

/-- The flatten branch of `generateHeightValues`: every vertex of the grid is set to `0`. -/
def flattenHeights (terrainWidth terrainDepth : Int) (heightMap : Int → α) : Int → α :=
  forLoop terrainWidth (fun i hm =>
    forLoop terrainDepth (fun j hm =>
      let index := getIndex terrainDepth i j
      Function.update hm index 0) hm) heightMap

/-- The body of the inner loops of the circles algorithm at vertex `(i,j)`. -/
def circlesVertex (sqrt cos : α → α) (terrainDepth randomCircleSize : Int)
    (circleCenter : Vec3 α) (i j : Int) (s : (Int → α) × Rng) : (Int → α) × Rng :=
  let currentPointIndex := getIndex terrainDepth i j
  let currentPoint : Vec3 α := ⟨(i : α), s.1 currentPointIndex, (j : α)⟩
  let pd := pointDistance sqrt currentPoint circleCenter * 2 / (randomCircleSize : α)
  if |pd| ≤ 1 then
    let d := rand s.2
    let randomDisp := Int.tmod d.1 MAX_DISP + 1
    (Function.update s.1 currentPointIndex
      (s.1 currentPointIndex
        + (((Int.tdiv randomDisp 2 : Int) : α) + cos (pd * 3.14) * (randomDisp : α) / 2)), d.2)
  else s

/-- The two nested loops over the grid of one circle application. -/
def circlesSweep (sqrt cos : α → α) (terrainWidth terrainDepth randomCircleSize : Int)
    (circleCenter : Vec3 α) (s : (Int → α) × Rng) : (Int → α) × Rng :=
  forLoop terrainWidth (fun i s =>
    forLoop terrainDepth (fun j s =>
      circlesVertex sqrt cos terrainDepth randomCircleSize circleCenter i j s) s) s

/-- The circle centre point of one iteration: the picked vertex and its height read into an
`int`. -/
def circleCenterOf (terrainDepth randomX randomZ : Int) (heightMap : Int → α) : Vec3 α :=
  let index := getIndex terrainDepth randomX randomZ
  let randomY : Int := truncToInt (heightMap index)
  ⟨(randomX : α), (randomY : α), (randomZ : α)⟩

/-- One iteration of the outer loop of the circles algorithm (one circle application). -/
def circlesIteration (sqrt cos : α → α) (terrainWidth terrainDepth : Int)
    (s : (Int → α) × Rng) : (Int → α) × Rng :=
  let d1 := rand s.2
  let randomX := Int.tmod d1.1 terrainWidth
  let d2 := rand d1.2
  let randomZ := Int.tmod d2.1 terrainDepth
  let d3 := rand d2.2
  let randomCircleSize := Int.tmod d3.1 CIRCLE_RANGE + CIRCLE_MIN
  let circleCenter := circleCenterOf terrainDepth randomX randomZ s.1
  circlesSweep sqrt cos terrainWidth terrainDepth randomCircleSize circleCenter (s.1, d3.2)

/-- The circles algorithm: `terrainComplexity` circle applications. -/
def circlesAlgorithm (sqrt cos : α → α) (terrainWidth terrainDepth terrainComplexity : Int)
    (s : (Int → α) × Rng) : (Int → α) × Rng :=
  forLoop terrainComplexity (fun _ s => circlesIteration sqrt cos terrainWidth terrainDepth s) s

/-- The body of the inner loops of the fault algorithm at vertex `(i,j)`. -/
def faultVertex (terrainDepth randomX1 randomZ1 randomX2 randomZ2 i j : Int)
    (heightMap : Int → α) : Int → α :=
  let displacement : α := 0.3
  if (randomX2 - randomX1) * (j - randomZ1) - (randomZ2 - randomZ1) * (i - randomX1) > 0 then
    Function.update heightMap (getIndex terrainDepth i j)
      (heightMap (getIndex terrainDepth i j) + displacement)
  else
    Function.update heightMap (getIndex terrainDepth i j)
      (heightMap (getIndex terrainDepth i j) - displacement)

/-- The displacement loops of one fault iteration for the line `(x1,z1)-(x2,z2)`. -/
def faultSweep (terrainWidth terrainDepth randomX1 randomZ1 randomX2 randomZ2 : Int)
    (heightMap : Int → α) : Int → α :=
  forLoop terrainWidth (fun i hm =>
    forLoop terrainDepth (fun j hm =>
      faultVertex terrainDepth randomX1 randomZ1 randomX2 randomZ2 i j hm) hm) heightMap

/-- One iteration of the `while` loop of the fault algorithm. -/
def faultIteration (terrainWidth terrainDepth : Int) (s : (Int → α) × Rng) : (Int → α) × Rng :=
  let d1 := rand s.2
  let randomX1 := Int.tmod d1.1 terrainWidth
  let d2 := rand d1.2
  let randomZ1 := Int.tmod d2.1 terrainDepth
  let d3 := rand d2.2
  let randomX2 := Int.tmod d3.1 terrainWidth
  let d4 := rand d3.2
  let randomZ2 := Int.tmod d4.1 terrainDepth
  (faultSweep terrainWidth terrainDepth randomX1 randomZ1 randomX2 randomZ2 s.1, d4.2)

/-- The fault algorithm: `terrainComplexity` fault iterations. -/
def faultAlgorithm (terrainWidth terrainDepth terrainComplexity : Int)
    (s : (Int → α) × Rng) : (Int → α) × Rng :=
  forLoop terrainComplexity (fun _ s => faultIteration terrainWidth terrainDepth s) s

/-- The state of a particle-deposition walk: heights, random source, position. -/
structure WalkState (α : Type) where
  heightMap : Int → α
  rng : Rng
  randomX : Int
  randomZ : Int

/-- One step of the `while (count < 100)` loop of particle deposition. -/
def depositionStep (terrainWidth terrainDepth : Int) (s : WalkState α) : WalkState α :=
  let d := rand s.rng
  let randNum := Int.tmod d.1 4
  let randomX :=
    if randNum = 0 then (if s.randomX + 1 < terrainWidth then s.randomX + 1 else s.randomX)
    else if randNum = 1 then (if s.randomX - 1 ≥ 0 then s.randomX - 1 else s.randomX)
    else s.randomX
  let randomZ :=
    if randNum = 2 then (if s.randomZ + 1 < terrainDepth then s.randomZ + 1 else s.randomZ)
    else if randNum = 3 then (if s.randomZ - 1 ≥ 0 then s.randomZ - 1 else s.randomZ)
    else s.randomZ
  let displacement : α := 0.3
  let index := getIndex terrainDepth randomX randomZ
  { heightMap := Function.update s.heightMap index (s.heightMap index + displacement),
    rng := d.2, randomX := randomX, randomZ := randomZ }

/-- One iteration of the outer loop of particle deposition: a start point and 100 steps. -/
def depositionIteration (terrainWidth terrainDepth : Int)
    (s : (Int → α) × Rng) : (Int → α) × Rng :=
  let d1 := rand s.2
  let randomX := Int.tmod d1.1 terrainWidth
  let d2 := rand d1.2
  let randomZ := Int.tmod d2.1 terrainDepth
  let w := forLoop 100 (fun _ ws => depositionStep terrainWidth terrainDepth ws)
    ({ heightMap := s.1, rng := d2.2, randomX := randomX, randomZ := randomZ } : WalkState α)
  (w.heightMap, w.rng)

/-- The particle deposition algorithm. -/
def depositionAlgorithm (terrainWidth terrainDepth terrainComplexity : Int)
    (s : (Int → α) × Rng) : (Int → α) × Rng :=
  let iterations := if terrainComplexity > 200 then 5 * terrainComplexity else terrainComplexity
  forLoop iterations (fun _ s => depositionIteration terrainWidth terrainDepth s) s

/-- The scan of `generateHeightValues` that reassigns the running maximum and minimum
(first component: `maxHeight`, second: `minHeight`). -/
def scanExtremes (n : Int) (heightMap : Int → α) (mm : α × α) : α × α :=
  forLoop n (fun i mm =>
    let mx := if heightMap i > mm.1 then heightMap i else mm.1
    let mn := if heightMap i < mm.2 then heightMap i else mm.2
    (mx, mn)) mm

/-- The branch of `generateHeightValues` selected by `flatten` and `algorithmMode`. -/
def generateBranch (sqrt cos : α → α) (flatten : Bool) (t : Terrain α) (r : Rng) :
    (Int → α) × Rng :=
  if flatten = true then
    (flattenHeights t.terrainWidth t.terrainDepth t.heightMap, r)
  else if t.algorithmMode = 'c' then
    circlesAlgorithm sqrt cos t.terrainWidth t.terrainDepth t.terrainComplexity (t.heightMap, r)
  else if t.algorithmMode = 'f' then
    faultAlgorithm t.terrainWidth t.terrainDepth t.terrainComplexity (t.heightMap, r)
  else if t.algorithmMode = 'd' then
    depositionAlgorithm t.terrainWidth t.terrainDepth t.terrainComplexity (t.heightMap, r)
  else (t.heightMap, r)

/-- Source `generateHeightValues`: generate values for the height map, then set the maximum and
the minimum (the camera and light positions it also moves are not part of the model). -/
def generateHeightValues (sqrt cos : α → α) (flatten : Bool) (t : Terrain α) (r : Rng) :
    Terrain α × Rng :=
  let g := generateBranch sqrt cos flatten t r
  let mm : α × α := (g.1 0, g.1 0)
  let mm := if flatten = true then mm
    else scanExtremes (t.terrainDepth * t.terrainWidth) g.1 mm
  ({ t with heightMap := g.1, maxHeight := mm.1, minHeight := mm.2 }, g.2)

end Generator

/-! ## Normal pipeline -/

section Normals

variable {α : Type} [LinearOrderedField α]

/-- Three consecutive reads `v[0] = arr[k]; v[1] = arr[k+1]; v[2] = arr[k+2]`. -/
def read3 (arr : Int → α) (k : Int) : Vec3 α :=
  ⟨arr k, arr (k + 1), arr (k + 2)⟩

/-- Three consecutive writes `arr[k] = v[0]; arr[k+1] = v[1]; arr[k+2] = v[2]`. -/
def write3 (arr : Int → α) (k : Int) (v : Vec3 α) : Int → α :=
  Function.update (Function.update (Function.update arr k v.c0) (k + 1) v.c1) (k + 2) v.c2

/-- Componentwise sum of two vectors. -/
def vadd (u v : Vec3 α) : Vec3 α :=
  ⟨u.c0 + v.c0, u.c1 + v.c1, u.c2 + v.c2⟩

/-- The cross product as `setNormals` writes it out. -/
def cross (u v : Vec3 α) : Vec3 α :=
  ⟨u.c1 * v.c2 - u.c2 * v.c1, u.c2 * v.c0 - u.c0 * v.c2, u.c0 * v.c1 - u.c1 * v.c0⟩

/-- The magnitude `sqrt(pow(v[0],2) + pow(v[1],2) + pow(v[2],2))`. -/
def magnitude (sqrt : α → α) (v : Vec3 α) : α :=
  sqrt (v.c0 ^ 2 + v.c1 ^ 2 + v.c2 ^ 2)

/-- The three divisions `v[0] /= m; v[1] /= m; v[2] /= m`. -/
def divide (v : Vec3 α) (m : α) : Vec3 α :=
  ⟨v.c0 / m, v.c1 / m, v.c2 / m⟩

/-- A vector divided by its own magnitude. -/
def normalize (sqrt : α → α) (v : Vec3 α) : Vec3 α :=
  divide v (magnitude sqrt v)

/-- Edge vector `vecA` of cell `(j,i)`. -/
def vecA (terrainDepth : Int) (heightMap : Int → α) (j i : Int) : Vec3 α :=
  ⟨0, heightMap (getIndex terrainDepth j (i + 1)) - heightMap (getIndex terrainDepth j i),
    ((VERT_SPACING * (i + 1) - VERT_SPACING * i : Int) : α)⟩

/-- Edge vector `vecB` of cell `(j,i)`. -/
def vecB (terrainDepth : Int) (heightMap : Int → α) (j i : Int) : Vec3 α :=
  ⟨((VERT_SPACING * (j + 1) - VERT_SPACING * j : Int) : α),
    heightMap (getIndex terrainDepth (j + 1) (i + 1)) - heightMap (getIndex terrainDepth j i),
    ((VERT_SPACING * (i + 1) - VERT_SPACING * i : Int) : α)⟩

/-- Edge vector `vecC` of cell `(j,i)`. -/
def vecC (terrainDepth : Int) (heightMap : Int → α) (j i : Int) : Vec3 α :=
  ⟨((VERT_SPACING * (j + 1) - VERT_SPACING * j : Int) : α),
    heightMap (getIndex terrainDepth (j + 1) i) - heightMap (getIndex terrainDepth j i), 0⟩

/-- The normalised normal of triangle one of cell `(j,i)`: `A × B` over its magnitude. -/
def triangleOneNorm (sqrt : α → α) (terrainDepth : Int) (heightMap : Int → α) (j i : Int) :
    Vec3 α :=
  normalize sqrt (cross (vecA terrainDepth heightMap j i) (vecB terrainDepth heightMap j i))

/-- The normalised normal of triangle two of cell `(j,i)`: `B × C` over its magnitude. -/
def triangleTwoNorm (sqrt : α → α) (terrainDepth : Int) (heightMap : Int → α) (j i : Int) :
    Vec3 α :=
  normalize sqrt (cross (vecB terrainDepth heightMap j i) (vecC terrainDepth heightMap j i))

/-- The normalised quad normal of cell `(j,i)`: `A × C` over its magnitude. -/
def quadNorm (sqrt : α → α) (terrainDepth : Int) (heightMap : Int → α) (j i : Int) : Vec3 α :=
  normalize sqrt (cross (vecA terrainDepth heightMap j i) (vecC terrainDepth heightMap j i))

/-- The loop-carried state of the face loops of `setNormals`. -/
structure FaceState (α : Type) where
  triangleNormals : Int → α
  quadNormals : Int → α
  triangleNormIndex : Int
  quadNormIndex : Int

/-- The body of the face loops of `setNormals` at cell `(j,i)`: the three normals are stored at
the running indices, which advance by six and by three. -/
def faceCell (sqrt : α → α) (terrainDepth : Int) (heightMap : Int → α) (i j : Int)
    (s : FaceState α) : FaceState α :=
  { triangleNormals :=
      write3 (write3 s.triangleNormals s.triangleNormIndex
        (triangleOneNorm sqrt terrainDepth heightMap j i))
        (s.triangleNormIndex + 3) (triangleTwoNorm sqrt terrainDepth heightMap j i),
    quadNormals := write3 s.quadNormals s.quadNormIndex (quadNorm sqrt terrainDepth heightMap j i),
    triangleNormIndex := s.triangleNormIndex + 6,
    quadNormIndex := s.quadNormIndex + 3 }

/-- The face loops of `setNormals`: `for i < depth - 1, for j < width - 1`, both running indices
starting at `0`. -/
def faceLoops (sqrt : α → α) (t : Terrain α) : FaceState α :=
  forLoop (t.terrainDepth - 1) (fun i s =>
    forLoop (t.terrainWidth - 1) (fun j s =>
      faceCell sqrt t.terrainDepth t.heightMap i j s) s)
    { triangleNormals := t.triangleNormals, quadNormals := t.quadNormals,
      triangleNormIndex := 0, quadNormIndex := 0 }

/-- The un-normalised sums of `setVertexNormals` at vertex `(x,z)`: the triangle-basis sum and the
quad-basis sum, by the nine positional cases of the source. -/
def vertexSums (terrainWidth terrainDepth : Int) (triangleNormals quadNormals : Int → α)
    (x z : Int) : Vec3 α × Vec3 α :=
  let tri := fun (a b : Int) (first : Bool) =>
    read3 triangleNormals (getNormalIndex terrainDepth a b 't' first)
  let quad := fun (a b : Int) => read3 quadNormals (getNormalIndex terrainDepth a b 'y' true)
  if x = 0 ∧ z = 0 then
    (vadd (tri x z true) (tri x z false), quad x z)
  else if x = 0 ∧ z = terrainDepth - 1 then
    (tri x (z - 1) true, quad x (z - 1))
  else if x = terrainWidth - 1 ∧ z = 0 then
    (tri (x - 1) z false, quad (x - 1) z)
  else if x = terrainWidth - 1 ∧ z = terrainDepth - 1 then
    (vadd (tri (x - 1) (z - 1) true) (tri (x - 1) (z - 1) false), quad (x - 1) (z - 1))
  else if x = 0 then
    (vadd (vadd (tri x (z - 1) true) (tri x z false)) (tri x z true),
      vadd (quad x (z - 1)) (quad x z))
  else if z = 0 then
    (vadd (vadd (tri (x - 1) z false) (tri x z true)) (tri x z false),
      vadd (quad (x - 1) z) (quad x z))
  else if x = terrainWidth - 1 then
    (vadd (vadd (tri (x - 1) (z - 1) false) (tri (x - 1) (z - 1) true)) (tri (x - 1) z false),
      vadd (quad (x - 1) (z - 1)) (quad (x - 1) z))
  else if z = terrainDepth - 1 then
    (vadd (vadd (tri (x - 1) (z - 1) true) (tri (x - 1) (z - 1) false)) (tri x (z - 1) true),
      vadd (quad (x - 1) (z - 1)) (quad x (z - 1)))
  else
    (vadd (vadd (vadd (vadd (vadd (tri (x - 1) z false) (tri x z true)) (tri x z false))
        (tri (x - 1) (z - 1) true)) (tri (x - 1) (z - 1) false)) (tri x (z - 1) true),
      vadd (vadd (vadd (quad (x - 1) (z - 1)) (quad x (z - 1))) (quad (x - 1) z)) (quad x z))

/-- The loop-carried state of the loops of `setVertexNormals`. -/
structure VertexState (α : Type) where
  triangleVertexNormals : Int → α
  quadVertexNormals : Int → α
  indexCounter : Int

/-- The normalisation at the end of the body of `setVertexNormals`: the magnitude is read back
from the three slots at `k` and each slot is divided by it. -/
def normalizeSlots (sqrt : α → α) (arr : Int → α) (k : Int) : Int → α :=
  let magnitude := sqrt (arr k ^ 2 + arr (k + 1) ^ 2 + arr (k + 2) ^ 2)
  let arr := Function.update arr k (arr k / magnitude)
  let arr := Function.update arr (k + 1) (arr (k + 1) / magnitude)
  Function.update arr (k + 2) (arr (k + 2) / magnitude)

/-- The body of the loops of `setVertexNormals` at vertex `(x,z)`: the sums are stored at
`indexCounter`, normalised in place, and `indexCounter` advances by three. -/
def vertexCell (sqrt : α → α) (terrainWidth terrainDepth : Int)
    (triangleNormals quadNormals : Int → α) (z x : Int) (s : VertexState α) : VertexState α :=
  let sums := vertexSums terrainWidth terrainDepth triangleNormals quadNormals x z
  { triangleVertexNormals :=
      normalizeSlots sqrt (write3 s.triangleVertexNormals s.indexCounter sums.1) s.indexCounter,
    quadVertexNormals :=
      normalizeSlots sqrt (write3 s.quadVertexNormals s.indexCounter sums.2) s.indexCounter,
    indexCounter := s.indexCounter + 3 }

/-- The loops of `setVertexNormals`: `for z < depth, for x < width`, `indexCounter` starting at
`0`. -/
def vertexLoops (sqrt : α → α) (t : Terrain α) : VertexState α :=
  forLoop t.terrainDepth (fun z s =>
    forLoop t.terrainWidth (fun x s =>
      vertexCell sqrt t.terrainWidth t.terrainDepth t.triangleNormals t.quadNormals z x s) s)
    { triangleVertexNormals := t.triangleVertexNormals,
      quadVertexNormals := t.quadVertexNormals, indexCounter := 0 }

/-- Source `setVertexNormals`: once the surface normals are calculated, calculate vertex
normals. -/
def setVertexNormals (sqrt : α → α) (t : Terrain α) : Terrain α :=
  let s := vertexLoops sqrt t
  { t with triangleVertexNormals := s.triangleVertexNormals,
           quadVertexNormals := s.quadVertexNormals }

/-- The face-normal pass of `setNormals`: the terrain after the face loops, before the call of
`setVertexNormals`. -/
def setFaceNormals (sqrt : α → α) (t : Terrain α) : Terrain α :=
  let s := faceLoops sqrt t
  { t with triangleNormals := s.triangleNormals, quadNormals := s.quadNormals }

/-- Source `setNormals`: the face-normal pass followed by `setVertexNormals`. -/
def setNormals (sqrt : α → α) (t : Terrain α) : Terrain α :=
  setVertexNormals sqrt (setFaceNormals sqrt t)

end Normals

/-- Source `keyboard`, case `'r'`: flatten, generate under the current mode, recompute the
normals. -/
def randomizeTerrain {α : Type} [LinearOrderedField α] [FloorRing α] (sqrt cos : α → α)
    (t : Terrain α) (r : Rng) : Terrain α × Rng :=
  let a := generateHeightValues sqrt cos true t r
  let b := generateHeightValues sqrt cos false a.1 a.2
  (setNormals sqrt b.1, b.2)

/-! ## Sample inputs -/

section Samples

variable (α : Type) [LinearOrderedField α]

/-- A 50 x 50 terrain with the given mode, complexity and heights, all normal arrays zero. -/
def sampleTerrain (mode : Char) (complexity : Int) (heightMap : Int → α) : Terrain α :=
  { heightMap := heightMap,
    triangleNormals := fun _ => 0,
    quadNormals := fun _ => 0,
    triangleVertexNormals := fun _ => 0,
    quadVertexNormals := fun _ => 0,
    terrainWidth := 50,
    terrainDepth := 50,
    terrainComplexity := complexity,
    algorithmMode := mode,
    maxHeight := 0,
    minHeight := 0 }

/-- A height field with a slope: the height at offset `k` is `k / 4`. -/
def slopeHeights : Int → α :=
  fun k => (k : α) / 4

/-- A random source whose draws are all `v`. -/
def constRng (v : Nat) : Rng :=
  { draws := fun _ => v, pos := 0 }

/-- A random source whose first four draws pick the fault line `(0,0)-(49,0)`. -/
def faultLineRng : Rng :=
  { draws := fun n => if n = 2 then 49 else 0, pos := 0 }

/-- A flat height field with one raised vertex: vertex `(2,0)` of the 50 x 50 grid, at offset
`100`, has height `4`. -/
def bumpHeights : Int → α :=
  fun k => if k = 100 then 4 else 0

/-- The 50 x 50 terrain with the height field `bumpHeights`. -/
def bumpTerrain : Terrain α :=
  sampleTerrain α 'c' 1000 (bumpHeights α)

/-- A flat 50 x 50 terrain whose triangle-face array holds, from an earlier use of the memory,
`(0,1,0)` at slots `14688..14690` and `(0,-1,0)` at slots `14691..14693`. -/
def staleTriangleTerrain : Terrain α :=
  { sampleTerrain α 'c' 0 (fun _ => 0) with
    triangleNormals := fun p => if p = 14689 then 1 else if p = 14692 then -1 else 0 }

/-- A flat 50 x 50 terrain whose quad-face array holds, from an earlier use of the memory,
`(1,0,0)` at slots `7203..7205` and at slots `7206..7208`. -/
def staleQuadTerrain : Terrain α :=
  { sampleTerrain α 'c' 0 (fun _ => 0) with
    quadNormals := fun p => if p = 7203 ∨ p = 7206 then 1 else 0 }

end Samples

/-! ## Definitions used to state the claims -/

section ClaimDefs

variable {α : Type} [LinearOrderedField α]

/-- The amount `randomDisp / 2 + cos(pd * 3.14) * randomDisp / 2` that the circles algorithm adds
to a displaced vertex; the first quotient divides two `int`s. -/
def circlesAmount (cos : α → α) (randomDisp : Int) (pd : α) : α :=
  ((Int.tdiv randomDisp 2 : Int) : α) + cos (pd * 3.14) * (randomDisp : α) / 2

/-- The sum of the first `n` slots of a height map: the sum of all heights for
`n = width * depth`. -/
def heightSum (n : Int) (heightMap : Int → α) : α :=
  Finset.sum (Finset.range n.toNat) (fun k => heightMap (k : Int))

/-- A `float[3]` as a vector indexed by `Fin 3`. -/
def Vec3.toFun (v : Vec3 α) : Fin 3 → α :=
  ![v.c0, v.c1, v.c2]

/-- The sum of a list of vectors. -/
def vsum (l : List (Vec3 α)) : Vec3 α :=
  l.foldl vadd ⟨0, 0, 0⟩

/-- The arguments `(x, z, first)` of the calls `getNormalIndex(x, z, 't', first)` that
`setVertexNormals` makes at vertex `(x,z)`, in the order `index1, index2, ...` of the source. -/
def vertexTriangleFaces (terrainWidth terrainDepth x z : Int) : List (Int × Int × Bool) :=
  if x = 0 ∧ z = 0 then [(x, z, true), (x, z, false)]
  else if x = 0 ∧ z = terrainDepth - 1 then [(x, z - 1, true)]
  else if x = terrainWidth - 1 ∧ z = 0 then [(x - 1, z, false)]
  else if x = terrainWidth - 1 ∧ z = terrainDepth - 1 then
    [(x - 1, z - 1, true), (x - 1, z - 1, false)]
  else if x = 0 then [(x, z - 1, true), (x, z, false), (x, z, true)]
  else if z = 0 then [(x - 1, z, false), (x, z, true), (x, z, false)]
  else if x = terrainWidth - 1 then
    [(x - 1, z - 1, false), (x - 1, z - 1, true), (x - 1, z, false)]
  else if z = terrainDepth - 1 then
    [(x - 1, z - 1, true), (x - 1, z - 1, false), (x, z - 1, true)]
  else
    [(x - 1, z, false), (x, z, true), (x, z, false), (x - 1, z - 1, true),
      (x - 1, z - 1, false), (x, z - 1, true)]

/-- The arguments `(x, z)` of the calls `getNormalIndex(x, z, 'y', true)` that `setVertexNormals`
makes at vertex `(x,z)`, in the order `index1, index2, ...` of the source. -/
def vertexQuadFaces (terrainWidth terrainDepth x z : Int) : List (Int × Int) :=
  if x = 0 ∧ z = 0 then [(x, z)]
  else if x = 0 ∧ z = terrainDepth - 1 then [(x, z - 1)]
  else if x = terrainWidth - 1 ∧ z = 0 then [(x - 1, z)]
  else if x = terrainWidth - 1 ∧ z = terrainDepth - 1 then [(x - 1, z - 1)]
  else if x = 0 then [(x, z - 1), (x, z)]
  else if z = 0 then [(x - 1, z), (x, z)]
  else if x = terrainWidth - 1 then [(x - 1, z - 1), (x - 1, z)]
  else if z = terrainDepth - 1 then [(x - 1, z - 1), (x, z - 1)]
  else [(x - 1, z - 1), (x, z - 1), (x - 1, z), (x, z)]

/-- The positional table of the specification (section 4.4), triangle column: the faces
`(cell x, cell z, first?)` listed for the position class of vertex `(x,z)`, classes as the table
names them (a corner, an edge with the other coordinate interior, the interior). -/
def specTriangleFaces (width depth x z : Int) : List (Int × Int × Bool) :=
  if x = 0 ∧ z = 0 then [(0, 0, true), (0, 0, false)]
  else if x = 0 ∧ z = depth - 1 then [(0, depth - 2, true)]
  else if x = width - 1 ∧ z = 0 then [(width - 2, 0, false)]
  else if x = width - 1 ∧ z = depth - 1 then
    [(width - 2, depth - 2, true), (width - 2, depth - 2, false)]
  else if x = 0 ∧ 0 < z ∧ z < depth - 1 then [(0, z - 1, true), (0, z, true), (0, z, false)]
  else if z = 0 ∧ 0 < x ∧ x < width - 1 then [(x - 1, 0, false), (x, 0, true), (x, 0, false)]
  else if x = width - 1 ∧ 0 < z ∧ z < depth - 1 then
    [(x - 1, z - 1, false), (x - 1, z - 1, true), (x - 1, z, false)]
  else if z = depth - 1 ∧ 0 < x ∧ x < width - 1 then
    [(x - 1, z - 1, true), (x - 1, z - 1, false), (x, z - 1, true)]
  else if 0 < x ∧ x < width - 1 ∧ 0 < z ∧ z < depth - 1 then
    [(x - 1, z, false), (x, z, true), (x, z, false), (x - 1, z - 1, true),
      (x - 1, z - 1, false), (x, z - 1, true)]
  else []

/-- The positional table of the specification (section 4.4), quad column: the cells listed for
the position class of vertex `(x,z)`. -/
def specQuadFaces (width depth x z : Int) : List (Int × Int) :=
  if x = 0 ∧ z = 0 then [(0, 0)]
  else if x = 0 ∧ z = depth - 1 then [(0, depth - 2)]
  else if x = width - 1 ∧ z = 0 then [(width - 2, 0)]
  else if x = width - 1 ∧ z = depth - 1 then [(width - 2, depth - 2)]
  else if x = 0 ∧ 0 < z ∧ z < depth - 1 then [(0, z - 1), (0, z)]
  else if z = 0 ∧ 0 < x ∧ x < width - 1 then [(x - 1, 0), (x, 0)]
  else if x = width - 1 ∧ 0 < z ∧ z < depth - 1 then [(x - 1, z - 1), (x - 1, z)]
  else if z = depth - 1 ∧ 0 < x ∧ x < width - 1 then [(x - 1, z - 1), (x, z - 1)]
  else if 0 < x ∧ x < width - 1 ∧ 0 < z ∧ z < depth - 1 then
    [(x - 1, z - 1), (x, z - 1), (x - 1, z), (x, z)]
  else []

/-- The corners of the two triangles of cell `(j,i)`: triangle one (`first = true`) lies on
`(j,i), (j,i+1), (j+1,i+1)`, triangle two on `(j,i), (j+1,i+1), (j+1,i)`. -/
def triangleCorners (j i : Int) (first : Bool) : List (Int × Int) :=
  if first = true then [(j, i), (j, i + 1), (j + 1, i + 1)]
  else [(j, i), (j + 1, i + 1), (j + 1, i)]

/-- The four corners of cell `(j,i)`. -/
def quadCorners (j i : Int) : List (Int × Int) :=
  [(j, i), (j, i + 1), (j + 1, i + 1), (j + 1, i)]

/-- A height field that is `1/2` at vertex `(5,5)` of the 50 x 50 grid (offset `255`), the height
the circles algorithm leaves at a circle centre displaced once with magnitude 1, and `0`
elsewhere. -/
def halfHeights (α : Type) [LinearOrderedField α] : Int → α :=
  fun k => if k = 255 then 1 / 2 else 0

/-- A walk of particle deposition standing on vertex `(5,5)` of a flat grid, all coming draws
being `0` (direction `x + 1`). -/
def walkStart (α : Type) [LinearOrderedField α] : WalkState α :=
  { heightMap := fun _ => 0, rng := constRng 0, randomX := 5, randomZ := 5 }

end ClaimDefs

/-! ## The algorithm-cycling command -/

section CycleCommand

variable {α : Type} [LinearOrderedField α] [FloorRing α]

/-- Source `keyboard`, case `'G'`: the algorithm mode the command sets. -/
def nextAlgorithmMode (algorithmMode : Char) : Char :=
  if algorithmMode = 'c' then 'f'
  else if algorithmMode = 'f' then 'd'
  else if algorithmMode = 'd' then 'c'
  else algorithmMode

/-- Source `keyboard`, case `'G'`: set the new algorithm mode, flatten, generate. -/
def cycleAlgorithm (sqrt cos : α → α) (t : Terrain α) (r : Rng) : Terrain α × Rng :=
  let a := generateHeightValues sqrt cos true
    { t with algorithmMode := nextAlgorithmMode t.algorithmMode } r
  generateHeightValues sqrt cos false a.1 a.2

end CycleCommand

/-! ## Renderer -/

section Renderer

/-- Source `main`: the length of the array `heightMap`, `new float [terrainWidth * terrainDepth]`. -/
def heightMapSize (terrainWidth terrainDepth : Int) : Int :=
  terrainWidth * terrainDepth

/-- Source `main`: the length of each of the arrays `triangleVertexNormals` and
`quadVertexNormals`, `new float [3 * terrainWidth * terrainDepth]`. -/
def vertexNormalsSize (terrainWidth terrainDepth : Int) : Int :=
  3 * terrainWidth * terrainDepth

/-- The variables of the `while (1)` loop of `drawTerrain` for one strip, with the list of the
coordinates `(j,i)` passed to `getIndex` so far, one entry per emitted vertex, in order. -/
structure StripState where
  i : Int
  j : Int
  counter : Int
  emitted : List (Int × Int)

/-- One pass of the body of the `while (1)` loop of `drawTerrain` in its `else` branch: the vertex
`(j,i)` is emitted (height read at `getIndex(j,i)`, normal read at `3 * getIndex(j,i)` and the two
slots after it), then `i++` on an even counter, `j++; i--` on an odd one, and `counter++`. -/
def stripStep (s : StripState) : StripState :=
  let emitted := s.emitted ++ [(s.j, s.i)]
  if Int.tmod s.counter 2 = 0 then
    { i := s.i + 1, j := s.j, counter := s.counter + 1, emitted := emitted }
  else
    { i := s.i - 1, j := s.j + 1, counter := s.counter + 1, emitted := emitted }

/-- The `while (1)` loop of `drawTerrain`, which breaks when `counter == 2 * terrainWidth`. The
first argument bounds the number of tests of the break condition; `none` means the bound was
reached before the loop broke. -/
def stripLoop (terrainWidth : Int) : Nat → StripState → Option StripState
  | 0, _ => none
  | fuel + 1, s =>
    if s.counter = 2 * terrainWidth then some s
    else stripLoop terrainWidth fuel (stripStep s)

/-- The body of the `for (int z = 0; z < terrainDepth; z++)` loop of `drawTerrain`: the strip of
layer `z`, as the list of coordinates `(j,i)` of its emitted vertices. -/
def drawStrip (terrainWidth : Int) (fuel : Nat) (z : Int) : Option (List (Int × Int)) :=
  match stripLoop terrainWidth fuel { i := z, j := 0, counter := 0, emitted := [] } with
  | some s => some s.emitted
  | none => none

/-- Source `drawTerrain`: one strip per `z` in `[0, terrainDepth)`; the result lists, strip by
strip, the coordinates `(j,i)` of the emitted vertices. The polygon mode, the colours and the
strip mode do not change which vertices are emitted. -/
def drawTerrain (terrainWidth terrainDepth : Int) (fuel : Nat) :
    Option (List (List (Int × Int))) :=
  forLoop terrainDepth (fun z acc =>
    match acc, drawStrip terrainWidth fuel z with
    | some strips, some e => some (strips ++ [e])
    | _, _ => none) (some [])

end Renderer

/-! ## Loop lemmas -/

section LoopLemmas

variable {σ : Type}

theorem forLoop_nonpos (n : Int) (hn : n ≤ 0) (body : Int → σ → σ) (s : σ) :
    forLoop n body s = s := by
  have h : n.toNat = 0 := by omega
  simp [forLoop, h]

theorem forLoop_succ (n : Nat) (body : Int → σ → σ) (s : σ) :
    forLoop ((n : Int) + 1) body s = body (n : Int) (forLoop (n : Int) body s) := by
  have h : ((n : Int) + 1).toNat = n + 1 := by omega
  simp [forLoop, h, List.range_succ, List.foldl_append]

/-- Invariant rule for `forLoop`. -/
theorem forLoop_invariant (P : Int → σ → Prop) (n : Int) (hn : 0 ≤ n) (body : Int → σ → σ)
    (s : σ) (h0 : P 0 s)
    (hstep : ∀ k s, 0 ≤ k → k < n → P k s → P (k + 1) (body k s)) :
    P n (forLoop n body s) := by
  obtain ⟨m, rfl⟩ := Int.eq_ofNat_of_zero_le hn
  induction m with
  | zero => simpa [forLoop] using h0
  | succ m ih =>
    have hm : ((m + 1 : Nat) : Int) = (m : Int) + 1 := by push_cast; ring
    rw [hm, forLoop_succ]
    apply hstep _ _ (by omega) (by omega)
    apply ih (by omega)
    intro k s hk hk2 hP
    exact hstep k s hk (by omega) hP

end LoopLemmas

section SweepLemmas

variable {σ α : Type}

/-- Distinct grid vertices have distinct height-map offsets. -/
theorem getIndex_inj (D x z i j : Int) (hz : 0 ≤ z) (hzD : z < D) (hj : 0 ≤ j) (hjD : j < D)
    (h : getIndex D x z = getIndex D i j) : x = i ∧ z = j := by
  unfold getIndex at h
  have hx : x = i := by
    rcases lt_trichotomy x i with hlt | heq | hgt
    · exfalso
      have : (i - x) * D ≥ 1 * D := by
        apply mul_le_mul_of_nonneg_right (by omega) (by omega)
      nlinarith
    · exact heq
    · exfalso
      have : (x - i) * D ≥ 1 * D := by
        apply mul_le_mul_of_nonneg_right (by omega) (by omega)
      nlinarith
  subst hx
  exact ⟨rfl, by omega⟩

/-- A loop whose iterations leave slot `p` alone leaves slot `p` alone. -/
theorem forLoop_frame (get : σ → Int → α) (touches : Int → Int → Prop) (n : Int)
    (body : Int → σ → σ)
    (hbody : ∀ k s p, 0 ≤ k → k < n → ¬ touches k p → get (body k s) p = get s p)
    (s : σ) (p : Int) (hp : ∀ k, 0 ≤ k → k < n → ¬ touches k p) :
    get (forLoop n body s) p = get s p := by
  rcases le_or_lt n 0 with hn | hn
  · rw [forLoop_nonpos n hn]
  · refine forLoop_invariant (fun _ s' => get s' p = get s p) n (le_of_lt hn) body s rfl ?_
    intro k s' hk hkn hP
    rw [hbody k s' p hk hkn (hp k hk hkn), hP]

/-- A loop in which only iteration `k0` touches slot `p`: the final content of `p` is what
iteration `k0` left there, and that iteration found in `p` the initial content. -/
theorem forLoop_touch (get : σ → Int → α) (touches : Int → Int → Prop) (n : Int)
    (body : Int → σ → σ)
    (hbody : ∀ k s p, 0 ≤ k → k < n → ¬ touches k p → get (body k s) p = get s p)
    (s : σ) (p : Int) (k0 : Int) (hk0 : 0 ≤ k0) (hk0n : k0 < n)
    (hp : ∀ k, 0 ≤ k → k < n → k ≠ k0 → ¬ touches k p) :
    ∃ s0, get s0 p = get s p ∧ get (forLoop n body s) p = get (body k0 s0) p := by
  have key := forLoop_invariant
    (fun k s' => (k ≤ k0 → get s' p = get s p) ∧
      (k0 < k → ∃ s0, get s0 p = get s p ∧ get s' p = get (body k0 s0) p))
    n (by omega) body s ⟨fun _ => rfl, fun h => absurd h (by omega)⟩ ?_
  · exact key.2 hk0n
  · intro k s' hk hkn ⟨h1, h2⟩
    refine ⟨fun hle => ?_, fun hlt => ?_⟩
    · rw [hbody k s' p hk hkn (hp k hk hkn (by omega))]
      exact h1 (by omega)
    · rcases eq_or_lt_of_le (show k0 ≤ k by omega) with heq | hlt2
      · subst heq
        exact ⟨s', h1 le_rfl, rfl⟩
      · obtain ⟨s0, hs0, hs'⟩ := h2 hlt2
        refine ⟨s0, hs0, ?_⟩
        rw [hbody k s' p hk hkn (hp k hk hkn (by omega)), hs']

/-- The nested grid loops `for i < W, for j < D` with a body that writes only the height slot of
its own vertex: slots outside the grid are left alone. -/
theorem sweep_frame (get : σ → Int → α) (W D : Int) (body : Int → Int → σ → σ)
    (hbody : ∀ i j s p, p ≠ getIndex D i j → get (body i j s) p = get s p)
    (s : σ) (p : Int)
    (hp : ∀ i j, 0 ≤ i → i < W → 0 ≤ j → j < D → p ≠ getIndex D i j) :
    get (forLoop W (fun i s => forLoop D (fun j s => body i j s) s) s) p = get s p := by
  apply forLoop_frame get (fun i q => ∃ j, 0 ≤ j ∧ j < D ∧ q = getIndex D i j) W _ _ s p
  · intro i hi hiW ⟨j, hj, hjD, hpj⟩
    exact hp i j hi hiW hj hjD hpj
  · intro i s' q _ _ hq
    apply forLoop_frame get (fun j q => q = getIndex D i j) D _ _ s' q
    · intro j hj hjD hqj
      exact hq ⟨j, hj, hjD, hqj⟩
    · intro j s'' q' _ _ hq'
      exact hbody i j s'' q' hq'

/-- The nested grid loops: the final content of the slot of vertex `(x,z)` is what the body left
there at `(x,z)`, and the body found there the initial content. -/
theorem sweep_touch (get : σ → Int → α) (W D : Int) (body : Int → Int → σ → σ)
    (hbody : ∀ i j s p, p ≠ getIndex D i j → get (body i j s) p = get s p)
    (s : σ) (x z : Int) (hx : 0 ≤ x) (hxW : x < W) (hz : 0 ≤ z) (hzD : z < D) :
    ∃ s0, get s0 (getIndex D x z) = get s (getIndex D x z) ∧
      get (forLoop W (fun i s => forLoop D (fun j s => body i j s) s) s) (getIndex D x z)
        = get (body x z s0) (getIndex D x z) := by
  have inner : ∀ i s' q, (∀ j, 0 ≤ j → j < D → q ≠ getIndex D i j) →
      get (forLoop D (fun j s => body i j s) s') q = get s' q := by
    intro i s' q hq
    apply forLoop_frame get (fun j q => q = getIndex D i j) D _ _ s' q
    · intro j hj hjD hqj
      exact hq j hj hjD hqj
    · intro j s'' q' _ _ hq'
      exact hbody i j s'' q' hq'
  obtain ⟨s1, hs1, hres⟩ := forLoop_touch get
    (fun i q => ∃ j, 0 ≤ j ∧ j < D ∧ q = getIndex D i j) W
    (fun i s => forLoop D (fun j s => body i j s) s)
    (fun i s' q _ _ hq => inner i s' q (fun j hj hjD hqj => hq ⟨j, hj, hjD, hqj⟩))
    s (getIndex D x z) x hx hxW
    (by
      intro i _ _ hix ⟨j, hj, hjD, hpj⟩
      exact hix (getIndex_inj D x z i j hz hzD hj hjD hpj).1.symm)
  obtain ⟨s2, hs2, hres2⟩ := forLoop_touch get (fun j q => q = getIndex D x j) D
    (fun j s => body x j s)
    (fun j s' q _ _ hq => hbody x j s' q hq)
    s1 (getIndex D x z) z hz hzD
    (by
      intro j hj hjD hjz hpj
      exact hjz (getIndex_inj D x z x j hz hzD hj hjD hpj).2.symm)
  exact ⟨s2, by rw [hs2, hs1], by rw [hres, hres2]⟩

end SweepLemmas

/-! ## The height-field generator -/

section GeneratorLemmas

variable {α : Type} [LinearOrderedField α]

/-- Every grid vertex has its offset inside `[0, depth * width)`. -/
theorem getIndex_range (W D x z : Int) (hx : 0 ≤ x) (hxW : x < W) (hz : 0 ≤ z) (hzD : z < D) :
    0 ≤ getIndex D x z ∧ getIndex D x z < D * W := by
  unfold getIndex
  have h1 : 0 ≤ x * D := mul_nonneg hx (by omega)
  have h2 : x * D ≤ (W - 1) * D := mul_le_mul_of_nonneg_right (by omega) (by omega)
  constructor
  · omega
  · nlinarith

/-- Every offset inside `[0, depth * width)` is the offset of a grid vertex. -/
theorem getIndex_surj (W D k : Int) (hD : 0 < D) (hk : 0 ≤ k) (hkn : k < D * W) :
    ∃ x z, 0 ≤ x ∧ x < W ∧ 0 ≤ z ∧ z < D ∧ k = getIndex D x z := by
  refine ⟨k / D, k % D, Int.ediv_nonneg hk (le_of_lt hD), ?_, Int.emod_nonneg k (ne_of_gt hD),
    Int.emod_lt_of_pos k hD, ?_⟩
  · exact Int.ediv_lt_of_lt_mul hD (by rw [mul_comm]; exact hkn)
  · unfold getIndex
    have := Int.ediv_add_emod k D
    rw [mul_comm] at this
    omega

theorem flattenHeights_grid (W D : Int) (hm : Int → α) (x z : Int)
    (hx : 0 ≤ x) (hxW : x < W) (hz : 0 ≤ z) (hzD : z < D) :
    flattenHeights W D hm (getIndex D x z) = 0 := by
  obtain ⟨s0, _, h⟩ := sweep_touch (fun (hm : Int → α) => hm) W D
    (fun i j hm => Function.update hm (getIndex D i j) 0)
    (fun i j s p hp => by simp [Function.update_apply, hp]) hm x z hx hxW hz hzD
  unfold flattenHeights
  simp only at h ⊢
  rw [h]
  simp

theorem faultVertex_frame (D x1 z1 x2 z2 i j : Int) (hm : Int → α) (p : Int)
    (hp : p ≠ getIndex D i j) : faultVertex D x1 z1 x2 z2 i j hm p = hm p := by
  simp only [faultVertex]
  split_ifs <;> simp [Function.update_apply, hp]

theorem faultSweep_grid (W D x1 z1 x2 z2 : Int) (hm : Int → α) (i j : Int)
    (hi : 0 ≤ i) (hiW : i < W) (hj : 0 ≤ j) (hjD : j < D) :
    faultSweep W D x1 z1 x2 z2 hm (getIndex D i j)
      = if (x2 - x1) * (j - z1) - (z2 - z1) * (i - x1) > 0
        then hm (getIndex D i j) + 0.3 else hm (getIndex D i j) - 0.3 := by
  obtain ⟨s0, hs0, h⟩ := sweep_touch (fun (hm : Int → α) => hm) W D
    (fun i j hm => faultVertex D x1 z1 x2 z2 i j hm)
    (fun i j s p hp => faultVertex_frame D x1 z1 x2 z2 i j s p hp) hm i j hi hiW hj hjD
  unfold faultSweep
  rw [h]
  simp only [faultVertex]
  split_ifs <;> simp [hs0]

theorem circlesVertex_frame (sqrt cos : α → α) (D r : Int) (c : Vec3 α) (i j : Int)
    (s : (Int → α) × Rng) (p : Int) (hp : p ≠ getIndex D i j) :
    (circlesVertex sqrt cos D r c i j s).1 p = s.1 p := by
  unfold circlesVertex
  simp only
  split_ifs <;> simp [Function.update_apply, hp]

theorem circlesVertex_outside (sqrt cos : α → α) (D r : Int) (hr : 0 < r) (c : Vec3 α)
    (i j : Int) (s : (Int → α) × Rng)
    (hfar : pointDistance sqrt ⟨(i : α), s.1 (getIndex D i j), (j : α)⟩ c > (r : α) / 2) :
    (circlesVertex sqrt cos D r c i j s).1 (getIndex D i j) = s.1 (getIndex D i j) := by
  have hr' : (0 : α) < (r : α) := by exact_mod_cast hr
  have hpd : ¬ |pointDistance sqrt ⟨(i : α), s.1 (getIndex D i j), (j : α)⟩ c * 2 / (r : α)| ≤ 1 := by
    intro h
    have h1 := (abs_le.mp h).2
    rw [div_le_one hr'] at h1
    linarith
  unfold circlesVertex
  simp only
  rw [if_neg hpd]

theorem circlesSweep_outside (sqrt cos : α → α) (W D r : Int) (hr : 0 < r) (c : Vec3 α)
    (s : (Int → α) × Rng) (i j : Int)
    (hi : 0 ≤ i) (hiW : i < W) (hj : 0 ≤ j) (hjD : j < D)
    (hfar : pointDistance sqrt ⟨(i : α), s.1 (getIndex D i j), (j : α)⟩ c > (r : α) / 2) :
    (circlesSweep sqrt cos W D r c s).1 (getIndex D i j) = s.1 (getIndex D i j) := by
  obtain ⟨s0, hs0, h⟩ := sweep_touch (fun (s : (Int → α) × Rng) => s.1) W D
    (fun i j s => circlesVertex sqrt cos D r c i j s)
    (fun i j s p hp => circlesVertex_frame sqrt cos D r c i j s p hp) s i j hi hiW hj hjD
  unfold circlesSweep
  rw [h, circlesVertex_outside sqrt cos D r hr c i j s0 (by rw [hs0]; exact hfar), hs0]

theorem tmod_nonneg_of_draw (n : Nat) (m : Int) : 0 ≤ Int.tmod (n : Int) m :=
  Int.tmod_nonneg m (Int.natCast_nonneg n)

end GeneratorLemmas

section Extremes

variable {α : Type} [LinearOrderedField α]

/-- The scan leaves in its pair the exact maximum and minimum of the first `n` heights. -/
theorem scanExtremes_spec (n : Int) (hn : 0 < n) (hm : Int → α) :
    (∀ k, 0 ≤ k → k < n →
      (scanExtremes n hm (hm 0, hm 0)).2 ≤ hm k ∧ hm k ≤ (scanExtremes n hm (hm 0, hm 0)).1) ∧
    (∃ k, 0 ≤ k ∧ k < n ∧ (scanExtremes n hm (hm 0, hm 0)).1 = hm k) ∧
    (∃ k, 0 ≤ k ∧ k < n ∧ (scanExtremes n hm (hm 0, hm 0)).2 = hm k) := by
  have key := forLoop_invariant
    (fun k (mm : α × α) => (∀ i, 0 ≤ i → i < k → mm.2 ≤ hm i ∧ hm i ≤ mm.1) ∧
      (∃ i, 0 ≤ i ∧ i < n ∧ mm.1 = hm i) ∧ (∃ i, 0 ≤ i ∧ i < n ∧ mm.2 = hm i))
    n (le_of_lt hn)
    (fun i mm =>
      let mx := if hm i > mm.1 then hm i else mm.1
      let mn := if hm i < mm.2 then hm i else mm.2
      (mx, mn))
    (hm 0, hm 0)
    ⟨fun i h1 h2 => absurd h2 (by omega), ⟨0, le_rfl, hn, rfl⟩, ⟨0, le_rfl, hn, rfl⟩⟩ ?_
  · exact key
  · intro k mm hk hkn ⟨hall, hmax, hmin⟩
    refine ⟨?_, ?_, ?_⟩
    · intro i hi hik
      rcases eq_or_lt_of_le (show i ≤ k by omega) with heq | hlt
      · subst heq
        constructor
        · simp only; split_ifs with h1 <;> [exact le_rfl; exact not_lt.mp h1]
        · simp only; split_ifs with h1 <;> [exact le_rfl; exact not_lt.mp h1]
      · obtain ⟨ha, hb⟩ := hall i hi hlt
        constructor
        · simp only; split_ifs with h1 <;> [exact le_trans (le_of_lt h1) ha; exact ha]
        · simp only; split_ifs with h1 <;> [exact le_trans hb (le_of_lt h1); exact hb]
    · simp only
      split_ifs with h1
      · exact ⟨k, hk, hkn, rfl⟩
      · exact hmax
    · simp only
      split_ifs with h1
      · exact ⟨k, hk, hkn, rfl⟩
      · exact hmin

end Extremes

/-! ## Claims on the height-field generator -/

section GeneratorClaims

variable {α : Type} [LinearOrderedField α] [FloorRing α]

/-- C4: after a non-flatten generation pass on a grid with at least one vertex, whatever the
algorithm mode, the complexity and the random stream, every vertex height lies between `minHeight`
and `maxHeight`, and each of the two is the height of some vertex. -/
theorem C4_extremes_exact (sqrt cos : α → α) (t : Terrain α) (r : Rng)
    (hw : 0 < t.terrainWidth) (hd : 0 < t.terrainDepth) :
    (∀ x z, 0 ≤ x → x < t.terrainWidth → 0 ≤ z → z < t.terrainDepth →
      (generateHeightValues sqrt cos false t r).1.minHeight
          ≤ (generateHeightValues sqrt cos false t r).1.heightMap (getIndex t.terrainDepth x z) ∧
        (generateHeightValues sqrt cos false t r).1.heightMap (getIndex t.terrainDepth x z)
          ≤ (generateHeightValues sqrt cos false t r).1.maxHeight) ∧
    (∃ x z, 0 ≤ x ∧ x < t.terrainWidth ∧ 0 ≤ z ∧ z < t.terrainDepth ∧
      (generateHeightValues sqrt cos false t r).1.maxHeight
        = (generateHeightValues sqrt cos false t r).1.heightMap (getIndex t.terrainDepth x z)) ∧
    (∃ x z, 0 ≤ x ∧ x < t.terrainWidth ∧ 0 ≤ z ∧ z < t.terrainDepth ∧
      (generateHeightValues sqrt cos false t r).1.minHeight
        = (generateHeightValues sqrt cos false t r).1.heightMap (getIndex t.terrainDepth x z)) := by
  have hn : 0 < t.terrainDepth * t.terrainWidth := mul_pos hd hw
  obtain ⟨hall, ⟨k1, hk1, hk1n, hmax⟩, ⟨k2, hk2, hk2n, hmin⟩⟩ :=
    scanExtremes_spec (t.terrainDepth * t.terrainWidth) hn
      (generateBranch sqrt cos false t r).1
  simp only [generateHeightValues, Bool.false_eq_true, if_false]
  refine ⟨?_, ?_, ?_⟩
  · intro x z hx hxW hz hzD
    obtain ⟨h1, h2⟩ := getIndex_range t.terrainWidth t.terrainDepth x z hx hxW hz hzD
    exact hall _ h1 h2
  · obtain ⟨x, z, hx, hxW, hz, hzD, hk⟩ :=
      getIndex_surj t.terrainWidth t.terrainDepth k1 hd hk1 hk1n
    exact ⟨x, z, hx, hxW, hz, hzD, by rw [← hk]; exact hmax⟩
  · obtain ⟨x, z, hx, hxW, hz, hzD, hk⟩ :=
      getIndex_surj t.terrainWidth t.terrainDepth k2 hd hk2 hk2n
    exact ⟨x, z, hx, hxW, hz, hzD, by rw [← hk]; exact hmin⟩

theorem generateHeightValues_flatten_grid (sqrt cos : α → α) (t : Terrain α)
    (r : Rng) (x z : Int) (hx : 0 ≤ x) (hxW : x < t.terrainWidth) (hz : 0 ≤ z)
    (hzD : z < t.terrainDepth) :
    (generateHeightValues sqrt cos true t r).1.heightMap (getIndex t.terrainDepth x z) = 0 := by
  simp only [generateHeightValues, generateBranch, if_true]
  exact flattenHeights_grid t.terrainWidth t.terrainDepth t.heightMap x z hx hxW hz hzD

/-- C5: after `generateHeightValues(true)` on a grid with at least one vertex, whatever the prior
height field, every vertex height is `0` and `maxHeight = minHeight = 0`. -/
theorem C5_resetFlat_all_zero (sqrt cos : α → α) (t : Terrain α) (r : Rng)
    (hw : 0 < t.terrainWidth) (hd : 0 < t.terrainDepth) :
    (∀ x z, 0 ≤ x → x < t.terrainWidth → 0 ≤ z → z < t.terrainDepth →
      (generateHeightValues sqrt cos true t r).1.heightMap (getIndex t.terrainDepth x z) = 0) ∧
    (generateHeightValues sqrt cos true t r).1.maxHeight = 0 ∧
    (generateHeightValues sqrt cos true t r).1.minHeight = 0 := by
  have h0 : flattenHeights t.terrainWidth t.terrainDepth t.heightMap 0 = 0 := by
    have := flattenHeights_grid t.terrainWidth t.terrainDepth t.heightMap 0 0 le_rfl hw le_rfl hd
    simpa [getIndex] using this
  simp only [generateHeightValues, generateBranch, if_true]
  exact ⟨fun x z hx hxW hz hzD =>
    flattenHeights_grid t.terrainWidth t.terrainDepth t.heightMap x z hx hxW hz hzD, h0, h0⟩

theorem forLoop_one {σ : Type} (body : Int → σ → σ) (s : σ) : forLoop 1 body s = body 0 s := by
  have h := forLoop_succ 0 body s
  simp only [Nat.cast_zero, zero_add] at h
  rw [h, forLoop_nonpos 0 le_rfl]

/-- The height field after a non-flatten pass is the one the selected branch leaves. -/
theorem generateHeightValues_heightMap (sqrt cos : α → α) (flatten : Bool) (t : Terrain α)
    (r : Rng) :
    (generateHeightValues sqrt cos flatten t r).1.heightMap
      = (generateBranch sqrt cos flatten t r).1 := rfl

/-- C6: one fault iteration, with the fault line `(x1,z1)-(x2,z2)` its four draws pick, changes
the height of every vertex `(i,j)` by `+0.3` when
`(x2-x1)*(j-z1) - (z2-z1)*(i-x1) > 0` and by `-0.3` otherwise (first part, also for an arbitrary
line in the displacement loops); and on the 50 x 50 grid in fault mode with complexity 1 and the
line `(0,0)-(49,0)` every vertex with `j > 0` is raised by `0.3`, as the sign rule gives there
(second part). -/
theorem C6_fault_sign_rule (sqrt cos : α → α) :
    (∀ (W D x1 z1 x2 z2 : Int) (hm : Int → α) (i j : Int),
      0 ≤ i → i < W → 0 ≤ j → j < D →
      faultSweep W D x1 z1 x2 z2 hm (getIndex D i j)
        = if (x2 - x1) * (j - z1) - (z2 - z1) * (i - x1) > 0
          then hm (getIndex D i j) + 0.3 else hm (getIndex D i j) - 0.3) ∧
    (∀ (W D : Int) (s : (Int → α) × Rng) (i j : Int),
      0 ≤ i → i < W → 0 ≤ j → j < D →
      (faultIteration W D s).1 (getIndex D i j)
        = if (Int.tmod (s.2.draws (s.2.pos + 2)) W - Int.tmod (s.2.draws s.2.pos) W)
              * (j - Int.tmod (s.2.draws (s.2.pos + 1)) D)
            - (Int.tmod (s.2.draws (s.2.pos + 3)) D - Int.tmod (s.2.draws (s.2.pos + 1)) D)
              * (i - Int.tmod (s.2.draws s.2.pos) W) > 0
          then s.1 (getIndex D i j) + 0.3 else s.1 (getIndex D i j) - 0.3) ∧
    (∀ (t : Terrain α) (r : Rng),
      t.terrainWidth = 50 → t.terrainDepth = 50 → t.algorithmMode = 'f' →
      t.terrainComplexity = 1 →
      Int.tmod (r.draws r.pos) 50 = 0 → Int.tmod (r.draws (r.pos + 1)) 50 = 0 →
      Int.tmod (r.draws (r.pos + 2)) 50 = 49 → Int.tmod (r.draws (r.pos + 3)) 50 = 0 →
      ∀ i j : Int, 0 ≤ i → i < 50 → 0 < j → j < 50 →
        (49 - 0 : Int) * (j - 0) - (0 - 0) * (i - 0) > 0 ∧
        (generateHeightValues sqrt cos false t r).1.heightMap (getIndex 50 i j)
          = t.heightMap (getIndex 50 i j) + 0.3) := by
  refine ⟨?_, ?_, ?_⟩
  · intro W D x1 z1 x2 z2 hm i j hi hiW hj hjD
    exact faultSweep_grid W D x1 z1 x2 z2 hm i j hi hiW hj hjD
  · intro W D s i j hi hiW hj hjD
    simp only [faultIteration, rand]
    exact faultSweep_grid W D _ _ _ _ s.1 i j hi hiW hj hjD
  · intro t r hW hD hmode hc h1 h2 h3 h4 i j hi hi50 hj hj50
    have hpos : (49 - 0 : Int) * (j - 0) - (0 - 0) * (i - 0) > 0 := by omega
    refine ⟨hpos, ?_⟩
    rw [generateHeightValues_heightMap]
    simp only [generateBranch, Bool.false_eq_true, if_false, hmode, hW, hD, hc, faultAlgorithm,
      forLoop_one, faultIteration, rand, h1, h2, h3, h4]
    rw [if_pos trivial, if_neg (by decide)]
    show faultSweep 50 50 0 0 49 0 t.heightMap (getIndex 50 i j) = _
    rw [faultSweep_grid 50 50 0 0 49 0 t.heightMap i j hi hi50 (by omega) hj50, if_pos hpos]

/-- C7: in one circle application, with the centre point and the radius the iteration draws
(radius in `[5,14]`), every vertex `(i,j)` whose distance from `(i, h(i,j), j)` to the centre point
exceeds half the radius keeps its height. -/
theorem C7_circle_outside_unchanged (sqrt cos : α → α) (W D : Int) (s : (Int → α) × Rng)
    (i j : Int) (hi : 0 ≤ i) (hiW : i < W) (hj : 0 ≤ j) (hjD : j < D)
    (hfar : pointDistance sqrt ⟨(i : α), s.1 (getIndex D i j), (j : α)⟩
        (circleCenterOf D (Int.tmod (s.2.draws s.2.pos) W)
          (Int.tmod (s.2.draws (s.2.pos + 1)) D) s.1)
      > ((Int.tmod (s.2.draws (s.2.pos + 2)) CIRCLE_RANGE + CIRCLE_MIN : Int) : α) / 2) :
    5 ≤ Int.tmod (s.2.draws (s.2.pos + 2)) CIRCLE_RANGE + CIRCLE_MIN ∧
    Int.tmod (s.2.draws (s.2.pos + 2)) CIRCLE_RANGE + CIRCLE_MIN ≤ 14 ∧
    (circlesIteration sqrt cos W D s).1 (getIndex D i j) = s.1 (getIndex D i j) := by
  have h0 : 0 ≤ Int.tmod (s.2.draws (s.2.pos + 2)) CIRCLE_RANGE :=
    tmod_nonneg_of_draw _ _
  have h1 : Int.tmod (s.2.draws (s.2.pos + 2)) CIRCLE_RANGE < 10 :=
    Int.tmod_lt_of_pos _ (by decide)
  have hmin : CIRCLE_MIN = 5 := rfl
  have hr : 0 < Int.tmod (s.2.draws (s.2.pos + 2)) CIRCLE_RANGE + CIRCLE_MIN := by omega
  refine ⟨by omega, by omega, ?_⟩
  simp only [circlesIteration, rand]
  exact circlesSweep_outside sqrt cos W D _ hr _ (s.1, _) i j hi hiW hj hjD hfar

/-- With a complexity of zero or less no generative loop runs: the heights stay as they are. -/
theorem generateHeightValues_nonpos (sqrt cos : α → α) (t : Terrain α) (r : Rng)
    (hc : t.terrainComplexity ≤ 0) :
    (generateHeightValues sqrt cos false t r).1.heightMap = t.heightMap := by
  rw [generateHeightValues_heightMap]
  simp only [generateBranch, Bool.false_eq_true, if_false, circlesAlgorithm, faultAlgorithm,
    depositionAlgorithm]
  have h200 : ¬ t.terrainComplexity > 200 := by omega
  rw [if_neg h200, forLoop_nonpos _ hc, forLoop_nonpos _ hc, forLoop_nonpos _ hc]
  split_ifs <;> rfl

/-- C10: with `terrainComplexity <= 0` a non-flatten pass leaves the height field as it is, in
every algorithm mode; and on a 50 x 50 grid, flatten followed by generation in circles mode with
complexity 0 yields an all-zero height field. -/
theorem C10_zero_complexity_unchanged (sqrt cos : α → α) :
    (∀ (t : Terrain α) (r : Rng), t.terrainComplexity ≤ 0 →
      (generateHeightValues sqrt cos false t r).1.heightMap = t.heightMap) ∧
    (∀ (t : Terrain α) (r : Rng),
      t.terrainWidth = 50 → t.terrainDepth = 50 → t.algorithmMode = 'c' →
      t.terrainComplexity = 0 →
      ∀ x z : Int, 0 ≤ x → x < 50 → 0 ≤ z → z < 50 →
        (generateHeightValues sqrt cos false (generateHeightValues sqrt cos true t r).1
          (generateHeightValues sqrt cos true t r).2).1.heightMap (getIndex 50 x z) = 0) := by
  refine ⟨fun t r hc => generateHeightValues_nonpos sqrt cos t r hc, ?_⟩
  intro t r hW hD _ hc x z hx hx50 hz hz50
  rw [generateHeightValues_nonpos sqrt cos _ _ (by
    show t.terrainComplexity ≤ 0
    omega)]
  have := generateHeightValues_flatten_grid sqrt cos t r x z hx (by omega) hz (by omega)
  rw [hD] at this
  exact this

end GeneratorClaims

/-- Witness of C4 on a 50 x 50 sloped terrain in circles mode. -/
theorem C4_extremes_exact_witness :
    (0 : Int) < (sampleTerrain ℝ 'c' 3 (slopeHeights ℝ)).terrainWidth ∧
    (0 : Int) < (sampleTerrain ℝ 'c' 3 (slopeHeights ℝ)).terrainDepth ∧
    ((∀ x z, 0 ≤ x → x < (sampleTerrain ℝ 'c' 3 (slopeHeights ℝ)).terrainWidth →
        0 ≤ z → z < (sampleTerrain ℝ 'c' 3 (slopeHeights ℝ)).terrainDepth →
      (generateHeightValues Real.sqrt Real.cos false
          (sampleTerrain ℝ 'c' 3 (slopeHeights ℝ)) (constRng 7)).1.minHeight
        ≤ (generateHeightValues Real.sqrt Real.cos false
          (sampleTerrain ℝ 'c' 3 (slopeHeights ℝ)) (constRng 7)).1.heightMap
            (getIndex (sampleTerrain ℝ 'c' 3 (slopeHeights ℝ)).terrainDepth x z) ∧
      (generateHeightValues Real.sqrt Real.cos false
          (sampleTerrain ℝ 'c' 3 (slopeHeights ℝ)) (constRng 7)).1.heightMap
            (getIndex (sampleTerrain ℝ 'c' 3 (slopeHeights ℝ)).terrainDepth x z)
        ≤ (generateHeightValues Real.sqrt Real.cos false
          (sampleTerrain ℝ 'c' 3 (slopeHeights ℝ)) (constRng 7)).1.maxHeight)) :=
  ⟨by decide, by decide,
    (C4_extremes_exact Real.sqrt Real.cos (sampleTerrain ℝ 'c' 3 (slopeHeights ℝ)) (constRng 7)
      (by decide) (by decide)).1⟩

/-- Witness of C5 on a 50 x 50 sloped terrain. -/
theorem C5_resetFlat_all_zero_witness :
    (0 : Int) < (sampleTerrain ℝ 'c' 3 (slopeHeights ℝ)).terrainWidth ∧
    (0 : Int) < (sampleTerrain ℝ 'c' 3 (slopeHeights ℝ)).terrainDepth ∧
    (generateHeightValues Real.sqrt Real.cos true
      (sampleTerrain ℝ 'c' 3 (slopeHeights ℝ)) (constRng 7)).1.maxHeight = 0 :=
  ⟨by decide, by decide,
    (C5_resetFlat_all_zero Real.sqrt Real.cos (sampleTerrain ℝ 'c' 3 (slopeHeights ℝ)) (constRng 7)
      (by decide) (by decide)).2.1⟩

/-- Witness of C6: the scenario of the claim at vertex `(3,5)`, and the sign rule of an
arbitrary line at the same vertex. -/
theorem C6_fault_sign_rule_witness :
    (sampleTerrain ℝ 'f' 1 (slopeHeights ℝ)).terrainWidth = 50 ∧
    (sampleTerrain ℝ 'f' 1 (slopeHeights ℝ)).terrainDepth = 50 ∧
    (sampleTerrain ℝ 'f' 1 (slopeHeights ℝ)).algorithmMode = 'f' ∧
    (sampleTerrain ℝ 'f' 1 (slopeHeights ℝ)).terrainComplexity = 1 ∧
    Int.tmod (faultLineRng.draws faultLineRng.pos) 50 = 0 ∧
    Int.tmod (faultLineRng.draws (faultLineRng.pos + 1)) 50 = 0 ∧
    Int.tmod (faultLineRng.draws (faultLineRng.pos + 2)) 50 = 49 ∧
    Int.tmod (faultLineRng.draws (faultLineRng.pos + 3)) 50 = 0 ∧
    (generateHeightValues Real.sqrt Real.cos false (sampleTerrain ℝ 'f' 1 (slopeHeights ℝ))
        faultLineRng).1.heightMap (getIndex 50 3 5)
      = (sampleTerrain ℝ 'f' 1 (slopeHeights ℝ)).heightMap (getIndex 50 3 5) + 0.3 ∧
    faultSweep 50 50 10 10 20 30 (slopeHeights ℝ) (getIndex 50 3 5)
      = if ((20 : Int) - 10) * (5 - 10) - (30 - 10) * (3 - 10) > 0
        then slopeHeights ℝ (getIndex 50 3 5) + 0.3 else slopeHeights ℝ (getIndex 50 3 5) - 0.3 :=
  ⟨rfl, rfl, rfl, rfl, by decide, by decide, by decide, by decide,
    ((C6_fault_sign_rule Real.sqrt Real.cos).2.2 (sampleTerrain ℝ 'f' 1 (slopeHeights ℝ))
      faultLineRng rfl rfl rfl rfl (by decide) (by decide) (by decide) (by decide)
      3 5 (by decide) (by decide) (by decide) (by decide)).2,
    (C6_fault_sign_rule Real.sqrt Real.cos).1 50 50 10 10 20 30 (slopeHeights ℝ) 3 5
      (by decide) (by decide) (by decide) (by decide)⟩

/-- Witness of C7: a circle of radius 5 centred at vertex `(0,0)` of a flat 50 x 50 grid leaves
vertex `(30,40)`, at distance 50, unchanged. -/
theorem C7_circle_outside_unchanged_witness :
    pointDistance Real.sqrt ⟨((30 : Int) : ℝ), (fun _ => (0 : ℝ)) (getIndex 50 30 40), ((40 : Int) : ℝ)⟩
        (circleCenterOf 50 (Int.tmod ((constRng 0).draws (constRng 0).pos) 50)
          (Int.tmod ((constRng 0).draws ((constRng 0).pos + 1)) 50) (fun _ => (0 : ℝ)))
      > ((Int.tmod ((constRng 0).draws ((constRng 0).pos + 2)) CIRCLE_RANGE + CIRCLE_MIN : Int) : ℝ) / 2 ∧
    (circlesIteration Real.sqrt Real.cos 50 50 ((fun _ => (0 : ℝ)), constRng 0)).1 (getIndex 50 30 40)
      = 0 := by
  have hfar : pointDistance Real.sqrt
      ⟨((30 : Int) : ℝ), (fun _ => (0 : ℝ)) (getIndex 50 30 40), ((40 : Int) : ℝ)⟩
        (circleCenterOf 50 (Int.tmod ((constRng 0).draws (constRng 0).pos) 50)
          (Int.tmod ((constRng 0).draws ((constRng 0).pos + 1)) 50) (fun _ => (0 : ℝ)))
      > ((Int.tmod ((constRng 0).draws ((constRng 0).pos + 2)) CIRCLE_RANGE + CIRCLE_MIN : Int) : ℝ) / 2 := by
    have e : (0 - ((30 : Int) : ℝ)) ^ 2 + (0 - 0) ^ 2 + (0 - ((40 : Int) : ℝ)) ^ 2
        = (50 : ℝ) * 50 := by norm_num
    simp only [pointDistance, circleCenterOf, truncToInt, constRng, CIRCLE_RANGE, CIRCLE_MIN,
      Nat.cast_zero, Int.zero_tmod, Int.cast_zero, le_refl, if_true, Int.floor_zero, zero_add]
    rw [e, Real.sqrt_mul_self (by norm_num)]
    norm_num
  exact ⟨hfar, (C7_circle_outside_unchanged Real.sqrt Real.cos 50 50
    ((fun _ => (0 : ℝ)), constRng 0) 30 40 (by decide) (by decide) (by decide) (by decide)
    hfar).2.2⟩

/-- Witness of C10: a sloped 50 x 50 terrain in circles mode with complexity 0. -/
theorem C10_zero_complexity_unchanged_witness :
    (sampleTerrain ℝ 'c' 0 (slopeHeights ℝ)).terrainComplexity ≤ 0 ∧
    (generateHeightValues Real.sqrt Real.cos false (sampleTerrain ℝ 'c' 0 (slopeHeights ℝ))
        (constRng 7)).1.heightMap = (sampleTerrain ℝ 'c' 0 (slopeHeights ℝ)).heightMap ∧
    (generateHeightValues Real.sqrt Real.cos false
        (generateHeightValues Real.sqrt Real.cos true (sampleTerrain ℝ 'c' 0 (slopeHeights ℝ))
          (constRng 7)).1
        (generateHeightValues Real.sqrt Real.cos true (sampleTerrain ℝ 'c' 0 (slopeHeights ℝ))
          (constRng 7)).2).1.heightMap (getIndex 50 3 5) = 0 :=
  ⟨by decide,
    (C10_zero_complexity_unchanged Real.sqrt Real.cos).1 (sampleTerrain ℝ 'c' 0 (slopeHeights ℝ))
      (constRng 7) (by decide),
    (C10_zero_complexity_unchanged Real.sqrt Real.cos).2 (sampleTerrain ℝ 'c' 0 (slopeHeights ℝ))
      (constRng 7) rfl rfl rfl rfl 3 5 (by decide) (by decide) (by decide) (by decide)⟩

/-! ## Sequential writers

The face loops and the vertex loops store their results at running indices. -/

section SequentialWriters

variable {σ α : Type}

/-- Nested loops `for i < N, for j < M` whose body stores a block of `B` values at a running index
and advances it by `B`: the block of iteration `(i,j)` ends at offset `B * (i * M + j)`, and slots
outside `[0, B * (N * M))` keep their content. -/
theorem seqWrite_nested (arr : σ → Int → α) (ctr : σ → Int) (B : Int) (hB : 0 < B)
    (F : Int → Int → Int → α) (N M : Int) (hN : 0 ≤ N) (hM : 0 ≤ M)
    (body : Int → Int → σ → σ)
    (hctr : ∀ i j s, ctr (body i j s) = ctr s + B)
    (hval : ∀ i j s c, 0 ≤ c → c < B → arr (body i j s) (ctr s + c) = F i j c)
    (hframe : ∀ i j s p, (p < ctr s ∨ ctr s + B ≤ p) → arr (body i j s) p = arr s p)
    (s0 : σ) (h0 : ctr s0 = 0) :
    ctr (forLoop N (fun i s => forLoop M (fun j s => body i j s) s) s0) = B * (N * M) ∧
    (∀ i j c, 0 ≤ i → i < N → 0 ≤ j → j < M → 0 ≤ c → c < B →
      arr (forLoop N (fun i s => forLoop M (fun j s => body i j s) s) s0) (B * (i * M + j) + c)
        = F i j c) ∧
    (∀ p, (p < 0 ∨ B * (N * M) ≤ p) →
      arr (forLoop N (fun i s => forLoop M (fun j s => body i j s) s) s0) p = arr s0 p) := by
  -- one row
  have row : ∀ (i : Int) (s1 : σ),
      ctr (forLoop M (fun j s => body i j s) s1) = ctr s1 + B * M ∧
      (∀ j c, 0 ≤ j → j < M → 0 ≤ c → c < B →
        arr (forLoop M (fun j s => body i j s) s1) (ctr s1 + B * j + c) = F i j c) ∧
      (∀ p, (p < ctr s1 ∨ ctr s1 + B * M ≤ p) →
        arr (forLoop M (fun j s => body i j s) s1) p = arr s1 p) := by
    intro i s1
    refine forLoop_invariant
      (fun k s => ctr s = ctr s1 + B * k ∧
        (∀ j c, 0 ≤ j → j < k → 0 ≤ c → c < B → arr s (ctr s1 + B * j + c) = F i j c) ∧
        (∀ p, (p < ctr s1 ∨ ctr s1 + B * k ≤ p) → arr s p = arr s1 p))
      M hM (fun j s => body i j s) s1
      ⟨by simp, fun j c hj hj0 => absurd hj0 (by omega), fun p _ => rfl⟩ ?_
    intro k s hk hkM ⟨hc, hw, hf⟩
    have hBk : B * (k + 1) = B * k + B := by ring
    have hBk0 : 0 ≤ B * k := mul_nonneg (le_of_lt hB) hk
    refine ⟨by rw [hctr, hc, hBk]; ring, ?_, ?_⟩
    · intro j c hj hjk hc0 hcB
      rcases eq_or_lt_of_le (show j ≤ k by omega) with heq | hlt
      · subst heq
        rw [← hc]
        exact hval i j s c hc0 hcB
      · have hBj : B * j + B ≤ B * k := by nlinarith
        rw [hframe i k s _ (Or.inl (by rw [hc]; omega))]
        exact hw j c hj hlt hc0 hcB
    · intro p hp
      rw [hframe i k s p (by rw [hc]; omega)]
      exact hf p (by omega)
  have key := forLoop_invariant
    (fun k s => ctr s = B * (k * M) ∧
      (∀ i j c, 0 ≤ i → i < k → 0 ≤ j → j < M → 0 ≤ c → c < B →
        arr s (B * (i * M + j) + c) = F i j c) ∧
      (∀ p, (p < 0 ∨ B * (k * M) ≤ p) → arr s p = arr s0 p))
    N hN (fun i s => forLoop M (fun j s => body i j s) s) s0
    ⟨by simp [h0], fun i j c hi hi0 => absurd hi0 (by omega), fun p _ => rfl⟩ ?_
  · exact key
  · intro k s hk hkN ⟨hc, hw, hf⟩
    obtain ⟨rc, rw', rf⟩ := row k s
    have hkM : 0 ≤ k * M := mul_nonneg hk hM
    have hBkM : 0 ≤ B * (k * M) := mul_nonneg (le_of_lt hB) hkM
    have hBM : 0 ≤ B * M := mul_nonneg (le_of_lt hB) hM
    have hnext : B * ((k + 1) * M) = B * (k * M) + B * M := by ring
    refine ⟨by rw [rc, hc, hnext], ?_, ?_⟩
    · intro i j c hi hik hj hjM hc0 hcB
      rcases eq_or_lt_of_le (show i ≤ k by omega) with heq | hlt
      · subst heq
        have e : B * (i * M + j) + c = ctr s + B * j + c := by rw [hc]; ring
        rw [e]
        exact rw' j c hj hjM hc0 hcB
      · have h1 : i * M + j + 1 ≤ k * M := by nlinarith
        have h2 : B * (i * M + j + 1) ≤ B * (k * M) :=
          mul_le_mul_of_nonneg_left h1 (le_of_lt hB)
        have h3 : B * (i * M + j + 1) = B * (i * M + j) + B := by ring
        rw [rf _ (Or.inl (by rw [hc]; omega))]
        exact hw i j c hi hlt hj hjM hc0 hcB
    · intro p hp
      rw [rf p (by rw [hc]; omega)]
      exact hf p (by omega)

end SequentialWriters

/-! ## Layout of the normal arrays after the passes -/

section WriteLemmas

variable {α : Type}

theorem Vec3.eq_of_components (u v : Vec3 α) (h0 : u.c0 = v.c0) (h1 : u.c1 = v.c1)
    (h2 : u.c2 = v.c2) : u = v := by
  cases u
  cases v
  simp only [Vec3.mk.injEq]
  exact ⟨h0, h1, h2⟩

theorem write3_at0 (arr : Int → α) (k : Int) (v : Vec3 α) : write3 arr k v k = v.c0 := by
  simp [write3, Function.update_apply]

theorem write3_at1 (arr : Int → α) (k : Int) (v : Vec3 α) : write3 arr k v (k + 1) = v.c1 := by
  simp [write3, Function.update_apply]

theorem write3_at2 (arr : Int → α) (k : Int) (v : Vec3 α) : write3 arr k v (k + 2) = v.c2 := by
  simp [write3, Function.update_apply]

theorem write3_other (arr : Int → α) (k : Int) (v : Vec3 α) (p : Int)
    (hp : p < k ∨ k + 3 ≤ p) : write3 arr k v p = arr p := by
  have h0 : p ≠ k := by omega
  have h1 : p ≠ k + 1 := by omega
  have h2 : p ≠ k + 2 := by omega
  simp [write3, Function.update_apply, h0, h1, h2]

end WriteLemmas

section Layout

variable {α : Type} [LinearOrderedField α]

/-- Storing a sum at `k` and normalising the three slots in place stores the normalised sum. -/
theorem normalizeSlots_write3 (sqrt : α → α) (arr : Int → α) (k : Int) (v : Vec3 α) :
    normalizeSlots sqrt (write3 arr k v) k = write3 arr k (normalize sqrt v) := by
  funext p
  have e1 : k + 1 ≠ k := by omega
  have e2 : k + 2 ≠ k := by omega
  have e3 : k + 2 ≠ k + 1 := by omega
  simp only [normalizeSlots, write3_at0, write3_at1, write3_at2, normalize, divide, magnitude]
  simp only [write3, Function.update_apply]
  by_cases h2 : p = k + 2
  · subst h2
    simp [e2, e3]
  · by_cases h1 : p = k + 1
    · subst h1
      simp [e1]
    · by_cases h0 : p = k
      · subst h0
        simp
      · simp [h0, h1, h2]

theorem vertexCell_eq (sqrt : α → α) (W D : Int) (tn qn : Int → α) (z x : Int)
    (s : VertexState α) :
    vertexCell sqrt W D tn qn z x s =
      { triangleVertexNormals :=
          write3 s.triangleVertexNormals s.indexCounter
            (normalize sqrt (vertexSums W D tn qn x z).1),
        quadVertexNormals :=
          write3 s.quadVertexNormals s.indexCounter
            (normalize sqrt (vertexSums W D tn qn x z).2),
        indexCounter := s.indexCounter + 3 } := by
  simp only [vertexCell, normalizeSlots_write3]

/-- Where the face loops store: the normals of cell `(j,i)` are at block
`i * (width - 1) + j` of each face array, and the slots past the last block keep their prior
content. -/
theorem faceLoops_layout (sqrt : α → α) (t : Terrain α)
    (hW : 1 ≤ t.terrainWidth) (hD : 1 ≤ t.terrainDepth) :
    (∀ i j, 0 ≤ i → i < t.terrainDepth - 1 → 0 ≤ j → j < t.terrainWidth - 1 →
      read3 (faceLoops sqrt t).triangleNormals (6 * (i * (t.terrainWidth - 1) + j))
        = triangleOneNorm sqrt t.terrainDepth t.heightMap j i ∧
      read3 (faceLoops sqrt t).triangleNormals (6 * (i * (t.terrainWidth - 1) + j) + 3)
        = triangleTwoNorm sqrt t.terrainDepth t.heightMap j i ∧
      read3 (faceLoops sqrt t).quadNormals (3 * (i * (t.terrainWidth - 1) + j))
        = quadNorm sqrt t.terrainDepth t.heightMap j i) ∧
    (∀ p, (p < 0 ∨ 6 * ((t.terrainDepth - 1) * (t.terrainWidth - 1)) ≤ p) →
      (faceLoops sqrt t).triangleNormals p = t.triangleNormals p) ∧
    (∀ p, (p < 0 ∨ 3 * ((t.terrainDepth - 1) * (t.terrainWidth - 1)) ≤ p) →
      (faceLoops sqrt t).quadNormals p = t.quadNormals p) := by
  obtain ⟨_, htv, htf⟩ := seqWrite_nested FaceState.triangleNormals FaceState.triangleNormIndex
    6 (by decide)
    (fun i j c =>
      if c = 0 then (triangleOneNorm sqrt t.terrainDepth t.heightMap j i).c0
      else if c = 1 then (triangleOneNorm sqrt t.terrainDepth t.heightMap j i).c1
      else if c = 2 then (triangleOneNorm sqrt t.terrainDepth t.heightMap j i).c2
      else if c = 3 then (triangleTwoNorm sqrt t.terrainDepth t.heightMap j i).c0
      else if c = 4 then (triangleTwoNorm sqrt t.terrainDepth t.heightMap j i).c1
      else (triangleTwoNorm sqrt t.terrainDepth t.heightMap j i).c2)
    (t.terrainDepth - 1) (t.terrainWidth - 1) (by omega) (by omega)
    (fun i j s => faceCell sqrt t.terrainDepth t.heightMap i j s)
    (fun i j s => rfl)
    (fun i j s c hc0 hc6 => by
      have hc : c = 0 ∨ c = 1 ∨ c = 2 ∨ c = 3 ∨ c = 4 ∨ c = 5 := by omega
      simp only [faceCell]
      rcases hc with h | h | h | h | h | h <;> subst h
      · rw [write3_other _ _ _ _ (by omega), add_zero, write3_at0]; simp
      · rw [write3_other _ _ _ _ (by omega), write3_at1]; simp
      · rw [write3_other _ _ _ _ (by omega), write3_at2]; simp
      · rw [write3_at0]; simp
      · rw [show s.triangleNormIndex + 4 = s.triangleNormIndex + 3 + 1 by ring, write3_at1]; simp
      · rw [show s.triangleNormIndex + 5 = s.triangleNormIndex + 3 + 2 by ring, write3_at2]; simp)
    (fun i j s p hp => by
      simp only [faceCell]
      rw [write3_other _ _ _ _ (by omega), write3_other _ _ _ _ (by omega)])
    { triangleNormals := t.triangleNormals, quadNormals := t.quadNormals,
      triangleNormIndex := 0, quadNormIndex := 0 } rfl
  obtain ⟨_, hqv, hqf⟩ := seqWrite_nested FaceState.quadNormals FaceState.quadNormIndex
    3 (by decide)
    (fun i j c =>
      if c = 0 then (quadNorm sqrt t.terrainDepth t.heightMap j i).c0
      else if c = 1 then (quadNorm sqrt t.terrainDepth t.heightMap j i).c1
      else (quadNorm sqrt t.terrainDepth t.heightMap j i).c2)
    (t.terrainDepth - 1) (t.terrainWidth - 1) (by omega) (by omega)
    (fun i j s => faceCell sqrt t.terrainDepth t.heightMap i j s)
    (fun i j s => rfl)
    (fun i j s c hc0 hc3 => by
      have hc : c = 0 ∨ c = 1 ∨ c = 2 := by omega
      simp only [faceCell]
      rcases hc with h | h | h <;> subst h
      · rw [add_zero, write3_at0]; simp
      · rw [write3_at1]; simp
      · rw [write3_at2]; simp)
    (fun i j s p hp => by
      simp only [faceCell]
      rw [write3_other _ _ _ _ (by omega)])
    { triangleNormals := t.triangleNormals, quadNormals := t.quadNormals,
      triangleNormIndex := 0, quadNormIndex := 0 } rfl
  refine ⟨?_, htf, hqf⟩
  intro i j hi hiD hj hjW
  have a0 := htv i j 0 hi hiD hj hjW (by decide) (by decide)
  have a1 := htv i j 1 hi hiD hj hjW (by decide) (by decide)
  have a2 := htv i j 2 hi hiD hj hjW (by decide) (by decide)
  have a3 := htv i j 3 hi hiD hj hjW (by decide) (by decide)
  have a4 := htv i j 4 hi hiD hj hjW (by decide) (by decide)
  have a5 := htv i j 5 hi hiD hj hjW (by decide) (by decide)
  have b0 := hqv i j 0 hi hiD hj hjW (by decide) (by decide)
  have b1 := hqv i j 1 hi hiD hj hjW (by decide) (by decide)
  have b2 := hqv i j 2 hi hiD hj hjW (by decide) (by decide)
  simp only [add_zero] at a0 b0
  norm_num at a0 a1 a2 a3 a4 a5 b0 b1 b2
  refine ⟨?_, ?_, ?_⟩
  · exact Vec3.eq_of_components _ _ a0 a1 a2
  · refine Vec3.eq_of_components _ _ a3 ?_ ?_
    · simp only [read3, add_assoc]
      exact a4
    · simp only [read3, add_assoc]
      exact a5
  · exact Vec3.eq_of_components _ _ b0 b1 b2

/-- Where the vertex loops store: the normalised sums of vertex `(x,z)` are at block
`z * width + x` of each vertex-normal array. -/
theorem vertexLoops_layout (sqrt : α → α) (t : Terrain α)
    (hW : 0 ≤ t.terrainWidth) (hD : 0 ≤ t.terrainDepth) :
    ∀ z x, 0 ≤ z → z < t.terrainDepth → 0 ≤ x → x < t.terrainWidth →
      read3 (vertexLoops sqrt t).triangleVertexNormals (3 * (z * t.terrainWidth + x))
        = normalize sqrt
          (vertexSums t.terrainWidth t.terrainDepth t.triangleNormals t.quadNormals x z).1 ∧
      read3 (vertexLoops sqrt t).quadVertexNormals (3 * (z * t.terrainWidth + x))
        = normalize sqrt
          (vertexSums t.terrainWidth t.terrainDepth t.triangleNormals t.quadNormals x z).2 := by
  obtain ⟨_, htv, _⟩ := seqWrite_nested VertexState.triangleVertexNormals
    VertexState.indexCounter 3 (by decide)
    (fun z x c =>
      if c = 0 then (normalize sqrt
        (vertexSums t.terrainWidth t.terrainDepth t.triangleNormals t.quadNormals x z).1).c0
      else if c = 1 then (normalize sqrt
        (vertexSums t.terrainWidth t.terrainDepth t.triangleNormals t.quadNormals x z).1).c1
      else (normalize sqrt
        (vertexSums t.terrainWidth t.terrainDepth t.triangleNormals t.quadNormals x z).1).c2)
    t.terrainDepth t.terrainWidth hD hW
    (fun z x s =>
      vertexCell sqrt t.terrainWidth t.terrainDepth t.triangleNormals t.quadNormals z x s)
    (fun z x s => rfl)
    (fun z x s c hc0 hc3 => by
      have hc : c = 0 ∨ c = 1 ∨ c = 2 := by omega
      simp only [vertexCell_eq]
      rcases hc with h | h | h <;> subst h
      · rw [add_zero, write3_at0]; simp
      · rw [write3_at1]; simp
      · rw [write3_at2]; simp)
    (fun z x s p hp => by
      simp only [vertexCell_eq]
      exact write3_other _ _ _ _ (by omega))
    { triangleVertexNormals := t.triangleVertexNormals,
      quadVertexNormals := t.quadVertexNormals, indexCounter := 0 } rfl
  obtain ⟨_, hqv, _⟩ := seqWrite_nested VertexState.quadVertexNormals
    VertexState.indexCounter 3 (by decide)
    (fun z x c =>
      if c = 0 then (normalize sqrt
        (vertexSums t.terrainWidth t.terrainDepth t.triangleNormals t.quadNormals x z).2).c0
      else if c = 1 then (normalize sqrt
        (vertexSums t.terrainWidth t.terrainDepth t.triangleNormals t.quadNormals x z).2).c1
      else (normalize sqrt
        (vertexSums t.terrainWidth t.terrainDepth t.triangleNormals t.quadNormals x z).2).c2)
    t.terrainDepth t.terrainWidth hD hW
    (fun z x s =>
      vertexCell sqrt t.terrainWidth t.terrainDepth t.triangleNormals t.quadNormals z x s)
    (fun z x s => rfl)
    (fun z x s c hc0 hc3 => by
      have hc : c = 0 ∨ c = 1 ∨ c = 2 := by omega
      simp only [vertexCell_eq]
      rcases hc with h | h | h <;> subst h
      · rw [add_zero, write3_at0]; simp
      · rw [write3_at1]; simp
      · rw [write3_at2]; simp)
    (fun z x s p hp => by
      simp only [vertexCell_eq]
      exact write3_other _ _ _ _ (by omega))
    { triangleVertexNormals := t.triangleVertexNormals,
      quadVertexNormals := t.quadVertexNormals, indexCounter := 0 } rfl
  intro z x hz hzD hx hxW
  have a0 := htv z x 0 hz hzD hx hxW (by decide) (by decide)
  have a1 := htv z x 1 hz hzD hx hxW (by decide) (by decide)
  have a2 := htv z x 2 hz hzD hx hxW (by decide) (by decide)
  have b0 := hqv z x 0 hz hzD hx hxW (by decide) (by decide)
  have b1 := hqv z x 1 hz hzD hx hxW (by decide) (by decide)
  have b2 := hqv z x 2 hz hzD hx hxW (by decide) (by decide)
  simp only [add_zero] at a0 b0
  norm_num at a0 a1 a2 b0 b1 b2
  exact ⟨Vec3.eq_of_components _ _ a0 a1 a2, Vec3.eq_of_components _ _ b0 b1 b2⟩

end Layout

/-! ## Evaluating the face normals -/

section FaceValues

variable {α : Type} [LinearOrderedField α]

theorem spacing_cast (i : Int) : ((VERT_SPACING * (i + 1) - VERT_SPACING * i : Int) : α) = 3 := by
  have h : VERT_SPACING * (i + 1) - VERT_SPACING * i = 3 := by
    unfold VERT_SPACING
    ring
  rw [h]
  norm_num

/-- The un-normalised normal of triangle one, in the height differences of the cell. -/
theorem cross_vecA_vecB (D : Int) (hm : Int → α) (j i : Int) :
    cross (vecA D hm j i) (vecB D hm j i)
      = ⟨3 * (hm (getIndex D j (i + 1)) - hm (getIndex D j i))
          - 3 * (hm (getIndex D (j + 1) (i + 1)) - hm (getIndex D j i)), 9,
        -(3 * (hm (getIndex D j (i + 1)) - hm (getIndex D j i)))⟩ := by
  simp only [cross, vecA, vecB, spacing_cast, Vec3.mk.injEq]
  refine ⟨by ring, by ring, by ring⟩

/-- The un-normalised normal of triangle two, in the height differences of the cell. -/
theorem cross_vecB_vecC (D : Int) (hm : Int → α) (j i : Int) :
    cross (vecB D hm j i) (vecC D hm j i)
      = ⟨-(3 * (hm (getIndex D (j + 1) i) - hm (getIndex D j i))), 9,
        3 * (hm (getIndex D (j + 1) i) - hm (getIndex D j i))
          - 3 * (hm (getIndex D (j + 1) (i + 1)) - hm (getIndex D j i))⟩ := by
  simp only [cross, vecB, vecC, spacing_cast, Vec3.mk.injEq]
  refine ⟨by ring, by ring, by ring⟩

/-- The un-normalised quad normal, in the height differences of the cell. -/
theorem cross_vecA_vecC (D : Int) (hm : Int → α) (j i : Int) :
    cross (vecA D hm j i) (vecC D hm j i)
      = ⟨-(3 * (hm (getIndex D (j + 1) i) - hm (getIndex D j i))), 9,
        -(3 * (hm (getIndex D j (i + 1)) - hm (getIndex D j i)))⟩ := by
  simp only [cross, vecA, vecC, spacing_cast, Vec3.mk.injEq]
  refine ⟨by ring, by ring, by ring⟩

theorem sqrt_81 : Real.sqrt 81 = 9 := by
  rw [show (81 : ℝ) = 9 ^ 2 by norm_num]
  exact Real.sqrt_sq (by norm_num)

theorem sqrt_225 : Real.sqrt 225 = 15 := by
  rw [show (225 : ℝ) = 15 ^ 2 by norm_num]
  exact Real.sqrt_sq (by norm_num)

theorem sqrt_4 : Real.sqrt 4 = 2 := by
  rw [show (4 : ℝ) = 2 ^ 2 by norm_num]
  exact Real.sqrt_sq (by norm_num)

/-- A cell whose four corners have the same height has the three normals `(0,1,0)`. -/
theorem flat_cell_normals (D : Int) (hm : Int → ℝ) (j i : Int)
    (h1 : hm (getIndex D j (i + 1)) = hm (getIndex D j i))
    (h2 : hm (getIndex D (j + 1) (i + 1)) = hm (getIndex D j i))
    (h3 : hm (getIndex D (j + 1) i) = hm (getIndex D j i)) :
    triangleOneNorm Real.sqrt D hm j i = ⟨0, 1, 0⟩ ∧
    triangleTwoNorm Real.sqrt D hm j i = ⟨0, 1, 0⟩ ∧
    quadNorm Real.sqrt D hm j i = ⟨0, 1, 0⟩ := by
  refine ⟨?_, ?_, ?_⟩
  · simp only [triangleOneNorm, normalize, cross_vecA_vecB, h1, h2, divide, magnitude]
    norm_num [sqrt_81]
  · simp only [triangleTwoNorm, normalize, cross_vecB_vecC, h2, h3, divide, magnitude]
    norm_num [sqrt_81]
  · simp only [quadNorm, normalize, cross_vecA_vecC, h1, h3, divide, magnitude]
    norm_num [sqrt_81]

/-- The quad normal of cell `(1,0)` of the raised-vertex terrain. -/
theorem quadNorm_bump_1_0 : quadNorm Real.sqrt 50 (bumpHeights ℝ) 1 0 = ⟨-4 / 5, 3 / 5, 0⟩ := by
  simp only [quadNorm, normalize, cross_vecA_vecC, divide, magnitude, bumpHeights, getIndex]
  norm_num [sqrt_225]

end FaceValues

/-! ## Claims on the normal pipeline -/

section NormalClaims

/-- The face arrays `setNormals` leaves are those of its face loops. -/
theorem setNormals_faceArrays {α : Type} [LinearOrderedField α] (sqrt : α → α) (t : Terrain α) :
    (setNormals sqrt t).triangleNormals = (faceLoops sqrt t).triangleNormals ∧
    (setNormals sqrt t).quadNormals = (faceLoops sqrt t).quadNormals := ⟨rfl, rfl⟩

/-- The vertex arrays `setNormals` leaves, block by block, in the face arrays it leaves. -/
theorem setNormals_vertexArrays {α : Type} [LinearOrderedField α] (sqrt : α → α) (t : Terrain α)
    (hW : 0 ≤ t.terrainWidth) (hD : 0 ≤ t.terrainDepth) (z x : Int)
    (hz : 0 ≤ z) (hzD : z < t.terrainDepth) (hx : 0 ≤ x) (hxW : x < t.terrainWidth) :
    read3 (setNormals sqrt t).triangleVertexNormals (3 * (z * t.terrainWidth + x))
      = normalize sqrt (vertexSums t.terrainWidth t.terrainDepth
          (setNormals sqrt t).triangleNormals (setNormals sqrt t).quadNormals x z).1 ∧
    read3 (setNormals sqrt t).quadVertexNormals (3 * (z * t.terrainWidth + x))
      = normalize sqrt (vertexSums t.terrainWidth t.terrainDepth
          (setNormals sqrt t).triangleNormals (setNormals sqrt t).quadNormals x z).2 :=
  vertexLoops_layout sqrt (setFaceNormals sqrt t) hW hD z x hz hzD hx hxW

/-- The quad-face blocks 0, 1 and 50 after `setNormals` on the raised-vertex terrain. -/
theorem bump_quad_blocks :
    read3 (setNormals Real.sqrt (bumpTerrain ℝ)).quadNormals 0 = ⟨0, 1, 0⟩ ∧
    read3 (setNormals Real.sqrt (bumpTerrain ℝ)).quadNormals 3 = ⟨-4 / 5, 3 / 5, 0⟩ ∧
    read3 (setNormals Real.sqrt (bumpTerrain ℝ)).quadNormals 150 = ⟨0, 1, 0⟩ := by
  have L := (faceLoops_layout Real.sqrt (bumpTerrain ℝ) (by decide) (by decide)).1
  have h0 := (L 0 0 (by decide) (by decide) (by decide) (by decide)).2.2
  have h1 := (L 0 1 (by decide) (by decide) (by decide) (by decide)).2.2
  have h50 := (L 1 1 (by decide) (by decide) (by decide) (by decide)).2.2
  simp only [bumpTerrain, sampleTerrain] at h0 h1 h50
  norm_num at h0 h1 h50
  rw [(setNormals_faceArrays Real.sqrt (bumpTerrain ℝ)).2]
  refine ⟨?_, ?_, ?_⟩
  · refine h0.trans ?_
    exact (flat_cell_normals 50 (bumpHeights ℝ) 0 0 (by simp [bumpHeights, getIndex])
      (by simp [bumpHeights, getIndex]) (by simp [bumpHeights, getIndex])).2.2
  · exact h1.trans quadNorm_bump_1_0
  · refine h50.trans ?_
    exact (flat_cell_normals 50 (bumpHeights ℝ) 1 1 (by simp [bumpHeights, getIndex])
      (by simp [bumpHeights, getIndex]) (by simp [bumpHeights, getIndex])).2.2

/-- C1, the code at the failing input (50 x 50, flat except vertex `(2,0)` at height 4): the
quad normal of cell `(1,0)` is `(-4/5, 3/5, 0)`; `setNormals` stores it at the running index `3`
(cell number `0 * 49 + 1`), while the slots at `getNormalIndex(1,0,'y',true) = 150` receive the
normal `(0,1,0)` of cell `(1,1)` (cell number `1 * 49 + 1`). -/
theorem C1_cell_normal_at_running_index :
    quadNorm Real.sqrt 50 (bumpHeights ℝ) 1 0 = ⟨-4 / 5, 3 / 5, 0⟩ ∧
    read3 (setNormals Real.sqrt (bumpTerrain ℝ)).quadNormals 3 = ⟨-4 / 5, 3 / 5, 0⟩ ∧
    getNormalIndex 50 1 0 'y' true = 150 ∧
    read3 (setNormals Real.sqrt (bumpTerrain ℝ)).quadNormals (getNormalIndex 50 1 0 'y' true)
      = ⟨0, 1, 0⟩ := by
  have e : getNormalIndex 50 1 0 'y' true = 150 := by decide
  refine ⟨quadNorm_bump_1_0, bump_quad_blocks.2.1, e, ?_⟩
  rw [e]
  exact bump_quad_blocks.2.2

/-- The quad-basis sums at vertices `(1,0)` and `(0,1)` of a 50 x 50 grid. -/
theorem vertexSums_quad_edge {α : Type} [LinearOrderedField α] (tn qn : Int → α) :
    (vertexSums 50 50 tn qn 1 0).2 = vadd (read3 qn 0) (read3 qn 150) ∧
    (vertexSums 50 50 tn qn 0 1).2 = vadd (read3 qn 0) (read3 qn 3) := by
  constructor <;> simp [vertexSums, getNormalIndex, getIndex]

/-- C2, the code at the failing input (50 x 50, flat except vertex `(2,0)` at height 4): the
quad-basis normal computed for vertex `(1,0)` is `(0,1,0)`; the vertex loops store it at the
running index `3` (vertex number `0 * 50 + 1`), while the slots at `3 * getIndex(1,0) = 150`, which
the renderer reads for vertex `(1,0)`, receive the normal computed for vertex `(0,1)`, whose first
component is negative. -/
theorem C2_vertex_normal_at_running_index :
    normalize Real.sqrt (vertexSums 50 50 (setNormals Real.sqrt (bumpTerrain ℝ)).triangleNormals
      (setNormals Real.sqrt (bumpTerrain ℝ)).quadNormals 1 0).2 = ⟨0, 1, 0⟩ ∧
    read3 (setNormals Real.sqrt (bumpTerrain ℝ)).quadVertexNormals 3 = ⟨0, 1, 0⟩ ∧
    vertexNormalIndex 50 1 0 = 150 ∧
    (read3 (setNormals Real.sqrt (bumpTerrain ℝ)).quadVertexNormals
      (vertexNormalIndex 50 1 0)).c0 < 0 := by
  obtain ⟨q0, q3, q150⟩ := bump_quad_blocks
  have e : vertexNormalIndex 50 1 0 = 150 := by decide
  have s10 : normalize Real.sqrt
      (vertexSums 50 50 (setNormals Real.sqrt (bumpTerrain ℝ)).triangleNormals
        (setNormals Real.sqrt (bumpTerrain ℝ)).quadNormals 1 0).2 = ⟨0, 1, 0⟩ := by
    rw [(vertexSums_quad_edge _ _).1, q0, q150]
    simp only [normalize, divide, magnitude, vadd]
    norm_num [sqrt_4]
  have v10 := (setNormals_vertexArrays Real.sqrt (bumpTerrain ℝ) (by decide) (by decide) 0 1
    (by decide) (by decide) (by decide) (by decide)).2
  have v01 := (setNormals_vertexArrays Real.sqrt (bumpTerrain ℝ) (by decide) (by decide) 1 0
    (by decide) (by decide) (by decide) (by decide)).2
  have w : (bumpTerrain ℝ).terrainWidth = 50 := rfl
  have d : (bumpTerrain ℝ).terrainDepth = 50 := rfl
  rw [w, d] at v10 v01
  norm_num at v10 v01
  refine ⟨s10, v10.trans s10, e, ?_⟩
  rw [e, v01, (vertexSums_quad_edge _ _).2, q0, q3]
  simp only [normalize, divide, magnitude, vadd]
  apply div_neg_of_neg_of_pos (by norm_num)
  apply Real.sqrt_pos.mpr
  norm_num

/-- C3 (counterexample): on the 50 x 50 grid the face offsets of the in-range cell `(48,48)` lie
beyond `3*2*(width-1)*(depth-1) = 14406` and `3*(width-1)*(depth-1) = 7203`, the numbers of slots
the face loops write. -/
theorem C3_offset_beyond_cell_count :
    (0 : Int) ≤ 48 ∧ (48 : Int) ≤ 50 - 2 ∧
    3 * 2 * ((50 : Int) - 1) * (50 - 1) ≤ getNormalIndex 50 48 48 't' true ∧
    3 * 2 * ((50 : Int) - 1) * (50 - 1) ≤ getNormalIndex 50 48 48 't' false ∧
    3 * ((50 : Int) - 1) * (50 - 1) ≤ getNormalIndex 50 48 48 'y' true := by
  decide

/-- C3 (amended): for every grid, every cell coordinate `(x,z)` in
`[0,width-2] x [0,depth-2]` and both values of `which`, the three slots starting at the triangle
offset lie inside the triangle-face array of `3*2*width*depth` entries the program allocates, and
the three slots starting at the offset of any other kind lie inside the quad-face array of
`3*width*depth` entries. -/
theorem C3_offsets_inside_allocated (W D x z : Int) (kind : Char) (first : Bool)
    (hx : 0 ≤ x) (hxW : x ≤ W - 2) (hz : 0 ≤ z) (hzD : z ≤ D - 2) (hkind : kind ≠ 't') :
    0 ≤ getNormalIndex D x z 't' first ∧
    getNormalIndex D x z 't' first + 2 < triangleNormalsSize W D ∧
    0 ≤ getNormalIndex D x z kind first ∧
    getNormalIndex D x z kind first + 2 < quadNormalsSize W D := by
  have h0 : 0 ≤ x * D := mul_nonneg hx (by omega)
  have h1 : x * D ≤ (W - 2) * D := mul_le_mul_of_nonneg_right hxW (by omega)
  have h2 : (W - 2) * D = W * D - 2 * D := by ring
  have e6 : 3 * 2 * W * D = 6 * (W * D) := by ring
  have e3 : 3 * W * D = 3 * (W * D) := by ring
  unfold getNormalIndex getIndex triangleNormalsSize quadNormalsSize
  rw [e6, e3]
  simp only [hkind, false_and, if_false, true_and]
  refine ⟨?_, ?_, by omega, by omega⟩
  · cases first <;> simp <;> omega
  · cases first <;> simp <;> omega

/-- Witness of C3 (amended): cell `(48,48)` of the 50 x 50 grid. -/
theorem C3_offsets_inside_allocated_witness :
    getNormalIndex 50 48 48 't' false + 2 < triangleNormalsSize 50 50 ∧
    getNormalIndex 50 48 48 'y' false + 2 < quadNormalsSize 50 50 :=
  ⟨(C3_offsets_inside_allocated 50 50 48 48 'y' false (by decide) (by decide) (by decide)
      (by decide) (by decide)).2.1,
    (C3_offsets_inside_allocated 50 50 48 48 'y' false (by decide) (by decide) (by decide)
      (by decide) (by decide)).2.2.2⟩

/-- The triangle-basis sum at the far corner `(49,49)` of a 50 x 50 grid. -/
theorem vertexSums_tri_corner {α : Type} [LinearOrderedField α] (tn qn : Int → α) :
    (vertexSums 50 50 tn qn 49 49).1 = vadd (read3 tn 14688) (read3 tn 14691) := by
  simp [vertexSums, getNormalIndex, getIndex]

/-- C8, the code at the failing input (50 x 50, flat, triangle-face slots `14688..14693` holding
`(0,1,0)` and `(0,-1,0)` from before the call): the face loops write only slots below `14406`, so
the far corner vertex `(49,49)` reads the two stale unit vectors at the offsets of cell `(48,48)`;
their sum is the zero vector and its magnitude, the divisor of the normalisation, is `0`. The last
part evaluates the model, where `0 / 0` is `0`: the stored vector has magnitude `0`. -/
theorem C8_corner_sum_is_zero :
    read3 (setNormals Real.sqrt (staleTriangleTerrain ℝ)).triangleNormals
      (getNormalIndex 50 48 48 't' true) = ⟨0, 1, 0⟩ ∧
    read3 (setNormals Real.sqrt (staleTriangleTerrain ℝ)).triangleNormals
      (getNormalIndex 50 48 48 't' false) = ⟨0, -1, 0⟩ ∧
    (vertexSums 50 50 (setNormals Real.sqrt (staleTriangleTerrain ℝ)).triangleNormals
      (setNormals Real.sqrt (staleTriangleTerrain ℝ)).quadNormals 49 49).1 = ⟨0, 0, 0⟩ ∧
    magnitude Real.sqrt
      (vertexSums 50 50 (setNormals Real.sqrt (staleTriangleTerrain ℝ)).triangleNormals
        (setNormals Real.sqrt (staleTriangleTerrain ℝ)).quadNormals 49 49).1 = 0 ∧
    magnitude Real.sqrt
      (read3 (setNormals Real.sqrt (staleTriangleTerrain ℝ)).triangleVertexNormals
        (3 * (49 * 50 + 49))) = 0 := by
  have F := (faceLoops_layout Real.sqrt (staleTriangleTerrain ℝ) (by decide) (by decide)).2.1
  have w : (staleTriangleTerrain ℝ).terrainWidth = 50 := rfl
  have d : (staleTriangleTerrain ℝ).terrainDepth = 50 := rfl
  rw [w, d] at F
  have a : read3 (setNormals Real.sqrt (staleTriangleTerrain ℝ)).triangleNormals 14688
      = ⟨0, 1, 0⟩ := by
    rw [(setNormals_faceArrays Real.sqrt (staleTriangleTerrain ℝ)).1]
    simp only [read3]
    rw [F _ (Or.inr (by norm_num)), F _ (Or.inr (by norm_num)), F _ (Or.inr (by norm_num))]
    simp [staleTriangleTerrain]
  have b : read3 (setNormals Real.sqrt (staleTriangleTerrain ℝ)).triangleNormals 14691
      = ⟨0, -1, 0⟩ := by
    rw [(setNormals_faceArrays Real.sqrt (staleTriangleTerrain ℝ)).1]
    simp only [read3]
    rw [F _ (Or.inr (by norm_num)), F _ (Or.inr (by norm_num)), F _ (Or.inr (by norm_num))]
    simp [staleTriangleTerrain]
  have e1 : getNormalIndex 50 48 48 't' true = 14688 := by decide
  have e2 : getNormalIndex 50 48 48 't' false = 14691 := by decide
  have sum0 : (vertexSums 50 50 (setNormals Real.sqrt (staleTriangleTerrain ℝ)).triangleNormals
      (setNormals Real.sqrt (staleTriangleTerrain ℝ)).quadNormals 49 49).1 = ⟨0, 0, 0⟩ := by
    rw [vertexSums_tri_corner, a, b]
    simp [vadd]
  have v := (setNormals_vertexArrays Real.sqrt (staleTriangleTerrain ℝ) (by decide) (by decide)
    49 49 (by decide) (by decide) (by decide) (by decide)).1
  rw [w, d] at v
  refine ⟨by rw [e1]; exact a, by rw [e2]; exact b, sum0, ?_, ?_⟩
  · rw [sum0]
    simp [magnitude]
  · rw [v, sum0]
    simp [magnitude, normalize, divide]

theorem randomizeTerrain_fst {α : Type} [LinearOrderedField α] [FloorRing α] (sqrt cos : α → α)
    (t : Terrain α) (r : Rng) :
    (randomizeTerrain sqrt cos t r).1
      = setNormals sqrt (generateHeightValues sqrt cos false
          (generateHeightValues sqrt cos true t r).1
          (generateHeightValues sqrt cos true t r).2).1 := rfl

theorem setNormals_heightMap {α : Type} [LinearOrderedField α] (sqrt : α → α) (t : Terrain α) :
    (setNormals sqrt t).heightMap = t.heightMap := rfl

/-- The quad-basis sum at the edge vertex `(49,2)` of a 50 x 50 grid. -/
theorem vertexSums_quad_far_edge {α : Type} [LinearOrderedField α] (tn qn : Int → α) :
    (vertexSums 50 50 tn qn 49 2).2 = vadd (read3 qn 7203) (read3 qn 7206) := by
  simp [vertexSums, getNormalIndex, getIndex]

/-- C9, the code at the failing input (50 x 50, circles mode, complexity 0, quad-face slots
`7203..7208` holding `(1,0,0)` twice from before the call): after flatten, generate and
`setNormals` the height of vertex `(49,2)` is `0`, and its quad-basis vertex normal, stored at
the running index `3 * (2 * 50 + 49) = 447`, is `(1,0,0)`: the face loops write only slots below
`7203`, and the vertex reads the stale slots at the offsets of cells `(48,1)` and `(48,2)`. -/
theorem C9_flat_vertex_normal_from_stale_slots :
    (randomizeTerrain Real.sqrt Real.cos (staleQuadTerrain ℝ) (constRng 0)).1.heightMap
      (getIndex 50 49 2) = 0 ∧
    read3 (randomizeTerrain Real.sqrt Real.cos (staleQuadTerrain ℝ) (constRng 0)).1.quadVertexNormals
      (3 * (2 * 50 + 49)) = ⟨1, 0, 0⟩ := by
  have hc : (generateHeightValues Real.sqrt Real.cos true (staleQuadTerrain ℝ)
      (constRng 0)).1.terrainComplexity ≤ 0 := by
    show (0 : Int) ≤ 0
    decide
  have hh := generateHeightValues_nonpos Real.sqrt Real.cos
    (generateHeightValues Real.sqrt Real.cos true (staleQuadTerrain ℝ) (constRng 0)).1
    (generateHeightValues Real.sqrt Real.cos true (staleQuadTerrain ℝ) (constRng 0)).2 hc
  have hflat := generateHeightValues_flatten_grid Real.sqrt Real.cos (staleQuadTerrain ℝ)
    (constRng 0) 49 2 (by decide) (by decide) (by decide) (by decide)
  refine ⟨?_, ?_⟩
  · rw [randomizeTerrain_fst, setNormals_heightMap, hh]
    exact hflat
  · have F := (faceLoops_layout Real.sqrt
      (generateHeightValues Real.sqrt Real.cos false
        (generateHeightValues Real.sqrt Real.cos true (staleQuadTerrain ℝ) (constRng 0)).1
        (generateHeightValues Real.sqrt Real.cos true (staleQuadTerrain ℝ) (constRng 0)).2).1
      (by show (1 : Int) ≤ 50; decide) (by show (1 : Int) ≤ 50; decide)).2.2
    have v := (setNormals_vertexArrays Real.sqrt
      (generateHeightValues Real.sqrt Real.cos false
        (generateHeightValues Real.sqrt Real.cos true (staleQuadTerrain ℝ) (constRng 0)).1
        (generateHeightValues Real.sqrt Real.cos true (staleQuadTerrain ℝ) (constRng 0)).2).1
      (by show (0 : Int) ≤ 50; decide) (by show (0 : Int) ≤ 50; decide) 2 49
      (by decide) (by show (2 : Int) < 50; decide) (by decide)
      (by show (49 : Int) < 50; decide)).2
    have F' : ∀ p : Int, 7203 ≤ p →
        (setNormals Real.sqrt
          (generateHeightValues Real.sqrt Real.cos false
            (generateHeightValues Real.sqrt Real.cos true (staleQuadTerrain ℝ) (constRng 0)).1
            (generateHeightValues Real.sqrt Real.cos true (staleQuadTerrain ℝ)
              (constRng 0)).2).1).quadNormals p
          = if p = 7203 ∨ p = 7206 then 1 else 0 := by
      intro p hp
      exact F p (Or.inr hp)
    have a : read3 (setNormals Real.sqrt
          (generateHeightValues Real.sqrt Real.cos false
            (generateHeightValues Real.sqrt Real.cos true (staleQuadTerrain ℝ) (constRng 0)).1
            (generateHeightValues Real.sqrt Real.cos true (staleQuadTerrain ℝ)
              (constRng 0)).2).1).quadNormals 7203 = ⟨1, 0, 0⟩ := by
      simp only [read3]
      rw [F' _ (by norm_num), F' _ (by norm_num), F' _ (by norm_num)]
      norm_num
    have b : read3 (setNormals Real.sqrt
          (generateHeightValues Real.sqrt Real.cos false
            (generateHeightValues Real.sqrt Real.cos true (staleQuadTerrain ℝ) (constRng 0)).1
            (generateHeightValues Real.sqrt Real.cos true (staleQuadTerrain ℝ)
              (constRng 0)).2).1).quadNormals 7206 = ⟨1, 0, 0⟩ := by
      simp only [read3]
      rw [F' _ (by norm_num), F' _ (by norm_num), F' _ (by norm_num)]
      norm_num
    rw [randomizeTerrain_fst]
    refine v.trans ?_
    show normalize Real.sqrt (vertexSums 50 50 _ _ 49 2).2 = _
    rw [vertexSums_quad_far_edge, a, b]
    simp only [normalize, divide, magnitude, vadd]
    norm_num [sqrt_4]

end NormalClaims

/-! ## Claims on the grid indexer and the face normals -/

section FaceClaims

/-- C20: `getIndex(x,z)` returns `x * depth + z`, and on `0 <= x < width`, `0 <= z < depth` it is
a bijection onto `[0, width * depth)`: every result is in range, distinct vertices get distinct
offsets, and every offset below `width * depth` is the offset of a vertex. -/
theorem C20_getIndex_bijection (W D : Int) (hD : 0 < D) :
    (∀ x z, getIndex D x z = x * D + z) ∧
    (∀ x z, 0 ≤ x → x < W → 0 ≤ z → z < D →
      0 ≤ getIndex D x z ∧ getIndex D x z < W * D) ∧
    (∀ x z x' z', 0 ≤ x → x < W → 0 ≤ z → z < D → 0 ≤ x' → x' < W → 0 ≤ z' → z' < D →
      getIndex D x z = getIndex D x' z' → x = x' ∧ z = z') ∧
    (∀ k, 0 ≤ k → k < W * D →
      ∃ x z, 0 ≤ x ∧ x < W ∧ 0 ≤ z ∧ z < D ∧ getIndex D x z = k) := by
  refine ⟨fun x z => rfl, ?_, ?_, ?_⟩
  · intro x z hx hxW hz hzD
    have h := getIndex_range W D x z hx hxW hz hzD
    rw [mul_comm W D]
    exact h
  · intro x z x' z' _ _ hz hzD _ _ hz' hzD' h
    exact getIndex_inj D x z x' z' hz hzD hz' hzD' h
  · intro k hk hkn
    obtain ⟨x, z, hx, hxW, hz, hzD, hkx⟩ := getIndex_surj W D k hD hk (by rw [mul_comm]; exact hkn)
    exact ⟨x, z, hx, hxW, hz, hzD, hkx.symm⟩

/-- Witness of C20 on the 50 x 50 grid. -/
theorem C20_getIndex_bijection_witness :
    (0 : Int) < 50 ∧ getIndex 50 3 5 = 3 * 50 + 5 ∧
    (0 ≤ getIndex 50 49 49 ∧ getIndex 50 49 49 < 50 * 50) ∧
    (∃ x z : Int, 0 ≤ x ∧ x < 50 ∧ 0 ≤ z ∧ z < 50 ∧ getIndex 50 x z = 2499) :=
  ⟨by decide, (C20_getIndex_bijection 50 50 (by decide)).1 3 5,
    (C20_getIndex_bijection 50 50 (by decide)).2.1 49 49 (by decide) (by decide) (by decide)
      (by decide),
    (C20_getIndex_bijection 50 50 (by decide)).2.2.2 2499 (by decide) (by decide)⟩

/-- The component formulas written out in `setNormals` are the cross product in `Fin 3 → α`. -/
theorem cross_toFun {α : Type} [LinearOrderedField α] (u v : Vec3 α) :
    (cross u v).toFun = crossProduct u.toFun v.toFun := by
  simp [cross, Vec3.toFun, cross_apply]

/-- C12: for every cell `(j,i)` and every height field the edge vectors of `setNormals` are
`A = (0, a, 3)`, `B = (3, b, 3)`, `C = (3, c, 0)` with `a = h(j,i+1) - h(j,i)`,
`b = h(j+1,i+1) - h(j,i)`, `c = h(j+1,i) - h(j,i)`; the three un-normalised normals are the cross
products `A x B`, `B x C`, `A x C`, that is `(3a-3b, 9, -3a)`, `(-3c, 9, 3c-3b)` and
`(-3c, 9, -3a)`; and the stored normals are these vectors divided by their magnitudes. -/
theorem C12_face_normals_are_cross_products {α : Type} [LinearOrderedField α] (sqrt : α → α)
    (D : Int) (hm : Int → α) (j i : Int) :
    vecA D hm j i = ⟨0, hm (getIndex D j (i + 1)) - hm (getIndex D j i), 3⟩ ∧
    vecB D hm j i = ⟨3, hm (getIndex D (j + 1) (i + 1)) - hm (getIndex D j i), 3⟩ ∧
    vecC D hm j i = ⟨3, hm (getIndex D (j + 1) i) - hm (getIndex D j i), 0⟩ ∧
    (cross (vecA D hm j i) (vecB D hm j i)).toFun
      = crossProduct (vecA D hm j i).toFun (vecB D hm j i).toFun ∧
    (cross (vecB D hm j i) (vecC D hm j i)).toFun
      = crossProduct (vecB D hm j i).toFun (vecC D hm j i).toFun ∧
    (cross (vecA D hm j i) (vecC D hm j i)).toFun
      = crossProduct (vecA D hm j i).toFun (vecC D hm j i).toFun ∧
    triangleOneNorm sqrt D hm j i
      = normalize sqrt
        ⟨3 * (hm (getIndex D j (i + 1)) - hm (getIndex D j i))
            - 3 * (hm (getIndex D (j + 1) (i + 1)) - hm (getIndex D j i)), 9,
          -(3 * (hm (getIndex D j (i + 1)) - hm (getIndex D j i)))⟩ ∧
    triangleTwoNorm sqrt D hm j i
      = normalize sqrt
        ⟨-(3 * (hm (getIndex D (j + 1) i) - hm (getIndex D j i))), 9,
          3 * (hm (getIndex D (j + 1) i) - hm (getIndex D j i))
            - 3 * (hm (getIndex D (j + 1) (i + 1)) - hm (getIndex D j i))⟩ ∧
    quadNorm sqrt D hm j i
      = normalize sqrt
        ⟨-(3 * (hm (getIndex D (j + 1) i) - hm (getIndex D j i))), 9,
          -(3 * (hm (getIndex D j (i + 1)) - hm (getIndex D j i)))⟩ := by
  refine ⟨?_, ?_, ?_, cross_toFun _ _, cross_toFun _ _, cross_toFun _ _, ?_, ?_, ?_⟩
  · simp only [vecA, spacing_cast]
  · simp only [vecB, spacing_cast]
  · simp only [vecC, spacing_cast]
  · rw [triangleOneNorm, cross_vecA_vecB]
  · rw [triangleTwoNorm, cross_vecB_vecC]
  · rw [quadNorm, cross_vecA_vecC]

/-- A non-zero vector divided by its magnitude has magnitude 1. -/
theorem magnitude_normalize (v : Vec3 ℝ) (hv : 0 < v.c0 ^ 2 + v.c1 ^ 2 + v.c2 ^ 2) :
    magnitude Real.sqrt (normalize Real.sqrt v) = 1 := by
  have hm : 0 < Real.sqrt (v.c0 ^ 2 + v.c1 ^ 2 + v.c2 ^ 2) := Real.sqrt_pos.mpr hv
  have hsq : Real.sqrt (v.c0 ^ 2 + v.c1 ^ 2 + v.c2 ^ 2) ^ 2 = v.c0 ^ 2 + v.c1 ^ 2 + v.c2 ^ 2 :=
    Real.sq_sqrt (le_of_lt hv)
  simp only [magnitude, normalize, divide]
  have e : (v.c0 / Real.sqrt (v.c0 ^ 2 + v.c1 ^ 2 + v.c2 ^ 2)) ^ 2
      + (v.c1 / Real.sqrt (v.c0 ^ 2 + v.c1 ^ 2 + v.c2 ^ 2)) ^ 2
      + (v.c2 / Real.sqrt (v.c0 ^ 2 + v.c1 ^ 2 + v.c2 ^ 2)) ^ 2 = 1 := by
    rw [div_pow, div_pow, div_pow, hsq, ← add_div, ← add_div]
    exact div_self (ne_of_gt hv)
  rw [e, Real.sqrt_one]

/-- The three face normals of any cell are unit vectors. -/
theorem face_normals_unit (D : Int) (hm : Int → ℝ) (j i : Int) :
    magnitude Real.sqrt (triangleOneNorm Real.sqrt D hm j i) = 1 ∧
    magnitude Real.sqrt (triangleTwoNorm Real.sqrt D hm j i) = 1 ∧
    magnitude Real.sqrt (quadNorm Real.sqrt D hm j i) = 1 := by
  refine ⟨?_, ?_, ?_⟩
  · rw [triangleOneNorm, cross_vecA_vecB]
    apply magnitude_normalize
    simp only
    positivity
  · rw [triangleTwoNorm, cross_vecB_vecC]
    apply magnitude_normalize
    simp only
    positivity
  · rw [quadNorm, cross_vecA_vecC]
    apply magnitude_normalize
    simp only
    positivity

/-- C13: for every height field and every cell `(j,i)` of the grid, each of the three face
normals that `setNormals` computes and stores (at the running indices, block `i * (width-1) + j`)
has Euclidean magnitude 1 over the reals. -/
theorem C13_face_normals_unit (t : Terrain ℝ) (i j : Int)
    (hi : 0 ≤ i) (hiD : i < t.terrainDepth - 1) (hj : 0 ≤ j) (hjW : j < t.terrainWidth - 1) :
    magnitude Real.sqrt (triangleOneNorm Real.sqrt t.terrainDepth t.heightMap j i) = 1 ∧
    magnitude Real.sqrt (triangleTwoNorm Real.sqrt t.terrainDepth t.heightMap j i) = 1 ∧
    magnitude Real.sqrt (quadNorm Real.sqrt t.terrainDepth t.heightMap j i) = 1 ∧
    magnitude Real.sqrt (read3 (setNormals Real.sqrt t).triangleNormals
      (6 * (i * (t.terrainWidth - 1) + j))) = 1 ∧
    magnitude Real.sqrt (read3 (setNormals Real.sqrt t).triangleNormals
      (6 * (i * (t.terrainWidth - 1) + j) + 3)) = 1 ∧
    magnitude Real.sqrt (read3 (setNormals Real.sqrt t).quadNormals
      (3 * (i * (t.terrainWidth - 1) + j))) = 1 := by
  obtain ⟨u1, u2, u3⟩ := face_normals_unit t.terrainDepth t.heightMap j i
  obtain ⟨l1, l2, l3⟩ := (faceLoops_layout Real.sqrt t (by omega) (by omega)).1 i j hi hiD hj hjW
  rw [(setNormals_faceArrays Real.sqrt t).1, (setNormals_faceArrays Real.sqrt t).2, l1, l2, l3]
  exact ⟨u1, u2, u3, u1, u2, u3⟩

/-- Witness of C13: cell `(1,0)` of the raised-vertex terrain. -/
theorem C13_face_normals_unit_witness :
    (0 : Int) < (bumpTerrain ℝ).terrainDepth - 1 ∧ (1 : Int) < (bumpTerrain ℝ).terrainWidth - 1 ∧
    magnitude Real.sqrt (read3 (setNormals Real.sqrt (bumpTerrain ℝ)).quadNormals
      (3 * (0 * ((bumpTerrain ℝ).terrainWidth - 1) + 1))) = 1 :=
  ⟨by decide, by decide,
    (C13_face_normals_unit (bumpTerrain ℝ) 0 1 (by decide) (by decide) (by decide)
      (by decide)).2.2.2.2.2⟩

end FaceClaims

/-! ## Claims on the circles algorithm and on particle deposition -/

section CirclesAmount

/-- The centre height is the picked height converted to `int`. -/
theorem circleCenterOf_c1 {α : Type} [LinearOrderedField α] [FloorRing α] (D rx rz : Int)
    (hm : Int → α) :
    (circleCenterOf D rx rz hm).c1 = ((truncToInt (hm (getIndex D rx rz)) : Int) : α) := rfl

/-- C19, the code at the failing input (50 x 50 grid, picked vertex `(5,5)` with current height
`1/2`): the y-coordinate of the circle centre point is `0`, the height read into an `int`, not
the current height `1/2`. -/
theorem C19_centre_height_truncated :
    halfHeights ℝ (getIndex 50 5 5) = 1 / 2 ∧
    (circleCenterOf 50 5 5 (halfHeights ℝ)).c1 = 0 := by
  have h : halfHeights ℝ (getIndex 50 5 5) = 1 / 2 := by
    simp [halfHeights, getIndex]
  refine ⟨h, ?_⟩
  rw [circleCenterOf_c1, h]
  have hf : ⌊(1 / 2 : ℝ)⌋ = 0 := by
    rw [Int.floor_eq_zero_iff]
    constructor <;> norm_num
  have hpos : (0 : ℝ) ≤ 1 / 2 := by norm_num
  simp only [truncToInt, hpos, if_true, hf, Int.cast_zero]

/-- A displaced vertex receives `circlesAmount` of the drawn magnitude, which lies in
`{1,...,5}`. -/
theorem circlesVertex_displaced {α : Type} [LinearOrderedField α] (sqrt cos : α → α)
    (D r : Int) (c : Vec3 α) (i j : Int) (s : (Int → α) × Rng)
    (hpd : |pointDistance sqrt ⟨(i : α), s.1 (getIndex D i j), (j : α)⟩ c * 2 / (r : α)| ≤ 1) :
    (circlesVertex sqrt cos D r c i j s).1 (getIndex D i j)
      = s.1 (getIndex D i j)
        + circlesAmount cos (Int.tmod (s.2.draws s.2.pos) MAX_DISP + 1)
          (pointDistance sqrt ⟨(i : α), s.1 (getIndex D i j), (j : α)⟩ c * 2 / (r : α)) ∧
    1 ≤ Int.tmod (s.2.draws s.2.pos) MAX_DISP + 1 ∧
    Int.tmod (s.2.draws s.2.pos) MAX_DISP + 1 ≤ 5 := by
  have h0 : 0 ≤ Int.tmod (s.2.draws s.2.pos) MAX_DISP := tmod_nonneg_of_draw _ _
  have h1 : Int.tmod (s.2.draws s.2.pos) MAX_DISP < 5 := Int.tmod_lt_of_pos _ (by decide)
  refine ⟨?_, by omega, by omega⟩
  simp only [circlesVertex, rand, circlesAmount]
  rw [if_pos hpd]
  simp

/-- The cosine of `3.14` is above `-1`, by less than `1/10000`. -/
theorem cos_314_bounds : -1 < Real.cos 3.14 ∧ Real.cos 3.14 < -1 + 1 / 10000 := by
  have h1 : (3.14 : ℝ) < Real.pi := Real.pi_gt_d2
  have h2 : Real.pi < 3.15 := Real.pi_lt_d2
  constructor
  · have := Real.cos_lt_cos_of_nonneg_of_le_pi (x := 3.14) (y := Real.pi) (by norm_num) le_rfl h1
    rw [Real.cos_pi] at this
    exact this
  · have e : Real.cos 3.14 = -Real.cos (Real.pi - 3.14) := by
      rw [Real.cos_pi_sub, neg_neg]
    have hb : 1 - (Real.pi - 3.14) ^ 2 / 2 ≤ Real.cos (Real.pi - 3.14) :=
      Real.one_sub_sq_div_two_le_cos
    have hs : (Real.pi - 3.14) ^ 2 < (1 / 100) ^ 2 := by
      apply pow_lt_pow_left₀ (by linarith) (by linarith) (by norm_num)
    rw [e]
    nlinarith

/-- C18 (counterexample): with magnitude `d = 1` the amount added at the circle centre
(`pd = 0`) is `1/2`, not `1`; with `d = 2` the amount added at the circle edge (`pd = 1`) is
positive, not `0`. -/
theorem C18_amount_at_centre_and_edge :
    circlesAmount Real.cos 1 0 = 1 / 2 ∧ 0 < circlesAmount Real.cos 2 1 := by
  have t1 : Int.tdiv 1 2 = 0 := by decide
  have t2 : Int.tdiv 2 2 = 1 := by decide
  constructor
  · simp only [circlesAmount, t1]
    norm_num
  · simp only [circlesAmount, t2]
    have := cos_314_bounds.1
    norm_num
    linarith

/-- C18 (amended): for the even displacement magnitudes `d` in `{2, 4}` the amount the circles
algorithm adds to a displaced vertex is `d/2 + cos(pd * 3.14) * d/2`, with `3.14` in place of
`pi`; it is exactly `d` when `pd = 0`, and when `pd = 1` it is positive and below `d/10000`. -/
theorem C18_amount_even (d : Int) (hd : d = 2 ∨ d = 4) (pd : ℝ) :
    circlesAmount Real.cos d pd = (d : ℝ) / 2 + Real.cos (pd * 3.14) * (d : ℝ) / 2 ∧
    circlesAmount Real.cos d 0 = (d : ℝ) ∧
    0 < circlesAmount Real.cos d 1 ∧
    circlesAmount Real.cos d 1 < (d : ℝ) / 10000 := by
  have t2 : Int.tdiv 2 2 = 1 := by decide
  have t4 : Int.tdiv 4 2 = 2 := by decide
  obtain ⟨c1, c2⟩ := cos_314_bounds
  rcases hd with h | h <;> subst h
  · simp only [circlesAmount, t2]
    refine ⟨by norm_num, by norm_num, ?_, ?_⟩
    · norm_num
      linarith
    · norm_num
      linarith
  · simp only [circlesAmount, t4]
    refine ⟨by norm_num, by norm_num, ?_, ?_⟩
    · norm_num
      linarith
    · norm_num
      linarith

/-- Witness of C18 (amended): magnitude 2. -/
theorem C18_amount_even_witness :
    ((2 : Int) = 2 ∨ (2 : Int) = 4) ∧ circlesAmount Real.cos 2 0 = ((2 : Int) : ℝ) :=
  ⟨Or.inl rfl, (C18_amount_even 2 (Or.inl rfl) 0).2.1⟩

end CirclesAmount

section Deposition

variable {α : Type} [LinearOrderedField α]

/-- One step of the walk: the position after the step's move stays on the grid, and the step
adds `0.3` to the slot of that position and changes no other slot. -/
theorem depositionStep_spec (W D : Int) (s : WalkState α)
    (hx : 0 ≤ s.randomX) (hxW : s.randomX < W) (hz : 0 ≤ s.randomZ) (hzD : s.randomZ < D) :
    0 ≤ (depositionStep W D s).randomX ∧ (depositionStep W D s).randomX < W ∧
    0 ≤ (depositionStep W D s).randomZ ∧ (depositionStep W D s).randomZ < D ∧
    (depositionStep W D s).heightMap
      = Function.update s.heightMap
          (getIndex D (depositionStep W D s).randomX (depositionStep W D s).randomZ)
          (s.heightMap
            (getIndex D (depositionStep W D s).randomX (depositionStep W D s).randomZ) + 0.3) := by
  refine ⟨?_, ?_, ?_, ?_, rfl⟩
  · simp only [depositionStep]
    split_ifs <;> omega
  · simp only [depositionStep]
    split_ifs <;> omega
  · simp only [depositionStep]
    split_ifs <;> omega
  · simp only [depositionStep]
    split_ifs <;> omega

/-- Writing `v` to a slot below `n` changes the sum of the first `n` slots by `v` minus the old
content. -/
theorem heightSum_update (n : Int) (hm : Int → α) (k : Int) (hk : 0 ≤ k) (hkn : k < n) (v : α) :
    heightSum n (Function.update hm k v) = heightSum n hm + (v - hm k) := by
  obtain ⟨m, rfl⟩ := Int.eq_ofNat_of_zero_le hk
  have hmem : m ∈ Finset.range n.toNat := by
    rw [Finset.mem_range]
    omega
  unfold heightSum
  have e : ∀ q ∈ Finset.range n.toNat,
      Function.update hm (m : Int) v (q : Int)
        = hm (q : Int) + (if q = m then (v - hm (m : Int)) else 0) := by
    intro q _
    by_cases hq : q = m
    · subst hq
      simp
    · have : (q : Int) ≠ (m : Int) := by exact_mod_cast hq
      simp [Function.update_apply, this, hq]
  rw [Finset.sum_congr rfl e, Finset.sum_add_distrib, Finset.sum_ite_eq', if_pos hmem]

/-- The 100 steps of one walk started on the grid: the sum of the heights grows by `100 * 0.3`
and no height decreases. -/
theorem depositionWalk_spec (W D : Int) (ws : WalkState α)
    (hx : 0 ≤ ws.randomX) (hxW : ws.randomX < W) (hz : 0 ≤ ws.randomZ) (hzD : ws.randomZ < D) :
    heightSum (W * D) (forLoop 100 (fun _ s => depositionStep W D s) ws).heightMap
      = heightSum (W * D) ws.heightMap + 100 * 0.3 ∧
    ∀ p, ws.heightMap p ≤ (forLoop 100 (fun _ s => depositionStep W D s) ws).heightMap p := by
  have key := forLoop_invariant
    (fun k (s : WalkState α) =>
      (0 ≤ s.randomX ∧ s.randomX < W ∧ 0 ≤ s.randomZ ∧ s.randomZ < D) ∧
      heightSum (W * D) s.heightMap = heightSum (W * D) ws.heightMap + (k : α) * 0.3 ∧
      ∀ p, ws.heightMap p ≤ s.heightMap p)
    100 (by decide) (fun _ s => depositionStep W D s) ws
    ⟨⟨hx, hxW, hz, hzD⟩, by simp, fun p => le_rfl⟩ ?_
  · obtain ⟨_, h2, h3⟩ := key
    refine ⟨?_, h3⟩
    rw [h2]
    norm_num
  · intro k s _ _ ⟨⟨bx, bxW, bz, bzD⟩, hsum, hmono⟩
    obtain ⟨nx, nxW, nz, nzD, hnew⟩ := depositionStep_spec W D s bx bxW bz bzD
    obtain ⟨r0, r1⟩ := getIndex_range W D _ _ nx nxW nz nzD
    refine ⟨⟨nx, nxW, nz, nzD⟩, ?_, ?_⟩
    · rw [hnew, heightSum_update (W * D) s.heightMap _ r0 (by rw [mul_comm]; exact r1), hsum]
      push_cast
      ring
    · intro p
      rw [hnew]
      by_cases hp : p = getIndex D (depositionStep W D s).randomX (depositionStep W D s).randomZ
      · rw [hp, Function.update_same]
        have := hmono (getIndex D (depositionStep W D s).randomX (depositionStep W D s).randomZ)
        have h3 : (0 : α) ≤ 0.3 := by norm_num
        linarith
      · rw [Function.update_noteq hp]
        exact hmono p

/-- One iteration of particle deposition: the sum of the heights grows by `100 * 0.3` and no
height decreases. -/
theorem depositionIteration_spec (W D : Int) (hW : 0 < W) (hD : 0 < D) (s : (Int → α) × Rng) :
    heightSum (W * D) (depositionIteration W D s).1 = heightSum (W * D) s.1 + 100 * 0.3 ∧
    ∀ p, s.1 p ≤ (depositionIteration W D s).1 p := by
  simp only [depositionIteration, rand]
  exact depositionWalk_spec W D _ (tmod_nonneg_of_draw _ _) (Int.tmod_lt_of_pos _ hW)
    (tmod_nonneg_of_draw _ _) (Int.tmod_lt_of_pos _ hD)

/-- C16: particle deposition runs `complexity` iterations when `complexity <= 200` and
`5 * complexity` when `complexity > 200`; each iteration raises the sum of all heights by
`100 * 0.3`, so for every height field, every complexity `>= 0` and every random stream the sum of
all heights after the pass is the sum before plus `100 * 0.3 * iterations`, and no height
decreases. -/
theorem C16_deposition_sum (W D c : Int) (s : (Int → α) × Rng)
    (hW : 0 < W) (hD : 0 < D) (hc : 0 ≤ c) :
    (depositionAlgorithm W D c s
      = forLoop (if c > 200 then 5 * c else c) (fun _ s => depositionIteration W D s) s) ∧
    (∀ s0 : (Int → α) × Rng,
      heightSum (W * D) (depositionIteration W D s0).1 = heightSum (W * D) s0.1 + 100 * 0.3) ∧
    heightSum (W * D) (depositionAlgorithm W D c s).1
      = heightSum (W * D) s.1 + 100 * 0.3 * (((if c > 200 then 5 * c else c) : Int) : α) ∧
    ∀ p, s.1 p ≤ (depositionAlgorithm W D c s).1 p := by
  have hit : 0 ≤ (if c > 200 then 5 * c else c) := by
    split_ifs <;> omega
  have key := forLoop_invariant
    (fun k (s' : (Int → α) × Rng) =>
      heightSum (W * D) s'.1 = heightSum (W * D) s.1 + 100 * 0.3 * (k : α) ∧
      ∀ p, s.1 p ≤ s'.1 p)
    (if c > 200 then 5 * c else c) hit (fun _ s => depositionIteration W D s) s
    ⟨by simp, fun p => le_rfl⟩ ?_
  · exact ⟨rfl, fun s0 => (depositionIteration_spec W D hW hD s0).1, key.1, key.2⟩
  · intro k s' _ _ ⟨hsum, hmono⟩
    obtain ⟨h1, h2⟩ := depositionIteration_spec W D hW hD s'
    refine ⟨?_, fun p => le_trans (hmono p) (h2 p)⟩
    rw [h1, hsum]
    push_cast
    ring

end Deposition

/-- Witness of C16: a sloped 50 x 50 grid with complexity 3. -/
theorem C16_deposition_sum_witness :
    (0 : Int) < 50 ∧ (0 : Int) ≤ 3 ∧
    heightSum (50 * 50) (depositionAlgorithm 50 50 3 (slopeHeights ℝ, constRng 7)).1
      = heightSum (50 * 50) (slopeHeights ℝ, constRng 7).1
        + 100 * 0.3 * (((if (3 : Int) > 200 then 5 * 3 else 3) : Int) : ℝ) :=
  ⟨by decide, by decide,
    (C16_deposition_sum 50 50 3 (slopeHeights ℝ, constRng 7) (by decide) (by decide)
      (by decide)).2.2.1⟩

section DepositOrder

/-- C17 (counterexample): a walk standing on vertex `(5,5)` of a flat 50 x 50 grid whose next
direction draw is `0`: the step moves to `(6,5)` and deposits there; the height of the vertex
`(5,5)` occupied before the move stays `0`. -/
theorem C17_deposit_lands_after_move :
    (walkStart ℝ).randomX = 5 ∧ (walkStart ℝ).randomZ = 5 ∧
    (depositionStep 50 50 (walkStart ℝ)).randomX = 6 ∧
    (depositionStep 50 50 (walkStart ℝ)).randomZ = 5 ∧
    (depositionStep 50 50 (walkStart ℝ)).heightMap (getIndex 50 5 5) = 0 ∧
    (depositionStep 50 50 (walkStart ℝ)).heightMap (getIndex 50 6 5) = 0.3 := by
  have hd : Int.tmod ((rand (walkStart ℝ).rng).1) 4 = 0 := by decide
  have hx : (depositionStep 50 50 (walkStart ℝ)).randomX = 6 := by
    simp only [depositionStep, hd]
    decide
  have hz : (depositionStep 50 50 (walkStart ℝ)).randomZ = 5 := by
    simp only [depositionStep, hd]
    decide
  have hh := (depositionStep_spec 50 50 (walkStart ℝ) (by decide) (by decide) (by decide)
    (by decide)).2.2.2.2
  rw [hx, hz] at hh
  refine ⟨rfl, rfl, hx, hz, ?_, ?_⟩
  · rw [hh, Function.update_noteq (by decide)]
    rfl
  · rw [hh, Function.update_same]
    simp [walkStart]

/-- C17 (amended): in every random-walk step of particle deposition the move of the step is
applied first (one cell in the drawn direction when that stays on the grid, no move otherwise) and
the `0.3` increment is then added to the vertex the walk occupies after the move; no other height
changes. -/
theorem C17_deposit_after_move {α : Type} [LinearOrderedField α] (W D : Int)
    (s : WalkState α) :
    (depositionStep W D s).randomX
      = (if Int.tmod (s.rng.draws s.rng.pos) 4 = 0 then
          (if s.randomX + 1 < W then s.randomX + 1 else s.randomX)
        else if Int.tmod (s.rng.draws s.rng.pos) 4 = 1 then
          (if s.randomX - 1 ≥ 0 then s.randomX - 1 else s.randomX)
        else s.randomX) ∧
    (depositionStep W D s).randomZ
      = (if Int.tmod (s.rng.draws s.rng.pos) 4 = 2 then
          (if s.randomZ + 1 < D then s.randomZ + 1 else s.randomZ)
        else if Int.tmod (s.rng.draws s.rng.pos) 4 = 3 then
          (if s.randomZ - 1 ≥ 0 then s.randomZ - 1 else s.randomZ)
        else s.randomZ) ∧
    (depositionStep W D s).heightMap
        (getIndex D (depositionStep W D s).randomX (depositionStep W D s).randomZ)
      = s.heightMap
          (getIndex D (depositionStep W D s).randomX (depositionStep W D s).randomZ) + 0.3 ∧
    (∀ p, p ≠ getIndex D (depositionStep W D s).randomX (depositionStep W D s).randomZ →
      (depositionStep W D s).heightMap p = s.heightMap p) := by
  have hh : (depositionStep W D s).heightMap
      = Function.update s.heightMap
          (getIndex D (depositionStep W D s).randomX (depositionStep W D s).randomZ)
          (s.heightMap
            (getIndex D (depositionStep W D s).randomX (depositionStep W D s).randomZ)
              + 0.3) := rfl
  refine ⟨rfl, rfl, ?_, ?_⟩
  · rw [hh, Function.update_same]
  · intro p hp
    rw [hh, Function.update_noteq hp]

/-- Witness of C17 (amended): the walk on `(5,5)` with direction draw `0`; the slot of vertex
`(5,5)` is not the slot written. -/
theorem C17_deposit_after_move_witness :
    getIndex 50 5 5 ≠ getIndex 50 (depositionStep 50 50 (walkStart ℝ)).randomX
      (depositionStep 50 50 (walkStart ℝ)).randomZ ∧
    (depositionStep 50 50 (walkStart ℝ)).heightMap (getIndex 50 5 5)
      = (walkStart ℝ).heightMap (getIndex 50 5 5) :=
  ⟨by decide,
    (C17_deposit_after_move 50 50 (walkStart ℝ)).2.2.2 (getIndex 50 5 5) (by decide)⟩

end DepositOrder

/-! ## Claims on the vertex-normal sums -/

section VertexSums

variable {α : Type} [LinearOrderedField α]

theorem vadd_zero_left (v : Vec3 α) : vadd ⟨0, 0, 0⟩ v = v := by
  cases v
  simp [vadd]

theorem vadd_comm (u v : Vec3 α) : vadd u v = vadd v u := by
  simp only [vadd, Vec3.mk.injEq]
  exact ⟨add_comm _ _, add_comm _ _, add_comm _ _⟩

theorem vadd_assoc (u v w : Vec3 α) : vadd (vadd u v) w = vadd u (vadd v w) := by
  simp only [vadd, Vec3.mk.injEq]
  exact ⟨add_assoc _ _ _, add_assoc _ _ _, add_assoc _ _ _⟩

theorem vsum_one (a : Vec3 α) : vsum [a] = a := by
  simp [vsum, vadd_zero_left]

theorem vsum_two (a b : Vec3 α) : vsum [a, b] = vadd a b := by
  simp [vsum, vadd_zero_left]

theorem vsum_three (a b c : Vec3 α) : vsum [a, b, c] = vadd (vadd a b) c := by
  simp [vsum, vadd_zero_left]

theorem vsum_four (a b c d : Vec3 α) : vsum [a, b, c, d] = vadd (vadd (vadd a b) c) d := by
  simp [vsum, vadd_zero_left]

theorem vsum_six (a b c d e f : Vec3 α) :
    vsum [a, b, c, d, e, f] = vadd (vadd (vadd (vadd (vadd a b) c) d) e) f := by
  simp [vsum, vadd_zero_left]

theorem vsum_perm (l1 l2 : List (Vec3 α)) (h : l1.Perm l2) : vsum l1 = vsum l2 := by
  unfold vsum
  apply List.Perm.foldl_eq' h
  intro x _ y _ z
  rw [vadd_assoc, vadd_comm x y, ← vadd_assoc]

set_option maxHeartbeats 1000000 in
/-- The triangle-basis sum of `setVertexNormals` is the sum of the triples read at the offsets of
the triangle faces it addresses. -/
theorem vertexSums_fst_eq_faces (W D : Int) (tn qn : Int → α) (x z : Int) :
    (vertexSums W D tn qn x z).1
      = vsum ((vertexTriangleFaces W D x z).map
          (fun f => read3 tn (getNormalIndex D f.1 f.2.1 't' f.2.2))) := by
  simp only [vertexSums, vertexTriangleFaces]
  split_ifs <;>
    simp only [List.map, vsum_one, vsum_two, vsum_three, vsum_six]

set_option maxHeartbeats 1000000 in
/-- The quad-basis sum of `setVertexNormals` is the sum of the triples read at the offsets of the
quad faces it addresses. -/
theorem vertexSums_snd_eq_faces (W D : Int) (tn qn : Int → α) (x z : Int) :
    (vertexSums W D tn qn x z).2
      = vsum ((vertexQuadFaces W D x z).map
          (fun f => read3 qn (getNormalIndex D f.1 f.2 'y' true))) := by
  simp only [vertexSums, vertexQuadFaces]
  split_ifs <;>
    simp only [List.map, vsum_one, vsum_two, vsum_four]

end VertexSums

section FaceTables

/-- On a grid with at least two vertices per side the triangle faces `setVertexNormals` addresses
are, up to their order, those of the positional table. -/
theorem vertexTriangleFaces_perm_spec (W D x z : Int) (hW : 2 ≤ W) (hD : 2 ≤ D)
    (hx : 0 ≤ x) (hxW : x < W) (hz : 0 ≤ z) (hzD : z < D) :
    (vertexTriangleFaces W D x z).Perm (specTriangleFaces W D x z) := by
  have e1 : 0 < x ↔ ¬ x = 0 := by omega
  have e2 : x < W - 1 ↔ ¬ x = W - 1 := by omega
  have e3 : 0 < z ↔ ¬ z = 0 := by omega
  have e4 : z < D - 1 ↔ ¬ z = D - 1 := by omega
  have w0 : ¬ (0 : Int) = W - 1 := by omega
  have d0 : ¬ (0 : Int) = D - 1 := by omega
  have w1 : W - 1 - 1 = W - 2 := by omega
  have d1 : D - 1 - 1 = D - 2 := by omega
  have w0' : ¬ W - 1 = 0 := by omega
  have d0' : ¬ D - 1 = 0 := by omega
  by_cases a : x = 0 <;> by_cases b : x = W - 1 <;> by_cases c : z = 0 <;>
    by_cases d : z = D - 1 <;>
    first
    | omega
    | (simp [vertexTriangleFaces, specTriangleFaces, e1, e2, e3, e4, a, b, c, d, w0, d0, w0',
        d0', w1, d1]; done)
    | (simp [vertexTriangleFaces, specTriangleFaces, e1, e2, e3, e4, a, b, c, d, w0, d0, w0',
        d0', w1, d1]
       exact List.Perm.swap _ _ _)

/-- On a grid with at least two vertices per side the quad faces `setVertexNormals` addresses
are those of the positional table. -/
theorem vertexQuadFaces_eq_spec (W D x z : Int) (hW : 2 ≤ W) (hD : 2 ≤ D)
    (hx : 0 ≤ x) (hxW : x < W) (hz : 0 ≤ z) (hzD : z < D) :
    vertexQuadFaces W D x z = specQuadFaces W D x z := by
  have e1 : 0 < x ↔ ¬ x = 0 := by omega
  have e2 : x < W - 1 ↔ ¬ x = W - 1 := by omega
  have e3 : 0 < z ↔ ¬ z = 0 := by omega
  have e4 : z < D - 1 ↔ ¬ z = D - 1 := by omega
  have w0 : ¬ (0 : Int) = W - 1 := by omega
  have d0 : ¬ (0 : Int) = D - 1 := by omega
  have w1 : W - 1 - 1 = W - 2 := by omega
  have d1 : D - 1 - 1 = D - 2 := by omega
  have w0' : ¬ W - 1 = 0 := by omega
  have d0' : ¬ D - 1 = 0 := by omega
  by_cases a : x = 0 <;> by_cases b : x = W - 1 <;> by_cases c : z = 0 <;>
    by_cases d : z = D - 1 <;>
    first
    | omega
    | simp [vertexQuadFaces, specQuadFaces, e1, e2, e3, e4, a, b, c, d, w0, d0, w0',
        d0', w1, d1]

/-- C14: on a grid with at least two vertices per side (in particular `width, depth >= 3`), for
every vertex `(x,z)` the un-normalised triangle-basis and quad-basis sums of `setVertexNormals`
are the sums of the face-normal triples found at the `getNormalIndex` offsets of exactly the faces
that the positional table of the specification lists for the position class of `(x,z)`; the table
lists 1 or 2 triangle faces and 1 quad face at a corner, 3 and 2 on an edge, 6 and 4 in the
interior. -/
theorem C14_vertex_sums_follow_table {α : Type} [LinearOrderedField α] (W D : Int)
    (tn qn : Int → α) (x z : Int) (hW : 2 ≤ W) (hD : 2 ≤ D)
    (hx : 0 ≤ x) (hxW : x < W) (hz : 0 ≤ z) (hzD : z < D) :
    (vertexSums W D tn qn x z).1
      = vsum ((specTriangleFaces W D x z).map
          (fun f => read3 tn (getNormalIndex D f.1 f.2.1 't' f.2.2))) ∧
    (vertexSums W D tn qn x z).2
      = vsum ((specQuadFaces W D x z).map
          (fun f => read3 qn (getNormalIndex D f.1 f.2 'y' true))) ∧
    ((0 < x ∧ x < W - 1 ∧ 0 < z ∧ z < D - 1) →
      (specTriangleFaces W D x z).length = 6 ∧ (specQuadFaces W D x z).length = 4) := by
  refine ⟨?_, ?_, ?_⟩
  · rw [vertexSums_fst_eq_faces]
    exact vsum_perm _ _
      (List.Perm.map _ (vertexTriangleFaces_perm_spec W D x z hW hD hx hxW hz hzD))
  · rw [vertexSums_snd_eq_faces, vertexQuadFaces_eq_spec W D x z hW hD hx hxW hz hzD]
  · intro h
    have a : ¬ x = 0 := by omega
    have b : ¬ x = W - 1 := by omega
    have c : ¬ z = 0 := by omega
    have d : ¬ z = D - 1 := by omega
    simp [specTriangleFaces, specQuadFaces, a, b, c, d, h]

/-- Witness of C14: the interior vertex `(3,5)` of a 50 x 50 grid with the face arrays that
`setNormals` leaves on the raised-vertex terrain. -/
theorem C14_vertex_sums_follow_table_witness :
    (2 : Int) ≤ 50 ∧ (0 : Int) ≤ 3 ∧ (3 : Int) < 50 ∧ (5 : Int) < 50 ∧
    (vertexSums 50 50 (setNormals Real.sqrt (bumpTerrain ℝ)).triangleNormals
        (setNormals Real.sqrt (bumpTerrain ℝ)).quadNormals 3 5).2
      = vsum ((specQuadFaces 50 50 3 5).map
          (fun f => read3 (setNormals Real.sqrt (bumpTerrain ℝ)).quadNormals
            (getNormalIndex 50 f.1 f.2 'y' true))) :=
  ⟨by decide, by decide, by decide, by decide,
    (C14_vertex_sums_follow_table 50 50 (setNormals Real.sqrt (bumpTerrain ℝ)).triangleNormals
      (setNormals Real.sqrt (bumpTerrain ℝ)).quadNormals 3 5 (by decide) (by decide) (by decide)
      (by decide) (by decide) (by decide)).2.1⟩

end FaceTables

section Incidence

set_option maxHeartbeats 1000000 in
/-- The triangle faces `setVertexNormals` addresses at a vertex are the triangles of in-range
cells that have the vertex as a corner. -/
theorem mem_vertexTriangleFaces (W D x z : Int) (hW : 2 ≤ W) (hD : 2 ≤ D)
    (hx : 0 ≤ x) (hxW : x < W) (hz : 0 ≤ z) (hzD : z < D) (j i : Int) (first : Bool) :
    (j, i, first) ∈ vertexTriangleFaces W D x z ↔
      (0 ≤ j ∧ j ≤ W - 2 ∧ 0 ≤ i ∧ i ≤ D - 2 ∧ (x, z) ∈ triangleCorners j i first) := by
  have w0 : ¬ (0 : Int) = W - 1 := by omega
  have d0 : ¬ (0 : Int) = D - 1 := by omega
  have w0' : ¬ W - 1 = 0 := by omega
  have d0' : ¬ D - 1 = 0 := by omega
  by_cases a : x = 0 <;> by_cases b : x = W - 1 <;> by_cases c : z = 0 <;>
    by_cases d : z = D - 1 <;>
    first
    | omega
    | (cases first <;>
        simp [vertexTriangleFaces, triangleCorners, a, b, c, d, w0, d0, w0', d0',
          -Prod.mk_zero_zero] <;> omega)

set_option maxHeartbeats 1000000 in
/-- The quad faces `setVertexNormals` addresses at a vertex are the in-range cells that have the
vertex as a corner. -/
theorem mem_vertexQuadFaces (W D x z : Int) (hW : 2 ≤ W) (hD : 2 ≤ D)
    (hx : 0 ≤ x) (hxW : x < W) (hz : 0 ≤ z) (hzD : z < D) (j i : Int) :
    (j, i) ∈ vertexQuadFaces W D x z ↔
      (0 ≤ j ∧ j ≤ W - 2 ∧ 0 ≤ i ∧ i ≤ D - 2 ∧ (x, z) ∈ quadCorners j i) := by
  have w0 : ¬ (0 : Int) = W - 1 := by omega
  have d0 : ¬ (0 : Int) = D - 1 := by omega
  have w0' : ¬ W - 1 = 0 := by omega
  have d0' : ¬ D - 1 = 0 := by omega
  by_cases a : x = 0 <;> by_cases b : x = W - 1 <;> by_cases c : z = 0 <;>
    by_cases d : z = D - 1 <;>
    first
    | omega
    | (simp [vertexQuadFaces, quadCorners, a, b, c, d, w0, d0, w0', d0',
          -Prod.mk_zero_zero]
       omega)

/-- No face is addressed twice at a vertex. -/
theorem vertexFaces_nodup (W D x z : Int) :
    (vertexTriangleFaces W D x z).Nodup ∧ (vertexQuadFaces W D x z).Nodup := by
  have e1 : ¬ x - 1 = x := by omega
  have e2 : ¬ x = x - 1 := by omega
  have e3 : ¬ z - 1 = z := by omega
  have e4 : ¬ z = z - 1 := by omega
  constructor
  · simp only [vertexTriangleFaces]
    split_ifs <;> simp [e1, e2, e3, e4]
  · simp only [vertexQuadFaces]
    split_ifs <;> simp [e1, e2, e3, e4]

/-- C15: with triangle one of cell `(j,i)` on the corners `(j,i), (j,i+1), (j+1,i+1)` and
triangle two on `(j,i), (j+1,i+1), (j+1,i)`, for every vertex `(x,z)` of a grid with
`width, depth >= 2` the sums of `setVertexNormals` run over the faces it addresses, each once; the
triangle faces addressed are exactly the triangles of in-range cells that have `(x,z)` as a
corner, and the quad faces addressed are exactly the in-range cells that have `(x,z)` as a
corner. -/
theorem C15_faces_are_incident {α : Type} [LinearOrderedField α] (W D : Int)
    (tn qn : Int → α) (x z : Int) (hW : 2 ≤ W) (hD : 2 ≤ D)
    (hx : 0 ≤ x) (hxW : x < W) (hz : 0 ≤ z) (hzD : z < D) :
    (vertexSums W D tn qn x z).1
      = vsum ((vertexTriangleFaces W D x z).map
          (fun f => read3 tn (getNormalIndex D f.1 f.2.1 't' f.2.2))) ∧
    (vertexSums W D tn qn x z).2
      = vsum ((vertexQuadFaces W D x z).map
          (fun f => read3 qn (getNormalIndex D f.1 f.2 'y' true))) ∧
    (vertexTriangleFaces W D x z).Nodup ∧ (vertexQuadFaces W D x z).Nodup ∧
    (∀ (j i : Int) (first : Bool), (j, i, first) ∈ vertexTriangleFaces W D x z ↔
      (0 ≤ j ∧ j ≤ W - 2 ∧ 0 ≤ i ∧ i ≤ D - 2 ∧ (x, z) ∈ triangleCorners j i first)) ∧
    (∀ (j i : Int), (j, i) ∈ vertexQuadFaces W D x z ↔
      (0 ≤ j ∧ j ≤ W - 2 ∧ 0 ≤ i ∧ i ≤ D - 2 ∧ (x, z) ∈ quadCorners j i)) :=
  ⟨vertexSums_fst_eq_faces W D tn qn x z, vertexSums_snd_eq_faces W D tn qn x z,
    (vertexFaces_nodup W D x z).1, (vertexFaces_nodup W D x z).2,
    fun j i first => mem_vertexTriangleFaces W D x z hW hD hx hxW hz hzD j i first,
    fun j i => mem_vertexQuadFaces W D x z hW hD hx hxW hz hzD j i⟩

/-- Witness of C15: at the corner `(49,0)` of a 50 x 50 grid, triangle two of cell `(48,0)` is
addressed and triangle one of that cell is not. -/
theorem C15_faces_are_incident_witness :
    (2 : Int) ≤ 50 ∧ (0 : Int) ≤ 49 ∧ (49 : Int) < 50 ∧ (0 : Int) < 50 ∧
    ((48, 0, false) ∈ vertexTriangleFaces 50 50 49 0 ↔
      ((0 : Int) ≤ 48 ∧ (48 : Int) ≤ 50 - 2 ∧ (0 : Int) ≤ 0 ∧ (0 : Int) ≤ 50 - 2 ∧
        ((49 : Int), (0 : Int)) ∈ triangleCorners 48 0 false)) ∧
    ((48, 0, true) ∈ vertexTriangleFaces 50 50 49 0 ↔
      ((0 : Int) ≤ 48 ∧ (48 : Int) ≤ 50 - 2 ∧ (0 : Int) ≤ 0 ∧ (0 : Int) ≤ 50 - 2 ∧
        ((49 : Int), (0 : Int)) ∈ triangleCorners 48 0 true)) :=
  ⟨by decide, by decide, by decide, by decide,
    (C15_faces_are_incident 50 50 (fun _ => (0 : ℝ)) (fun _ => (0 : ℝ)) 49 0 (by decide)
      (by decide) (by decide) (by decide) (by decide) (by decide)).2.2.2.2.1 48 0 false,
    (C15_faces_are_incident 50 50 (fun _ => (0 : ℝ)) (fun _ => (0 : ℝ)) 49 0 (by decide)
      (by decide) (by decide) (by decide) (by decide) (by decide)).2.2.2.2.1 48 0 true⟩

end Incidence

/-! ## Idempotence of the normal pipeline -/

section Idempotence

variable {σ α : Type}

theorem forLoop_clamp (n : Int) (body : Int → σ → σ) (s : σ) :
    forLoop n body s = forLoop (max n 0) body s := by
  have h : (max n 0).toNat = n.toNat := by omega
  simp only [forLoop, h]

/-- Every slot of `[0, B * (N * M))` is slot `c` of the block of some iteration `(i,j)`. -/
theorem block_decompose (B N M p : Int) (hB : 0 < B) (hM : 0 ≤ M) (hp : 0 ≤ p)
    (hpn : p < B * (N * M)) :
    ∃ i j c, 0 ≤ i ∧ i < N ∧ 0 ≤ j ∧ j < M ∧ 0 ≤ c ∧ c < B ∧ p = B * (i * M + j) + c := by
  have hMpos : 0 < M := by
    rcases eq_or_lt_of_le hM with h | h
    · rw [← h] at hpn
      simp at hpn
      omega
    · exact h
  have hk0 : 0 ≤ p / B := Int.ediv_nonneg hp (le_of_lt hB)
  have hk1 : p / B < N * M := Int.ediv_lt_of_lt_mul hB (by rw [mul_comm]; exact hpn)
  refine ⟨p / B / M, p / B % M, p % B, Int.ediv_nonneg hk0 hM,
    Int.ediv_lt_of_lt_mul hMpos hk1, Int.emod_nonneg _ (ne_of_gt hMpos),
    Int.emod_lt_of_pos _ hMpos, Int.emod_nonneg _ (ne_of_gt hB), Int.emod_lt_of_pos _ hB, ?_⟩
  have e1 : p / B / M * M + p / B % M = p / B := by
    have := Int.ediv_add_emod (p / B) M
    rw [mul_comm] at this
    exact this
  rw [e1]
  exact (Int.ediv_add_emod p B).symm

/-- A sequential writer run again on the arrays it left, from a zero running index, leaves the
same arrays. -/
theorem seqWrite_nested_idem (arr : σ → Int → α) (ctr : σ → Int) (B : Int) (hB : 0 < B)
    (F : Int → Int → Int → α) (N M : Int)
    (body : Int → Int → σ → σ)
    (hctr : ∀ i j s, ctr (body i j s) = ctr s + B)
    (hval : ∀ i j s c, 0 ≤ c → c < B → arr (body i j s) (ctr s + c) = F i j c)
    (hframe : ∀ i j s p, (p < ctr s ∨ ctr s + B ≤ p) → arr (body i j s) p = arr s p)
    (s0 s1 : σ) (h0 : ctr s0 = 0) (h1 : ctr s1 = 0)
    (h01 : arr s1 = arr (forLoop N (fun i s => forLoop M (fun j s => body i j s) s) s0)) :
    arr (forLoop N (fun i s => forLoop M (fun j s => body i j s) s) s1)
      = arr (forLoop N (fun i s => forLoop M (fun j s => body i j s) s) s0) := by
  have clamp : ∀ s, forLoop N (fun i s => forLoop M (fun j s => body i j s) s) s
      = forLoop (max N 0) (fun i s => forLoop (max M 0) (fun j s => body i j s) s) s := by
    intro s
    rw [forLoop_clamp N]
    congr 1
    funext i s'
    exact forLoop_clamp M _ s'
  rw [clamp s0] at h01 ⊢
  rw [clamp s1]
  obtain ⟨_, v0, _⟩ := seqWrite_nested arr ctr B hB F (max N 0) (max M 0) (le_max_right _ _)
    (le_max_right _ _) body hctr hval hframe s0 h0
  obtain ⟨_, v1, f1⟩ := seqWrite_nested arr ctr B hB F (max N 0) (max M 0) (le_max_right _ _)
    (le_max_right _ _) body hctr hval hframe s1 h1
  funext p
  by_cases hp : 0 ≤ p ∧ p < B * (max N 0 * max M 0)
  · obtain ⟨i, j, c, hi, hiN, hj, hjM, hc, hcB, rfl⟩ :=
      block_decompose B (max N 0) (max M 0) p hB (le_max_right _ _) hp.1 hp.2
    rw [v1 i j c hi hiN hj hjM hc hcB, v0 i j c hi hiN hj hjM hc hcB]
  · rw [f1 p (by omega), h01]

end Idempotence

section PipelineIdempotence

variable {α : Type} [LinearOrderedField α]

theorem faceCell_tri_val (sqrt : α → α) (D : Int) (hm : Int → α) (i j : Int) (s : FaceState α)
    (c : Int) (hc0 : 0 ≤ c) (hc6 : c < 6) :
    (faceCell sqrt D hm i j s).triangleNormals (s.triangleNormIndex + c)
      = (if c = 0 then (triangleOneNorm sqrt D hm j i).c0
        else if c = 1 then (triangleOneNorm sqrt D hm j i).c1
        else if c = 2 then (triangleOneNorm sqrt D hm j i).c2
        else if c = 3 then (triangleTwoNorm sqrt D hm j i).c0
        else if c = 4 then (triangleTwoNorm sqrt D hm j i).c1
        else (triangleTwoNorm sqrt D hm j i).c2) := by
  have hc : c = 0 ∨ c = 1 ∨ c = 2 ∨ c = 3 ∨ c = 4 ∨ c = 5 := by omega
  simp only [faceCell]
  rcases hc with h | h | h | h | h | h <;> subst h
  · rw [write3_other _ _ _ _ (by omega), add_zero, write3_at0]; simp
  · rw [write3_other _ _ _ _ (by omega), write3_at1]; simp
  · rw [write3_other _ _ _ _ (by omega), write3_at2]; simp
  · rw [write3_at0]; simp
  · rw [show s.triangleNormIndex + 4 = s.triangleNormIndex + 3 + 1 by ring, write3_at1]; simp
  · rw [show s.triangleNormIndex + 5 = s.triangleNormIndex + 3 + 2 by ring, write3_at2]; simp

theorem faceCell_tri_frame (sqrt : α → α) (D : Int) (hm : Int → α) (i j : Int)
    (s : FaceState α) (p : Int)
    (hp : p < s.triangleNormIndex ∨ s.triangleNormIndex + 6 ≤ p) :
    (faceCell sqrt D hm i j s).triangleNormals p = s.triangleNormals p := by
  simp only [faceCell]
  rw [write3_other _ _ _ _ (by omega), write3_other _ _ _ _ (by omega)]

theorem faceCell_quad_val (sqrt : α → α) (D : Int) (hm : Int → α) (i j : Int) (s : FaceState α)
    (c : Int) (hc0 : 0 ≤ c) (hc3 : c < 3) :
    (faceCell sqrt D hm i j s).quadNormals (s.quadNormIndex + c)
      = (if c = 0 then (quadNorm sqrt D hm j i).c0
        else if c = 1 then (quadNorm sqrt D hm j i).c1
        else (quadNorm sqrt D hm j i).c2) := by
  have hc : c = 0 ∨ c = 1 ∨ c = 2 := by omega
  simp only [faceCell]
  rcases hc with h | h | h <;> subst h
  · rw [add_zero, write3_at0]; simp
  · rw [write3_at1]; simp
  · rw [write3_at2]; simp

theorem faceCell_quad_frame (sqrt : α → α) (D : Int) (hm : Int → α) (i j : Int)
    (s : FaceState α) (p : Int) (hp : p < s.quadNormIndex ∨ s.quadNormIndex + 3 ≤ p) :
    (faceCell sqrt D hm i j s).quadNormals p = s.quadNormals p := by
  simp only [faceCell]
  rw [write3_other _ _ _ _ (by omega)]

theorem vertexCell_tri_val (sqrt : α → α) (W D : Int) (tn qn : Int → α) (z x : Int)
    (s : VertexState α) (c : Int) (hc0 : 0 ≤ c) (hc3 : c < 3) :
    (vertexCell sqrt W D tn qn z x s).triangleVertexNormals (s.indexCounter + c)
      = (if c = 0 then (normalize sqrt (vertexSums W D tn qn x z).1).c0
        else if c = 1 then (normalize sqrt (vertexSums W D tn qn x z).1).c1
        else (normalize sqrt (vertexSums W D tn qn x z).1).c2) := by
  have hc : c = 0 ∨ c = 1 ∨ c = 2 := by omega
  simp only [vertexCell_eq]
  rcases hc with h | h | h <;> subst h
  · rw [add_zero, write3_at0]; simp
  · rw [write3_at1]; simp
  · rw [write3_at2]; simp

theorem vertexCell_quad_val (sqrt : α → α) (W D : Int) (tn qn : Int → α) (z x : Int)
    (s : VertexState α) (c : Int) (hc0 : 0 ≤ c) (hc3 : c < 3) :
    (vertexCell sqrt W D tn qn z x s).quadVertexNormals (s.indexCounter + c)
      = (if c = 0 then (normalize sqrt (vertexSums W D tn qn x z).2).c0
        else if c = 1 then (normalize sqrt (vertexSums W D tn qn x z).2).c1
        else (normalize sqrt (vertexSums W D tn qn x z).2).c2) := by
  have hc : c = 0 ∨ c = 1 ∨ c = 2 := by omega
  simp only [vertexCell_eq]
  rcases hc with h | h | h <;> subst h
  · rw [add_zero, write3_at0]; simp
  · rw [write3_at1]; simp
  · rw [write3_at2]; simp

theorem vertexCell_frame (sqrt : α → α) (W D : Int) (tn qn : Int → α) (z x : Int)
    (s : VertexState α) (p : Int) (hp : p < s.indexCounter ∨ s.indexCounter + 3 ≤ p) :
    (vertexCell sqrt W D tn qn z x s).triangleVertexNormals p = s.triangleVertexNormals p ∧
    (vertexCell sqrt W D tn qn z x s).quadVertexNormals p = s.quadVertexNormals p := by
  simp only [vertexCell_eq]
  exact ⟨write3_other _ _ _ _ (by omega), write3_other _ _ _ _ (by omega)⟩

/-- The face loops run on their own output leave it as it is. -/
theorem faceLoops_idem (sqrt : α → α) (t t1 : Terrain α)
    (hW : t1.terrainWidth = t.terrainWidth) (hD : t1.terrainDepth = t.terrainDepth)
    (hh : t1.heightMap = t.heightMap)
    (ht : t1.triangleNormals = (faceLoops sqrt t).triangleNormals)
    (hq : t1.quadNormals = (faceLoops sqrt t).quadNormals) :
    (faceLoops sqrt t1).triangleNormals = (faceLoops sqrt t).triangleNormals ∧
    (faceLoops sqrt t1).quadNormals = (faceLoops sqrt t).quadNormals := by
  unfold faceLoops at ht hq ⊢
  rw [hW, hD, hh]
  constructor
  · exact seqWrite_nested_idem FaceState.triangleNormals FaceState.triangleNormIndex 6
      (by decide) _ (t.terrainDepth - 1) (t.terrainWidth - 1)
      (fun i j s => faceCell sqrt t.terrainDepth t.heightMap i j s)
      (fun i j s => rfl)
      (fun i j s c hc0 hc6 => faceCell_tri_val sqrt _ _ i j s c hc0 hc6)
      (fun i j s p hp => faceCell_tri_frame sqrt _ _ i j s p hp)
      _ _ rfl rfl ht
  · exact seqWrite_nested_idem FaceState.quadNormals FaceState.quadNormIndex 3
      (by decide) _ (t.terrainDepth - 1) (t.terrainWidth - 1)
      (fun i j s => faceCell sqrt t.terrainDepth t.heightMap i j s)
      (fun i j s => rfl)
      (fun i j s c hc0 hc3 => faceCell_quad_val sqrt _ _ i j s c hc0 hc3)
      (fun i j s p hp => faceCell_quad_frame sqrt _ _ i j s p hp)
      _ _ rfl rfl hq

/-- The vertex loops run again on the same face arrays and on their own output leave it as it
is. -/
theorem vertexLoops_idem (sqrt : α → α) (t t1 : Terrain α)
    (hW : t1.terrainWidth = t.terrainWidth) (hD : t1.terrainDepth = t.terrainDepth)
    (ht : t1.triangleNormals = t.triangleNormals) (hq : t1.quadNormals = t.quadNormals)
    (hvt : t1.triangleVertexNormals = (vertexLoops sqrt t).triangleVertexNormals)
    (hvq : t1.quadVertexNormals = (vertexLoops sqrt t).quadVertexNormals) :
    (vertexLoops sqrt t1).triangleVertexNormals = (vertexLoops sqrt t).triangleVertexNormals ∧
    (vertexLoops sqrt t1).quadVertexNormals = (vertexLoops sqrt t).quadVertexNormals := by
  unfold vertexLoops at hvt hvq ⊢
  rw [hW, hD, ht, hq]
  constructor
  · exact seqWrite_nested_idem VertexState.triangleVertexNormals VertexState.indexCounter 3
      (by decide) _ t.terrainDepth t.terrainWidth
      (fun z x s => vertexCell sqrt t.terrainWidth t.terrainDepth t.triangleNormals
        t.quadNormals z x s)
      (fun z x s => rfl)
      (fun z x s c hc0 hc3 => vertexCell_tri_val sqrt _ _ _ _ z x s c hc0 hc3)
      (fun z x s p hp => (vertexCell_frame sqrt _ _ _ _ z x s p hp).1)
      _ _ rfl rfl hvt
  · exact seqWrite_nested_idem VertexState.quadVertexNormals VertexState.indexCounter 3
      (by decide) _ t.terrainDepth t.terrainWidth
      (fun z x s => vertexCell sqrt t.terrainWidth t.terrainDepth t.triangleNormals
        t.quadNormals z x s)
      (fun z x s => rfl)
      (fun z x s c hc0 hc3 => vertexCell_quad_val sqrt _ _ _ _ z x s c hc0 hc3)
      (fun z x s p hp => (vertexCell_frame sqrt _ _ _ _ z x s p hp).2)
      _ _ rfl rfl hvq

/-- C11: for every height field, all grid dimensions and every prior content of the normal
arrays, running `setNormals` a second time right after the first leaves the two face-normal
arrays and the two vertex-normal arrays as the first run left them. -/
theorem C11_setNormals_idempotent (sqrt : α → α) (t : Terrain α) :
    (setNormals sqrt (setNormals sqrt t)).triangleNormals = (setNormals sqrt t).triangleNormals ∧
    (setNormals sqrt (setNormals sqrt t)).quadNormals = (setNormals sqrt t).quadNormals ∧
    (setNormals sqrt (setNormals sqrt t)).triangleVertexNormals
      = (setNormals sqrt t).triangleVertexNormals ∧
    (setNormals sqrt (setNormals sqrt t)).quadVertexNormals
      = (setNormals sqrt t).quadVertexNormals ∧
    (setNormals sqrt (setNormals sqrt t)).heightMap = t.heightMap := by
  obtain ⟨ft, fq⟩ := faceLoops_idem sqrt t (setNormals sqrt t) rfl rfl rfl rfl rfl
  have ft' : (setFaceNormals sqrt (setNormals sqrt t)).triangleNormals
      = (setFaceNormals sqrt t).triangleNormals := ft
  have fq' : (setFaceNormals sqrt (setNormals sqrt t)).quadNormals
      = (setFaceNormals sqrt t).quadNormals := fq
  obtain ⟨vt, vq⟩ := vertexLoops_idem sqrt (setFaceNormals sqrt t)
    (setFaceNormals sqrt (setNormals sqrt t)) rfl rfl ft' fq' rfl rfl
  exact ⟨ft, fq, vt, vq, rfl⟩

end PipelineIdempotence

/-! ## Further claims on the indexer and the face normals -/

section FaceInvariants

/-- C21: for all `x`, `z`: `getNormalIndex(x,z,'t',true) = 6 * getIndex(x,z)`,
`getNormalIndex(x,z,'t',false) = 6 * getIndex(x,z) + 3`, and for every kind other than `'t'`
`getNormalIndex(x,z,kind,which) = 3 * getIndex(x,z)` whatever `which` is. -/
theorem C21_getNormalIndex_values (D x z : Int) :
    getNormalIndex D x z 't' true = 6 * getIndex D x z ∧
    getNormalIndex D x z 't' false = 6 * getIndex D x z + 3 ∧
    (∀ (kind : Char) (which : Bool), kind ≠ 't' →
      getNormalIndex D x z kind which = 3 * getIndex D x z) := by
  refine ⟨by simp [getNormalIndex], by simp [getNormalIndex], ?_⟩
  intro kind which hk
  simp [getNormalIndex, hk]

/-- Witness of C21: the quad kind `'y'` at cell `(3,5)` of a grid of depth 50. -/
theorem C21_getNormalIndex_values_witness :
    'y' ≠ 't' ∧ getNormalIndex 50 3 5 'y' false = 3 * getIndex 50 3 5 :=
  ⟨by decide, (C21_getNormalIndex_values 50 3 5).2.2 'y' false (by decide)⟩

/-- The middle component of each un-normalised face normal is `9`. -/
theorem cross_c1_eq_nine {α : Type} [LinearOrderedField α] (D : Int) (hm : Int → α)
    (j i : Int) :
    (cross (vecA D hm j i) (vecB D hm j i)).c1 = 9 ∧
    (cross (vecB D hm j i) (vecC D hm j i)).c1 = 9 ∧
    (cross (vecA D hm j i) (vecC D hm j i)).c1 = 9 := by
  rw [cross_vecA_vecB, cross_vecB_vecC, cross_vecA_vecC]
  exact ⟨rfl, rfl, rfl⟩

/-- A vector with middle component `9` has magnitude at least `9`. -/
theorem nine_le_magnitude (v : Vec3 ℝ) (h : v.c1 = 9) : 9 ≤ magnitude Real.sqrt v := by
  unfold magnitude
  rw [h]
  apply Real.le_sqrt_of_sq_le
  nlinarith [sq_nonneg v.c0, sq_nonneg v.c2]

/-- The three un-normalised face normals of any cell have magnitude at least `9`. -/
theorem nine_le_face_magnitudes (D : Int) (hm : Int → ℝ) (j i : Int) :
    9 ≤ magnitude Real.sqrt (cross (vecA D hm j i) (vecB D hm j i)) ∧
    9 ≤ magnitude Real.sqrt (cross (vecB D hm j i) (vecC D hm j i)) ∧
    9 ≤ magnitude Real.sqrt (cross (vecA D hm j i) (vecC D hm j i)) :=
  ⟨nine_le_magnitude _ (cross_c1_eq_nine D hm j i).1,
    nine_le_magnitude _ (cross_c1_eq_nine D hm j i).2.1,
    nine_le_magnitude _ (cross_c1_eq_nine D hm j i).2.2⟩

/-- C22 (counterexample): there is no height field and no cell for which one of the three
un-normalised face normals has magnitude zero. -/
theorem C22_no_zero_magnitude :
    ¬ ∃ (D : Int) (hm : Int → ℝ) (j i : Int),
      magnitude Real.sqrt (cross (vecA D hm j i) (vecB D hm j i)) = 0 ∨
      magnitude Real.sqrt (cross (vecB D hm j i) (vecC D hm j i)) = 0 ∨
      magnitude Real.sqrt (cross (vecA D hm j i) (vecC D hm j i)) = 0 := by
  rintro ⟨D, hm, j, i, h⟩
  obtain ⟨h1, h2, h3⟩ := nine_le_face_magnitudes D hm j i
  rcases h with h | h | h <;> linarith

/-- C22 (amended): for every height field and every cell the Euclidean magnitude of each of the
three un-normalised face normals (`A x B`, `B x C`, `A x C`) is positive, so the divisors of the
face-normal pass are never zero, flat cells included. -/
theorem C22_face_magnitudes_positive (D : Int) (hm : Int → ℝ) (j i : Int) :
    0 < magnitude Real.sqrt (cross (vecA D hm j i) (vecB D hm j i)) ∧
    0 < magnitude Real.sqrt (cross (vecB D hm j i) (vecC D hm j i)) ∧
    0 < magnitude Real.sqrt (cross (vecA D hm j i) (vecC D hm j i)) := by
  obtain ⟨h1, h2, h3⟩ := nine_le_face_magnitudes D hm j i
  exact ⟨by linarith, by linarith, by linarith⟩

/-- C27: for every height field and every cell the y-component of each of the three
un-normalised face normals is exactly `9`, each magnitude is at least `9`, and each normalised
face normal has a strictly positive y-component. -/
theorem C27_face_normals_point_up (D : Int) (hm : Int → ℝ) (j i : Int) :
    ((cross (vecA D hm j i) (vecB D hm j i)).c1 = 9 ∧
      (cross (vecB D hm j i) (vecC D hm j i)).c1 = 9 ∧
      (cross (vecA D hm j i) (vecC D hm j i)).c1 = 9) ∧
    (9 ≤ magnitude Real.sqrt (cross (vecA D hm j i) (vecB D hm j i)) ∧
      9 ≤ magnitude Real.sqrt (cross (vecB D hm j i) (vecC D hm j i)) ∧
      9 ≤ magnitude Real.sqrt (cross (vecA D hm j i) (vecC D hm j i))) ∧
    (0 < (triangleOneNorm Real.sqrt D hm j i).c1 ∧
      0 < (triangleTwoNorm Real.sqrt D hm j i).c1 ∧
      0 < (quadNorm Real.sqrt D hm j i).c1) := by
  obtain ⟨c1, c2, c3⟩ := cross_c1_eq_nine D hm j i
  obtain ⟨h1, h2, h3⟩ := nine_le_face_magnitudes D hm j i
  refine ⟨⟨c1, c2, c3⟩, ⟨h1, h2, h3⟩, ?_, ?_, ?_⟩
  · simp only [triangleOneNorm, normalize, divide, c1]
    exact div_pos (by norm_num) (by linarith)
  · simp only [triangleTwoNorm, normalize, divide, c2]
    exact div_pos (by norm_num) (by linarith)
  · simp only [quadNorm, normalize, divide, c3]
    exact div_pos (by norm_num) (by linarith)

/-- C29: two height fields that agree on the corners `(j,i)`, `(j,i+1)` and `(j+1,i)` of cell
`(j,i)` give the same quad normal for the cell, whatever they hold at the fourth corner
`(j+1,i+1)`. -/
theorem C29_quad_normal_three_corners {α : Type} [LinearOrderedField α] (sqrt : α → α)
    (D : Int) (hm hm' : Int → α) (j i : Int)
    (h0 : hm (getIndex D j i) = hm' (getIndex D j i))
    (h1 : hm (getIndex D j (i + 1)) = hm' (getIndex D j (i + 1)))
    (h2 : hm (getIndex D (j + 1) i) = hm' (getIndex D (j + 1) i)) :
    quadNorm sqrt D hm j i = quadNorm sqrt D hm' j i := by
  simp only [quadNorm, vecA, vecC, h0, h1, h2]

/-- Witness of C29: cell `(1,0)` of the 50 x 50 grid, the flat height field and the one that is
`7` at the fourth corner `(2,1)` (offset `101`). -/
theorem C29_quad_normal_three_corners_witness :
    (fun _ => (0 : ℝ)) (getIndex 50 2 1) ≠ (fun k : Int => if k = 101 then (7 : ℝ) else 0)
      (getIndex 50 2 1) ∧
    quadNorm Real.sqrt 50 (fun _ => (0 : ℝ)) 1 0
      = quadNorm Real.sqrt 50 (fun k : Int => if k = 101 then (7 : ℝ) else 0) 1 0 :=
  ⟨by simp [getIndex],
    C29_quad_normal_three_corners Real.sqrt 50 (fun _ => (0 : ℝ))
      (fun k : Int => if k = 101 then (7 : ℝ) else 0) 1 0
      (by simp [getIndex]) (by simp [getIndex]) (by simp [getIndex])⟩

end FaceInvariants

/-! ## Claims on the commands, the draws and the walk -/

section Commands

variable {α : Type} [LinearOrderedField α] [FloorRing α]

theorem nextAlgorithmMode_thrice (m : Char) :
    nextAlgorithmMode (nextAlgorithmMode (nextAlgorithmMode m)) = m := by
  by_cases hc : m = 'c'
  · subst hc
    decide
  · by_cases hf : m = 'f'
    · subst hf
      decide
    · by_cases hd : m = 'd'
      · subst hd
        decide
      · simp [nextAlgorithmMode, hc, hf, hd]

theorem cycleAlgorithm_mode (sqrt cos : α → α) (t : Terrain α) (r : Rng) :
    (cycleAlgorithm sqrt cos t r).1.algorithmMode = nextAlgorithmMode t.algorithmMode := rfl

/-- C23: the `'G'` command advances the mode `'c' -> 'f' -> 'd' -> 'c'`, three consecutive
applications restore the original mode; after the command the height field (and the pair of
extremes) is that of flatten followed by generation under the new mode, and the two face-normal
arrays and the two vertex-normal arrays are left as they were. -/
theorem C23_cycleAlgorithm (sqrt cos : α → α) (t : Terrain α) (r : Rng) :
    (nextAlgorithmMode 'c' = 'f' ∧ nextAlgorithmMode 'f' = 'd' ∧ nextAlgorithmMode 'd' = 'c') ∧
    (cycleAlgorithm sqrt cos t r).1.algorithmMode = nextAlgorithmMode t.algorithmMode ∧
    (cycleAlgorithm sqrt cos
      (cycleAlgorithm sqrt cos (cycleAlgorithm sqrt cos t r).1 (cycleAlgorithm sqrt cos t r).2).1
      (cycleAlgorithm sqrt cos (cycleAlgorithm sqrt cos t r).1
        (cycleAlgorithm sqrt cos t r).2).2).1.algorithmMode = t.algorithmMode ∧
    cycleAlgorithm sqrt cos t r
      = generateHeightValues sqrt cos false
          (generateHeightValues sqrt cos true
            { t with algorithmMode := nextAlgorithmMode t.algorithmMode } r).1
          (generateHeightValues sqrt cos true
            { t with algorithmMode := nextAlgorithmMode t.algorithmMode } r).2 ∧
    (cycleAlgorithm sqrt cos t r).1.triangleNormals = t.triangleNormals ∧
    (cycleAlgorithm sqrt cos t r).1.quadNormals = t.quadNormals ∧
    (cycleAlgorithm sqrt cos t r).1.triangleVertexNormals = t.triangleVertexNormals ∧
    (cycleAlgorithm sqrt cos t r).1.quadVertexNormals = t.quadVertexNormals := by
  refine ⟨⟨by decide, by decide, by decide⟩, rfl, ?_, rfl, rfl, rfl, rfl, rfl⟩
  rw [cycleAlgorithm_mode, cycleAlgorithm_mode, cycleAlgorithm_mode]
  exact nextAlgorithmMode_thrice _

end Commands

section Draws

variable {α : Type} [LinearOrderedField α] [FloorRing α]

/-- A non-negative draw reduced modulo a positive bound lies below the bound. -/
theorem tmod_draw_range (n : Nat) (m : Int) (hm : 0 < m) :
    0 ≤ Int.tmod (n : Int) m ∧ Int.tmod (n : Int) m < m :=
  ⟨tmod_nonneg_of_draw n m, Int.tmod_lt_of_pos _ hm⟩

/-- C25: for every draw (non-negative) and every grid with positive dimensions, the circle radius
`draw % CIRCLE_RANGE + CIRCLE_MIN` lies in `[5,14]`, the displacement magnitude
`draw % MAX_DISP + 1` lies in `[1,5]`, and a picked vertex `(draw % width, draw' % depth)` is on
the grid; the three algorithms use exactly such values: a circle application is the sweep for an
on-grid centre vertex and a radius in `[5,14]`, a fault iteration the sweep for a line between two
on-grid vertices, a deposition iteration the 100 steps of a walk started on an on-grid vertex. -/
theorem C25_draws_in_range (sqrt cos : α → α) (W D : Int) (hW : 0 < W) (hD : 0 < D) :
    (∀ n : Nat, 5 ≤ Int.tmod (n : Int) CIRCLE_RANGE + CIRCLE_MIN ∧
      Int.tmod (n : Int) CIRCLE_RANGE + CIRCLE_MIN ≤ 14) ∧
    (∀ n : Nat, 1 ≤ Int.tmod (n : Int) MAX_DISP + 1 ∧ Int.tmod (n : Int) MAX_DISP + 1 ≤ 5) ∧
    (∀ n n' : Nat, 0 ≤ Int.tmod (n : Int) W ∧ Int.tmod (n : Int) W < W ∧
      0 ≤ Int.tmod (n' : Int) D ∧ Int.tmod (n' : Int) D < D) ∧
    (∀ s : (Int → α) × Rng, ∃ (rx rz size : Int) (r' : Rng),
      0 ≤ rx ∧ rx < W ∧ 0 ≤ rz ∧ rz < D ∧ 5 ≤ size ∧ size ≤ 14 ∧
      circlesIteration sqrt cos W D s
        = circlesSweep sqrt cos W D size (circleCenterOf D rx rz s.1) (s.1, r')) ∧
    (∀ s : (Int → α) × Rng, ∃ (x1 z1 x2 z2 : Int) (r' : Rng),
      0 ≤ x1 ∧ x1 < W ∧ 0 ≤ z1 ∧ z1 < D ∧ 0 ≤ x2 ∧ x2 < W ∧ 0 ≤ z2 ∧ z2 < D ∧
      faultIteration W D s = (faultSweep W D x1 z1 x2 z2 s.1, r')) ∧
    (∀ s : (Int → α) × Rng, ∃ (rx rz : Int) (r' : Rng),
      0 ≤ rx ∧ rx < W ∧ 0 ≤ rz ∧ rz < D ∧
      depositionIteration W D s
        = ((forLoop 100 (fun _ ws => depositionStep W D ws)
              ({ heightMap := s.1, rng := r', randomX := rx, randomZ := rz } :
                WalkState α)).heightMap,
           (forLoop 100 (fun _ ws => depositionStep W D ws)
              ({ heightMap := s.1, rng := r', randomX := rx, randomZ := rz } :
                WalkState α)).rng)) := by
  have hrad : ∀ n : Nat, 5 ≤ Int.tmod (n : Int) CIRCLE_RANGE + CIRCLE_MIN ∧
      Int.tmod (n : Int) CIRCLE_RANGE + CIRCLE_MIN ≤ 14 := by
    intro n
    obtain ⟨h0, h1⟩ := tmod_draw_range n CIRCLE_RANGE (by decide)
    have e1 : CIRCLE_RANGE = 10 := rfl
    have e2 : CIRCLE_MIN = 5 := rfl
    omega
  refine ⟨hrad, ?_, ?_, ?_, ?_, ?_⟩
  · intro n
    obtain ⟨h0, h1⟩ := tmod_draw_range n MAX_DISP (by decide)
    have e1 : MAX_DISP = 5 := rfl
    omega
  · intro n n'
    exact ⟨(tmod_draw_range n W hW).1, (tmod_draw_range n W hW).2,
      (tmod_draw_range n' D hD).1, (tmod_draw_range n' D hD).2⟩
  · intro s
    exact ⟨_, _, _, _, (tmod_draw_range _ W hW).1, (tmod_draw_range _ W hW).2,
      (tmod_draw_range _ D hD).1, (tmod_draw_range _ D hD).2, (hrad _).1, (hrad _).2, rfl⟩
  · intro s
    exact ⟨_, _, _, _, _, (tmod_draw_range _ W hW).1, (tmod_draw_range _ W hW).2,
      (tmod_draw_range _ D hD).1, (tmod_draw_range _ D hD).2,
      (tmod_draw_range _ W hW).1, (tmod_draw_range _ W hW).2,
      (tmod_draw_range _ D hD).1, (tmod_draw_range _ D hD).2, rfl⟩
  · intro s
    exact ⟨_, _, _, (tmod_draw_range _ W hW).1, (tmod_draw_range _ W hW).2,
      (tmod_draw_range _ D hD).1, (tmod_draw_range _ D hD).2, rfl⟩

end Draws

section Walk

variable {α : Type} [LinearOrderedField α]

/-- C26: a particle-deposition walk started on the grid is on the grid after every number of
steps, whatever the direction draws, and the slot of its position, which the step just made has
written, lies inside `[0, width * depth)`. -/
theorem C26_walk_stays_on_grid (W D : Int) (ws : WalkState α)
    (hx : 0 ≤ ws.randomX) (hxW : ws.randomX < W) (hz : 0 ≤ ws.randomZ) (hzD : ws.randomZ < D)
    (k : Int) (hk : 0 ≤ k) :
    0 ≤ (forLoop k (fun _ s => depositionStep W D s) ws).randomX ∧
    (forLoop k (fun _ s => depositionStep W D s) ws).randomX < W ∧
    0 ≤ (forLoop k (fun _ s => depositionStep W D s) ws).randomZ ∧
    (forLoop k (fun _ s => depositionStep W D s) ws).randomZ < D ∧
    0 ≤ getIndex D (forLoop k (fun _ s => depositionStep W D s) ws).randomX
      (forLoop k (fun _ s => depositionStep W D s) ws).randomZ ∧
    getIndex D (forLoop k (fun _ s => depositionStep W D s) ws).randomX
      (forLoop k (fun _ s => depositionStep W D s) ws).randomZ < W * D ∧
    (depositionStep W D (forLoop k (fun _ s => depositionStep W D s) ws)).heightMap
      = Function.update (forLoop k (fun _ s => depositionStep W D s) ws).heightMap
          (getIndex D
            (depositionStep W D (forLoop k (fun _ s => depositionStep W D s) ws)).randomX
            (depositionStep W D (forLoop k (fun _ s => depositionStep W D s) ws)).randomZ)
          ((forLoop k (fun _ s => depositionStep W D s) ws).heightMap
            (getIndex D
              (depositionStep W D (forLoop k (fun _ s => depositionStep W D s) ws)).randomX
              (depositionStep W D (forLoop k (fun _ s => depositionStep W D s) ws)).randomZ)
            + 0.3) := by
  have key := forLoop_invariant
    (fun _ (s : WalkState α) =>
      0 ≤ s.randomX ∧ s.randomX < W ∧ 0 ≤ s.randomZ ∧ s.randomZ < D)
    k hk (fun _ s => depositionStep W D s) ws ⟨hx, hxW, hz, hzD⟩
    (fun _ s _ _ ⟨a, b, c, d⟩ =>
      ⟨(depositionStep_spec W D s a b c d).1, (depositionStep_spec W D s a b c d).2.1,
        (depositionStep_spec W D s a b c d).2.2.1, (depositionStep_spec W D s a b c d).2.2.2.1⟩)
  obtain ⟨a, b, c, d⟩ := key
  obtain ⟨r0, r1⟩ := getIndex_range W D _ _ a b c d
  exact ⟨a, b, c, d, r0, by rw [mul_comm]; exact r1, rfl⟩

end Walk

/-- Witness of C25 on the 50 x 50 grid. -/
theorem C25_draws_in_range_witness :
    (0 : Int) < 50 ∧
    (5 ≤ Int.tmod ((12345 : Nat) : Int) CIRCLE_RANGE + CIRCLE_MIN ∧
      Int.tmod ((12345 : Nat) : Int) CIRCLE_RANGE + CIRCLE_MIN ≤ 14) :=
  ⟨by decide,
    (C25_draws_in_range Real.sqrt Real.cos 50 50 (by decide) (by decide)).1 12345⟩

/-- Witness of C26: the walk on vertex `(5,5)` of the 50 x 50 grid, after 100 steps. -/
theorem C26_walk_stays_on_grid_witness :
    (0 : Int) ≤ (walkStart ℝ).randomX ∧ (walkStart ℝ).randomX < 50 ∧
    (0 : Int) ≤ (walkStart ℝ).randomZ ∧ (walkStart ℝ).randomZ < 50 ∧
    (forLoop 100 (fun _ s => depositionStep 50 50 s) (walkStart ℝ)).randomX < 50 :=
  ⟨by decide, by decide, by decide, by decide,
    (C26_walk_stays_on_grid 50 50 (walkStart ℝ) (by decide) (by decide) (by decide) (by decide)
      100 (by decide)).2.1⟩

/-! ## Fault iterations from the flat terrain -/

section FaultInvariant

variable {α : Type} [LinearOrderedField α]

/-- One fault iteration shifts every vertex by `+0.3` or by `-0.3`. -/
theorem faultIteration_grid (W D : Int) (s : (Int → α) × Rng) (x z : Int)
    (hx : 0 ≤ x) (hxW : x < W) (hz : 0 ≤ z) (hzD : z < D) :
    (faultIteration W D s).1 (getIndex D x z) = s.1 (getIndex D x z) + 0.3 ∨
    (faultIteration W D s).1 (getIndex D x z) = s.1 (getIndex D x z) - 0.3 := by
  simp only [faultIteration, rand]
  rw [faultSweep_grid W D _ _ _ _ s.1 x z hx hxW hz hzD]
  split_ifs
  · exact Or.inl rfl
  · exact Or.inr rfl

/-- After `n` fault iterations from heights that are zero on the grid, every vertex height is
`(2k - n) * 0.3` for some `k` in `[0,n]`. -/
theorem faultAlgorithm_heights (W D n : Int) (hn : 0 ≤ n) (s : (Int → α) × Rng)
    (hzero : ∀ x z, 0 ≤ x → x < W → 0 ≤ z → z < D → s.1 (getIndex D x z) = 0)
    (x z : Int) (hx : 0 ≤ x) (hxW : x < W) (hz : 0 ≤ z) (hzD : z < D) :
    ∃ k : Int, 0 ≤ k ∧ k ≤ n ∧
      (faultAlgorithm W D n s).1 (getIndex D x z) = ((2 * k - n : Int) : α) * 0.3 := by
  have key := forLoop_invariant
    (fun m (s' : (Int → α) × Rng) => ∃ k : Int, 0 ≤ k ∧ k ≤ m ∧
      s'.1 (getIndex D x z) = ((2 * k - m : Int) : α) * 0.3)
    n hn (fun _ s => faultIteration W D s) s
    ⟨0, le_rfl, le_rfl, by rw [hzero x z hx hxW hz hzD]; simp⟩ ?_
  · exact key
  · intro m s' _ _ ⟨k, hk0, hkm, hval⟩
    rcases faultIteration_grid W D s' x z hx hxW hz hzD with h | h
    · refine ⟨k + 1, by omega, by omega, ?_⟩
      rw [h, hval]
      push_cast
      ring
    · refine ⟨k, hk0, by omega, ?_⟩
      rw [h, hval]
      push_cast
      ring

/-- A height `(2k - n) * 0.3` with `0 <= k <= n` is at most `0.3 * n` in absolute value. -/
theorem abs_fault_height_le (n k : Int) (hk0 : 0 ≤ k) (hkn : k ≤ n) :
    |((2 * k - n : Int) : α) * 0.3| ≤ 0.3 * (n : α) := by
  have h1 : ((2 * k - n : Int) : α) ≤ (n : α) := by exact_mod_cast (by omega : 2 * k - n ≤ n)
  have h2 : -(n : α) ≤ ((2 * k - n : Int) : α) := by
    exact_mod_cast (by omega : -n ≤ 2 * k - n)
  have h3 : (0 : α) < 0.3 := by norm_num
  rw [abs_le]
  constructor <;> nlinarith

end FaultInvariant

section FaultClaim

variable {α : Type} [LinearOrderedField α] [FloorRing α]

/-- C28: from a height field that is zero on the grid, a generation pass in fault mode with
complexity `n >= 0`, whatever the fault lines drawn, leaves every vertex height equal to
`(2k - n) * 0.3` for some integer `k` with `0 <= k <= n`; hence `|h(x,z)| <= 0.3 * n` for every
vertex and `maxHeight - minHeight <= 0.6 * n`. -/
theorem C28_fault_heights (sqrt cos : α → α) (t : Terrain α) (r : Rng)
    (hmode : t.algorithmMode = 'f') (hn : 0 ≤ t.terrainComplexity)
    (hW : 0 < t.terrainWidth) (hD : 0 < t.terrainDepth)
    (hzero : ∀ x z, 0 ≤ x → x < t.terrainWidth → 0 ≤ z → z < t.terrainDepth →
      t.heightMap (getIndex t.terrainDepth x z) = 0) :
    (∀ x z, 0 ≤ x → x < t.terrainWidth → 0 ≤ z → z < t.terrainDepth →
      ∃ k : Int, 0 ≤ k ∧ k ≤ t.terrainComplexity ∧
        (generateHeightValues sqrt cos false t r).1.heightMap (getIndex t.terrainDepth x z)
          = ((2 * k - t.terrainComplexity : Int) : α) * 0.3) ∧
    (∀ x z, 0 ≤ x → x < t.terrainWidth → 0 ≤ z → z < t.terrainDepth →
      |(generateHeightValues sqrt cos false t r).1.heightMap (getIndex t.terrainDepth x z)|
        ≤ 0.3 * (t.terrainComplexity : α)) ∧
    (generateHeightValues sqrt cos false t r).1.maxHeight
      - (generateHeightValues sqrt cos false t r).1.minHeight
        ≤ 0.6 * (t.terrainComplexity : α) := by
  have hb : generateBranch sqrt cos false t r
      = faultAlgorithm t.terrainWidth t.terrainDepth t.terrainComplexity (t.heightMap, r) := by
    simp only [generateBranch, Bool.false_eq_true, if_false, hmode]
    rw [if_neg (by decide), if_pos trivial]
  have hform : ∀ x z, 0 ≤ x → x < t.terrainWidth → 0 ≤ z → z < t.terrainDepth →
      ∃ k : Int, 0 ≤ k ∧ k ≤ t.terrainComplexity ∧
        (generateBranch sqrt cos false t r).1 (getIndex t.terrainDepth x z)
          = ((2 * k - t.terrainComplexity : Int) : α) * 0.3 := by
    intro x z hx hxW hz hzD
    rw [hb]
    exact faultAlgorithm_heights t.terrainWidth t.terrainDepth t.terrainComplexity hn
      (t.heightMap, r) hzero x z hx hxW hz hzD
  have habs : ∀ x z, 0 ≤ x → x < t.terrainWidth → 0 ≤ z → z < t.terrainDepth →
      |(generateBranch sqrt cos false t r).1 (getIndex t.terrainDepth x z)|
        ≤ 0.3 * (t.terrainComplexity : α) := by
    intro x z hx hxW hz hzD
    obtain ⟨k, hk0, hkn, hval⟩ := hform x z hx hxW hz hzD
    rw [hval]
    exact abs_fault_height_le _ k hk0 hkn
  refine ⟨hform, habs, ?_⟩
  obtain ⟨_, ⟨k1, hk1, hk1n, hmax⟩, ⟨k2, hk2, hk2n, hmin⟩⟩ :=
    scanExtremes_spec (t.terrainDepth * t.terrainWidth) (mul_pos hD hW)
      (generateBranch sqrt cos false t r).1
  obtain ⟨x1, z1, a1, b1, c1, d1, e1⟩ :=
    getIndex_surj t.terrainWidth t.terrainDepth k1 hD hk1 hk1n
  obtain ⟨x2, z2, a2, b2, c2, d2, e2⟩ :=
    getIndex_surj t.terrainWidth t.terrainDepth k2 hD hk2 hk2n
  have m1 := (abs_le.mp (habs x1 z1 a1 b1 c1 d1)).2
  have m2 := (abs_le.mp (habs x2 z2 a2 b2 c2 d2)).1
  rw [← e1] at m1
  rw [← e2] at m2
  simp only [generateHeightValues, Bool.false_eq_true, if_false]
  rw [hmax, hmin]
  linarith

end FaultClaim

/-- Witness of C28: the flat 50 x 50 terrain in fault mode with complexity 3. -/
theorem C28_fault_heights_witness :
    (sampleTerrain ℝ 'f' 3 (fun _ => 0)).algorithmMode = 'f' ∧
    (0 : Int) ≤ (sampleTerrain ℝ 'f' 3 (fun _ => 0)).terrainComplexity ∧
    (0 : Int) < (sampleTerrain ℝ 'f' 3 (fun _ => 0)).terrainWidth ∧
    (0 : Int) < (sampleTerrain ℝ 'f' 3 (fun _ => 0)).terrainDepth ∧
    (generateHeightValues Real.sqrt Real.cos false (sampleTerrain ℝ 'f' 3 (fun _ => 0))
        (constRng 7)).1.maxHeight
      - (generateHeightValues Real.sqrt Real.cos false (sampleTerrain ℝ 'f' 3 (fun _ => 0))
        (constRng 7)).1.minHeight
        ≤ 0.6 * (((sampleTerrain ℝ 'f' 3 (fun _ => 0)).terrainComplexity : Int) : ℝ) :=
  ⟨rfl, by decide, by decide, by decide,
    (C28_fault_heights Real.sqrt Real.cos (sampleTerrain ℝ 'f' 3 (fun _ => 0)) (constRng 7)
      rfl (by decide) (by decide) (by decide) (fun _ _ _ _ _ _ => rfl)).2.2⟩

/-! ## A circle application that lowers a vertex -/

section CircleLowers

theorem circlesVertex_draws {α : Type} [LinearOrderedField α] (sqrt cos : α → α) (D r : Int)
    (c : Vec3 α) (i j : Int) (s : (Int → α) × Rng) :
    (circlesVertex sqrt cos D r c i j s).2.draws = s.2.draws := by
  simp only [circlesVertex, rand]
  split_ifs <;> rfl

/-- In the sweep of one circle application the body at vertex `(i,j)` finds the height the
vertex had before the sweep and the stream of draws of the random source, and leaves the final
height of the vertex. -/
theorem circlesSweep_at_vertex {α : Type} [LinearOrderedField α] (sqrt cos : α → α)
    (W D r : Int) (c : Vec3 α) (s : (Int → α) × Rng) (i j : Int)
    (hi : 0 ≤ i) (hiW : i < W) (hj : 0 ≤ j) (hjD : j < D) :
    ∃ s0 : (Int → α) × Rng, s0.1 (getIndex D i j) = s.1 (getIndex D i j) ∧
      s0.2.draws = s.2.draws ∧
      (circlesSweep sqrt cos W D r c s).1 (getIndex D i j)
        = (circlesVertex sqrt cos D r c i j s0).1 (getIndex D i j) := by
  obtain ⟨s0, hs0, h⟩ := sweep_touch
    (fun (s : (Int → α) × Rng) (p : Int) => (s.1 p, s.2.draws)) W D
    (fun i j s => circlesVertex sqrt cos D r c i j s)
    (fun i j s p hp => by
      simp only [circlesVertex_frame sqrt cos D r c i j s p hp, circlesVertex_draws])
    s i j hi hiW hj hjD
  simp only [Prod.mk.injEq] at hs0 h
  exact ⟨s0, hs0.1, hs0.2, h.1⟩

theorem sqrt_25 : Real.sqrt 25 = 5 := by
  rw [show (25 : ℝ) = 5 ^ 2 by norm_num]
  exact Real.sqrt_sq (by norm_num)

/-- C24, the code at the failing input (flat 50 x 50 terrain, all draws `5`: centre vertex
`(5,5)`, radius `10`, displacement magnitude `1`): the vertex `(10,5)` lies at distance `5`, so
`pd = 1`, and the amount added there, `1/2` taken as an `int` plus `cos(3.14) * 1/2`, is negative:
the circle application lowers the vertex below its height `0`. -/
theorem C24_circle_lowers_vertex :
    circlesAmount Real.cos 1 1 < 0 ∧
    (circlesIteration Real.sqrt Real.cos 50 50 (fun _ => 0, constRng 5)).1 (getIndex 50 10 5)
      = circlesAmount Real.cos 1 1 ∧
    (circlesIteration Real.sqrt Real.cos 50 50 (fun _ => 0, constRng 5)).1 (getIndex 50 10 5)
      < 0 := by
  have hneg : circlesAmount Real.cos 1 1 < 0 := by
    have t1 : Int.tdiv 1 2 = 0 := by decide
    have := cos_314_bounds.2
    simp only [circlesAmount, t1]
    norm_num
    linarith
  have e : circlesIteration Real.sqrt Real.cos 50 50 ((fun _ => (0 : ℝ)), constRng 5)
      = circlesSweep Real.sqrt Real.cos 50 50 10 ⟨5, 0, 5⟩
          ((fun _ => (0 : ℝ)), { draws := fun _ => 5, pos := 3 }) := by
    have m1 : Int.tmod ((5 : Nat) : Int) 50 = 5 := by decide
    have m2 : Int.tmod ((5 : Nat) : Int) CIRCLE_RANGE + CIRCLE_MIN = 10 := by decide
    simp only [circlesIteration, rand, constRng, circleCenterOf, truncToInt, m1, m2]
    norm_num
  obtain ⟨s0, h0, hd, hres⟩ := circlesSweep_at_vertex Real.sqrt Real.cos 50 50 10 ⟨5, 0, 5⟩
    ((fun _ => (0 : ℝ)), { draws := fun _ => 5, pos := 3 }) 10 5 (by decide) (by decide)
    (by decide) (by decide)
  have hpd : pointDistance Real.sqrt ⟨((10 : Int) : ℝ), s0.1 (getIndex 50 10 5), ((5 : Int) : ℝ)⟩
      ⟨5, 0, 5⟩ * 2 / ((10 : Int) : ℝ) = 1 := by
    rw [h0]
    simp only [pointDistance]
    norm_num [sqrt_25]
  have hdraw : Int.tmod (s0.2.draws s0.2.pos) MAX_DISP + 1 = 1 := by
    rw [hd]
    show Int.tmod ((5 : Nat) : Int) MAX_DISP + 1 = 1
    decide
  have hval := (circlesVertex_displaced Real.sqrt Real.cos 50 10 ⟨5, 0, 5⟩ 10 5 s0
    (by rw [hpd]; norm_num)).1
  rw [hpd, hdraw, h0] at hval
  have hfinal : (circlesIteration Real.sqrt Real.cos 50 50 (fun _ => 0, constRng 5)).1
      (getIndex 50 10 5) = circlesAmount Real.cos 1 1 := by
    rw [e, hres, hval]
    simp
  exact ⟨hneg, hfinal, by rw [hfinal]; exact hneg⟩

end CircleLowers

/-! ## Two runs on height fields that agree on the grid -/

section TwoRuns

variable {α : Type} [LinearOrderedField α]

/-- Relational rule for `forLoop`: a relation between two states kept by the bodies is kept by
the loops. -/
theorem forLoop_rel {σ τ : Type} (R : σ → τ → Prop) (n : Int) (b1 : Int → σ → σ)
    (b2 : Int → τ → τ) (s1 : σ) (s2 : τ) (h0 : R s1 s2)
    (hstep : ∀ k s1 s2, 0 ≤ k → k < n → R s1 s2 → R (b1 k s1) (b2 k s2)) :
    R (forLoop n b1 s1) (forLoop n b2 s2) := by
  rcases le_or_lt n 0 with hn | hn
  · rw [forLoop_nonpos n hn, forLoop_nonpos n hn]
    exact h0
  · obtain ⟨m, rfl⟩ := Int.eq_ofNat_of_zero_le (le_of_lt hn)
    clear hn
    induction m with
    | zero =>
      rw [forLoop_nonpos _ (by simp), forLoop_nonpos _ (by simp)]
      exact h0
    | succ m ih =>
      have hm : ((m + 1 : Nat) : Int) = (m : Int) + 1 := by push_cast; ring
      rw [hm, forLoop_succ, forLoop_succ]
      apply hstep _ _ _ (by omega) (by omega)
      apply ih
      intro k s1 s2 hk hk2 hR
      exact hstep k s1 s2 hk (by omega) hR

/-- The grid loops keep a relation that their body keeps at every vertex. -/
theorem sweep_rel {σ : Type} (R : σ → σ → Prop) (W D : Int) (body : Int → Int → σ → σ)
    (hbody : ∀ i j s1 s2, 0 ≤ i → i < W → 0 ≤ j → j < D → R s1 s2 →
      R (body i j s1) (body i j s2))
    (s1 s2 : σ) (h0 : R s1 s2) :
    R (forLoop W (fun i s => forLoop D (fun j s => body i j s) s) s1)
      (forLoop W (fun i s => forLoop D (fun j s => body i j s) s) s2) := by
  apply forLoop_rel R W _ _ s1 s2 h0
  intro i s1' s2' hi hiW hR
  apply forLoop_rel R D _ _ s1' s2' hR
  intro j s1'' s2'' hj hjD hR'
  exact hbody i j s1'' s2'' hi hiW hj hjD hR'

theorem circlesVertex_rel (sqrt cos : α → α) (N D r : Int) (c : Vec3 α) (i j : Int)
    (hidx : 0 ≤ getIndex D i j ∧ getIndex D i j < N) (s1 s2 : (Int → α) × Rng)
    (h : (∀ p, 0 ≤ p → p < N → s1.1 p = s2.1 p) ∧ s1.2 = s2.2) :
    (∀ p, 0 ≤ p → p < N →
      (circlesVertex sqrt cos D r c i j s1).1 p = (circlesVertex sqrt cos D r c i j s2).1 p) ∧
    (circlesVertex sqrt cos D r c i j s1).2 = (circlesVertex sqrt cos D r c i j s2).2 := by
  obtain ⟨hm1, r1⟩ := s1
  obtain ⟨hm2, r2⟩ := s2
  obtain ⟨hg, hr⟩ := h
  simp only at hg hr
  subst hr
  have e : hm1 (getIndex D i j) = hm2 (getIndex D i j) := hg _ hidx.1 hidx.2
  simp only [circlesVertex, e]
  split_ifs
  · refine ⟨?_, rfl⟩
    intro p hp hpN
    simp only [Function.update_apply]
    split_ifs
    · rfl
    · exact hg p hp hpN
  · exact ⟨hg, rfl⟩

theorem circlesIteration_rel [FloorRing α] (sqrt cos : α → α) (W D : Int) (hW : 0 < W)
    (hD : 0 < D) (s1 s2 : (Int → α) × Rng)
    (h : (∀ p, 0 ≤ p → p < D * W → s1.1 p = s2.1 p) ∧ s1.2 = s2.2) :
    (∀ p, 0 ≤ p → p < D * W →
      (circlesIteration sqrt cos W D s1).1 p = (circlesIteration sqrt cos W D s2).1 p) ∧
    (circlesIteration sqrt cos W D s1).2 = (circlesIteration sqrt cos W D s2).2 := by
  obtain ⟨hg, hr⟩ := h
  have hc : circleCenterOf D (Int.tmod (s1.2.draws s1.2.pos) W)
      (Int.tmod (s1.2.draws (s1.2.pos + 1)) D) s1.1
      = circleCenterOf D (Int.tmod (s1.2.draws s1.2.pos) W)
        (Int.tmod (s1.2.draws (s1.2.pos + 1)) D) s2.1 := by
    obtain ⟨a, b⟩ := getIndex_range W D _ _ (tmod_draw_range (s1.2.draws s1.2.pos) W hW).1
      (tmod_draw_range (s1.2.draws s1.2.pos) W hW).2
      (tmod_draw_range (s1.2.draws (s1.2.pos + 1)) D hD).1
      (tmod_draw_range (s1.2.draws (s1.2.pos + 1)) D hD).2
    simp only [circleCenterOf, hg _ a b]
  simp only [circlesIteration, rand, ← hr]
  rw [hc]
  unfold circlesSweep
  exact sweep_rel
    (fun (a b : (Int → α) × Rng) => (∀ p, 0 ≤ p → p < D * W → a.1 p = b.1 p) ∧ a.2 = b.2)
    W D _ (fun i j a b hi hiW hj hjD hab =>
      circlesVertex_rel sqrt cos (D * W) D _ _ i j (getIndex_range W D i j hi hiW hj hjD) a b hab)
    _ _ ⟨hg, rfl⟩

theorem faultVertex_rel (N D x1 z1 x2 z2 i j : Int) (hm1 hm2 : Int → α)
    (h : ∀ p, 0 ≤ p → p < N → hm1 p = hm2 p) (hidx : 0 ≤ getIndex D i j ∧ getIndex D i j < N) :
    ∀ p, 0 ≤ p → p < N →
      faultVertex D x1 z1 x2 z2 i j hm1 p = faultVertex D x1 z1 x2 z2 i j hm2 p := by
  intro p hp hpN
  have e : hm1 (getIndex D i j) = hm2 (getIndex D i j) := h _ hidx.1 hidx.2
  simp only [faultVertex, e]
  split_ifs <;>
  · simp only [Function.update_apply]
    split_ifs
    · rfl
    · exact h p hp hpN

theorem faultIteration_rel (W D : Int) (s1 s2 : (Int → α) × Rng)
    (h : (∀ p, 0 ≤ p → p < D * W → s1.1 p = s2.1 p) ∧ s1.2 = s2.2) :
    (∀ p, 0 ≤ p → p < D * W → (faultIteration W D s1).1 p = (faultIteration W D s2).1 p) ∧
    (faultIteration W D s1).2 = (faultIteration W D s2).2 := by
  obtain ⟨hg, hr⟩ := h
  simp only [faultIteration, rand, ← hr, and_true]
  unfold faultSweep
  exact sweep_rel (fun (a b : Int → α) => ∀ p, 0 ≤ p → p < D * W → a p = b p) W D _
    (fun i j a b hi hiW hj hjD hab =>
      faultVertex_rel (D * W) D _ _ _ _ i j a b hab (getIndex_range W D i j hi hiW hj hjD))
    _ _ hg

theorem depositionStep_rel (N W D : Int) (w1 w2 : WalkState α)
    (h : (∀ p, 0 ≤ p → p < N → w1.heightMap p = w2.heightMap p) ∧ w1.rng = w2.rng ∧
      w1.randomX = w2.randomX ∧ w1.randomZ = w2.randomZ)
    (hx : 0 ≤ w1.randomX ∧ w1.randomX < W ∧ 0 ≤ w1.randomZ ∧ w1.randomZ < D)
    (hN : N = D * W) :
    ((∀ p, 0 ≤ p → p < N →
        (depositionStep W D w1).heightMap p = (depositionStep W D w2).heightMap p) ∧
      (depositionStep W D w1).rng = (depositionStep W D w2).rng ∧
      (depositionStep W D w1).randomX = (depositionStep W D w2).randomX ∧
      (depositionStep W D w1).randomZ = (depositionStep W D w2).randomZ) ∧
    (0 ≤ (depositionStep W D w1).randomX ∧ (depositionStep W D w1).randomX < W ∧
      0 ≤ (depositionStep W D w1).randomZ ∧ (depositionStep W D w1).randomZ < D) := by
  obtain ⟨hg, hr, hxe, hze⟩ := h
  obtain ⟨a, b, c, d, _⟩ := depositionStep_spec W D w1 hx.1 hx.2.1 hx.2.2.1 hx.2.2.2
  have ex : (depositionStep W D w1).randomX = (depositionStep W D w2).randomX := by
    simp only [depositionStep, hr, hxe]
  have ez : (depositionStep W D w1).randomZ = (depositionStep W D w2).randomZ := by
    simp only [depositionStep, hr, hze]
  have er : (depositionStep W D w1).rng = (depositionStep W D w2).rng := by
    simp only [depositionStep, hr]
  refine ⟨⟨?_, er, ex, ez⟩, a, b, c, d⟩
  intro p hp hpN
  obtain ⟨r0, r1⟩ := getIndex_range W D _ _ a b c d
  have h1 : (depositionStep W D w1).heightMap
      = Function.update w1.heightMap
          (getIndex D (depositionStep W D w1).randomX (depositionStep W D w1).randomZ)
          (w1.heightMap
            (getIndex D (depositionStep W D w1).randomX (depositionStep W D w1).randomZ)
              + 0.3) := rfl
  have h2 : (depositionStep W D w2).heightMap
      = Function.update w2.heightMap
          (getIndex D (depositionStep W D w2).randomX (depositionStep W D w2).randomZ)
          (w2.heightMap
            (getIndex D (depositionStep W D w2).randomX (depositionStep W D w2).randomZ)
              + 0.3) := rfl
  rw [h1, h2, ← ex, ← ez]
  simp only [Function.update_apply]
  split_ifs
  · rw [hg _ r0 (by rw [hN]; exact r1)]
  · exact hg p hp hpN

theorem depositionIteration_rel (W D : Int) (hW : 0 < W) (hD : 0 < D)
    (s1 s2 : (Int → α) × Rng)
    (h : (∀ p, 0 ≤ p → p < D * W → s1.1 p = s2.1 p) ∧ s1.2 = s2.2) :
    (∀ p, 0 ≤ p → p < D * W →
      (depositionIteration W D s1).1 p = (depositionIteration W D s2).1 p) ∧
    (depositionIteration W D s1).2 = (depositionIteration W D s2).2 := by
  obtain ⟨hg, hr⟩ := h
  have key := forLoop_rel
    (fun (w1 w2 : WalkState α) =>
      ((∀ p, 0 ≤ p → p < D * W → w1.heightMap p = w2.heightMap p) ∧ w1.rng = w2.rng ∧
        w1.randomX = w2.randomX ∧ w1.randomZ = w2.randomZ) ∧
      (0 ≤ w1.randomX ∧ w1.randomX < W ∧ 0 ≤ w1.randomZ ∧ w1.randomZ < D))
    100 (fun _ ws => depositionStep W D ws) (fun _ ws => depositionStep W D ws)
    ({ heightMap := s1.1, rng := (rand (rand s1.2).2).2,
       randomX := Int.tmod (rand s1.2).1 W,
       randomZ := Int.tmod (rand (rand s1.2).2).1 D } : WalkState α)
    ({ heightMap := s2.1, rng := (rand (rand s2.2).2).2,
       randomX := Int.tmod (rand s2.2).1 W,
       randomZ := Int.tmod (rand (rand s2.2).2).1 D } : WalkState α)
    ⟨⟨hg, by rw [hr], by rw [hr], by rw [hr]⟩,
      (tmod_draw_range _ W hW).1, (tmod_draw_range _ W hW).2,
      (tmod_draw_range _ D hD).1, (tmod_draw_range _ D hD).2⟩
    (fun _ w1 w2 _ _ hR => depositionStep_rel (D * W) W D w1 w2 hR.1 hR.2 rfl)
  exact ⟨key.1.1, key.1.2.1⟩

theorem scanExtremes_congr (n : Int) (hm1 hm2 : Int → α)
    (h : ∀ p, 0 ≤ p → p < n → hm1 p = hm2 p) (mm : α × α) :
    scanExtremes n hm1 mm = scanExtremes n hm2 mm := by
  unfold scanExtremes
  apply forLoop_rel (fun (a b : α × α) => a = b) n _ _ mm mm rfl
  intro k a b hk hkn hab
  subst hab
  simp only [h k hk hkn]

/-- Flattening makes any two height fields agree on the whole grid. -/
theorem flattenHeights_agree (W D : Int) (hD : 0 < D) (hm1 hm2 : Int → α) :
    ∀ p, 0 ≤ p → p < D * W → flattenHeights W D hm1 p = flattenHeights W D hm2 p := by
  intro p hp hpN
  obtain ⟨x, z, hx, hxW, hz, hzD, rfl⟩ := getIndex_surj W D p hD hp hpN
  rw [flattenHeights_grid W D hm1 x z hx hxW hz hzD,
    flattenHeights_grid W D hm2 x z hx hxW hz hzD]

end TwoRuns
section Regeneration

variable {α : Type} [LinearOrderedField α] [FloorRing α]

/-- The generation branch, run from two height fields that agree on the grid with the same
random source, gives height fields that agree on the grid and the same random source. -/
theorem generateBranch_rel (sqrt cos : α → α) (t1 t2 : Terrain α) (r : Rng)
    (hW : t1.terrainWidth = t2.terrainWidth) (hD : t1.terrainDepth = t2.terrainDepth)
    (hmode : t1.algorithmMode = t2.algorithmMode)
    (hc : t1.terrainComplexity = t2.terrainComplexity)
    (hWpos : 0 < t1.terrainWidth) (hDpos : 0 < t1.terrainDepth)
    (hg : ∀ p, 0 ≤ p → p < t1.terrainDepth * t1.terrainWidth → t1.heightMap p = t2.heightMap p) :
    (∀ p, 0 ≤ p → p < t1.terrainDepth * t1.terrainWidth →
      (generateBranch sqrt cos false t1 r).1 p = (generateBranch sqrt cos false t2 r).1 p) ∧
    (generateBranch sqrt cos false t1 r).2 = (generateBranch sqrt cos false t2 r).2 := by
  simp only [generateBranch, ← hW, ← hD, ← hmode, ← hc, Bool.false_eq_true, if_false]
  split_ifs
  · unfold circlesAlgorithm
    exact forLoop_rel
      (fun (a b : (Int → α) × Rng) =>
        (∀ p, 0 ≤ p → p < t1.terrainDepth * t1.terrainWidth → a.1 p = b.1 p) ∧ a.2 = b.2)
      _ _ _ _ _ ⟨hg, rfl⟩
      (fun _ a b _ _ hab => circlesIteration_rel sqrt cos _ _ hWpos hDpos a b hab)
  · unfold faultAlgorithm
    exact forLoop_rel
      (fun (a b : (Int → α) × Rng) =>
        (∀ p, 0 ≤ p → p < t1.terrainDepth * t1.terrainWidth → a.1 p = b.1 p) ∧ a.2 = b.2)
      _ _ _ _ _ ⟨hg, rfl⟩
      (fun _ a b _ _ hab => faultIteration_rel _ _ a b hab)
  · unfold depositionAlgorithm
    exact forLoop_rel
      (fun (a b : (Int → α) × Rng) =>
        (∀ p, 0 ≤ p → p < t1.terrainDepth * t1.terrainWidth → a.1 p = b.1 p) ∧ a.2 = b.2)
      _ _ _ _ _ ⟨hg, rfl⟩
      (fun _ a b _ _ hab => depositionIteration_rel _ _ hWpos hDpos a b hab)
  · exact ⟨hg, rfl⟩

/-- C30: regeneration does not depend on the previous terrain. For two terrains of the same
positive dimensions, the same algorithm mode and the same complexity, whatever their prior
height fields (and prior extremes and normal arrays), running `generateHeightValues(true)` then
`generateHeightValues(false)` from the same random source gives height fields that agree at
every offset of the height array, the same `maxHeight`, the same `minHeight`, and leaves the
random source at the same position. -/
theorem C30_regeneration_independent (sqrt cos : α → α) (t1 t2 : Terrain α) (r : Rng)
    (hW : t1.terrainWidth = t2.terrainWidth) (hD : t1.terrainDepth = t2.terrainDepth)
    (hmode : t1.algorithmMode = t2.algorithmMode)
    (hc : t1.terrainComplexity = t2.terrainComplexity)
    (hWpos : 0 < t1.terrainWidth) (hDpos : 0 < t1.terrainDepth) :
    (∀ p, 0 ≤ p → p < t1.terrainDepth * t1.terrainWidth →
      (generateHeightValues sqrt cos false (generateHeightValues sqrt cos true t1 r).1
          (generateHeightValues sqrt cos true t1 r).2).1.heightMap p
        = (generateHeightValues sqrt cos false (generateHeightValues sqrt cos true t2 r).1
          (generateHeightValues sqrt cos true t2 r).2).1.heightMap p) ∧
    (generateHeightValues sqrt cos false (generateHeightValues sqrt cos true t1 r).1
        (generateHeightValues sqrt cos true t1 r).2).1.maxHeight
      = (generateHeightValues sqrt cos false (generateHeightValues sqrt cos true t2 r).1
        (generateHeightValues sqrt cos true t2 r).2).1.maxHeight ∧
    (generateHeightValues sqrt cos false (generateHeightValues sqrt cos true t1 r).1
        (generateHeightValues sqrt cos true t1 r).2).1.minHeight
      = (generateHeightValues sqrt cos false (generateHeightValues sqrt cos true t2 r).1
        (generateHeightValues sqrt cos true t2 r).2).1.minHeight ∧
    (generateHeightValues sqrt cos false (generateHeightValues sqrt cos true t1 r).1
        (generateHeightValues sqrt cos true t1 r).2).2
      = (generateHeightValues sqrt cos false (generateHeightValues sqrt cos true t2 r).1
        (generateHeightValues sqrt cos true t2 r).2).2 := by
  have hN : 0 < t1.terrainDepth * t1.terrainWidth := mul_pos hDpos hWpos
  have key := generateBranch_rel sqrt cos (generateHeightValues sqrt cos true t1 r).1
    (generateHeightValues sqrt cos true t2 r).1 r hW hD hmode hc hWpos hDpos
    (by
      intro p hp hpN
      have h : flattenHeights t1.terrainWidth t1.terrainDepth t1.heightMap p
          = flattenHeights t2.terrainWidth t2.terrainDepth t2.heightMap p := by
        rw [← hW, ← hD]
        exact flattenHeights_agree t1.terrainWidth t1.terrainDepth hDpos t1.heightMap
          t2.heightMap p hp hpN
      exact h)
  obtain ⟨kg, kr⟩ := key
  have k0 := kg 0 le_rfl hN
  have ks := scanExtremes_congr (t1.terrainDepth * t1.terrainWidth) _ _ kg
    ((generateBranch sqrt cos false (generateHeightValues sqrt cos true t1 r).1 r).1 0,
      (generateBranch sqrt cos false (generateHeightValues sqrt cos true t1 r).1 r).1 0)
  have e1 : (generateHeightValues sqrt cos false (generateHeightValues sqrt cos true t1 r).1
      (generateHeightValues sqrt cos true t1 r).2).1.heightMap
      = (generateBranch sqrt cos false (generateHeightValues sqrt cos true t1 r).1 r).1 := rfl
  have e2 : (generateHeightValues sqrt cos false (generateHeightValues sqrt cos true t2 r).1
      (generateHeightValues sqrt cos true t2 r).2).1.heightMap
      = (generateBranch sqrt cos false (generateHeightValues sqrt cos true t2 r).1 r).1 := rfl
  have m1 : ((generateHeightValues sqrt cos false (generateHeightValues sqrt cos true t1 r).1
        (generateHeightValues sqrt cos true t1 r).2).1.maxHeight,
      (generateHeightValues sqrt cos false (generateHeightValues sqrt cos true t1 r).1
        (generateHeightValues sqrt cos true t1 r).2).1.minHeight)
      = scanExtremes (t1.terrainDepth * t1.terrainWidth)
          (generateBranch sqrt cos false (generateHeightValues sqrt cos true t1 r).1 r).1
          ((generateBranch sqrt cos false (generateHeightValues sqrt cos true t1 r).1 r).1 0,
            (generateBranch sqrt cos false (generateHeightValues sqrt cos true t1 r).1 r).1 0) :=
    rfl
  have m2 : ((generateHeightValues sqrt cos false (generateHeightValues sqrt cos true t2 r).1
        (generateHeightValues sqrt cos true t2 r).2).1.maxHeight,
      (generateHeightValues sqrt cos false (generateHeightValues sqrt cos true t2 r).1
        (generateHeightValues sqrt cos true t2 r).2).1.minHeight)
      = scanExtremes (t2.terrainDepth * t2.terrainWidth)
          (generateBranch sqrt cos false (generateHeightValues sqrt cos true t2 r).1 r).1
          ((generateBranch sqrt cos false (generateHeightValues sqrt cos true t2 r).1 r).1 0,
            (generateBranch sqrt cos false (generateHeightValues sqrt cos true t2 r).1 r).1 0) :=
    rfl
  have r1 : (generateHeightValues sqrt cos false (generateHeightValues sqrt cos true t1 r).1
      (generateHeightValues sqrt cos true t1 r).2).2
      = (generateBranch sqrt cos false (generateHeightValues sqrt cos true t1 r).1 r).2 := rfl
  have r2 : (generateHeightValues sqrt cos false (generateHeightValues sqrt cos true t2 r).1
      (generateHeightValues sqrt cos true t2 r).2).2
      = (generateBranch sqrt cos false (generateHeightValues sqrt cos true t2 r).1 r).2 := rfl
  have mm : ((generateHeightValues sqrt cos false (generateHeightValues sqrt cos true t1 r).1
        (generateHeightValues sqrt cos true t1 r).2).1.maxHeight,
      (generateHeightValues sqrt cos false (generateHeightValues sqrt cos true t1 r).1
        (generateHeightValues sqrt cos true t1 r).2).1.minHeight)
      = ((generateHeightValues sqrt cos false (generateHeightValues sqrt cos true t2 r).1
        (generateHeightValues sqrt cos true t2 r).2).1.maxHeight,
      (generateHeightValues sqrt cos false (generateHeightValues sqrt cos true t2 r).1
        (generateHeightValues sqrt cos true t2 r).2).1.minHeight) := by
    rw [m1, m2, ← hW, ← hD, ← k0]
    exact ks
  refine ⟨?_, congrArg Prod.fst mm, congrArg Prod.snd mm, ?_⟩
  · intro p hp hpN
    rw [e1, e2]
    exact kg p hp hpN
  · rw [r1, r2]
    exact kr

/-- C30 at a concrete input: a sloped and a bumped 50 x 50 terrain, circles mode, complexity 3,
all draws 7. -/
theorem C30_regeneration_independent_witness :
    (sampleTerrain ℝ 'c' 3 (slopeHeights ℝ)).heightMap 100
        ≠ (sampleTerrain ℝ 'c' 3 (bumpHeights ℝ)).heightMap 100 ∧
    ((∀ p, 0 ≤ p → p < (50 : Int) * 50 →
      (generateHeightValues Real.sqrt Real.cos false
          (generateHeightValues Real.sqrt Real.cos true
            (sampleTerrain ℝ 'c' 3 (slopeHeights ℝ)) (constRng 7)).1
          (generateHeightValues Real.sqrt Real.cos true
            (sampleTerrain ℝ 'c' 3 (slopeHeights ℝ)) (constRng 7)).2).1.heightMap p
        = (generateHeightValues Real.sqrt Real.cos false
          (generateHeightValues Real.sqrt Real.cos true
            (sampleTerrain ℝ 'c' 3 (bumpHeights ℝ)) (constRng 7)).1
          (generateHeightValues Real.sqrt Real.cos true
            (sampleTerrain ℝ 'c' 3 (bumpHeights ℝ)) (constRng 7)).2).1.heightMap p) ∧
    (generateHeightValues Real.sqrt Real.cos false
        (generateHeightValues Real.sqrt Real.cos true
          (sampleTerrain ℝ 'c' 3 (slopeHeights ℝ)) (constRng 7)).1
        (generateHeightValues Real.sqrt Real.cos true
          (sampleTerrain ℝ 'c' 3 (slopeHeights ℝ)) (constRng 7)).2).1.maxHeight
      = (generateHeightValues Real.sqrt Real.cos false
        (generateHeightValues Real.sqrt Real.cos true
          (sampleTerrain ℝ 'c' 3 (bumpHeights ℝ)) (constRng 7)).1
        (generateHeightValues Real.sqrt Real.cos true
          (sampleTerrain ℝ 'c' 3 (bumpHeights ℝ)) (constRng 7)).2).1.maxHeight ∧
    (generateHeightValues Real.sqrt Real.cos false
        (generateHeightValues Real.sqrt Real.cos true
          (sampleTerrain ℝ 'c' 3 (slopeHeights ℝ)) (constRng 7)).1
        (generateHeightValues Real.sqrt Real.cos true
          (sampleTerrain ℝ 'c' 3 (slopeHeights ℝ)) (constRng 7)).2).1.minHeight
      = (generateHeightValues Real.sqrt Real.cos false
        (generateHeightValues Real.sqrt Real.cos true
          (sampleTerrain ℝ 'c' 3 (bumpHeights ℝ)) (constRng 7)).1
        (generateHeightValues Real.sqrt Real.cos true
          (sampleTerrain ℝ 'c' 3 (bumpHeights ℝ)) (constRng 7)).2).1.minHeight ∧
    (generateHeightValues Real.sqrt Real.cos false
        (generateHeightValues Real.sqrt Real.cos true
          (sampleTerrain ℝ 'c' 3 (slopeHeights ℝ)) (constRng 7)).1
        (generateHeightValues Real.sqrt Real.cos true
          (sampleTerrain ℝ 'c' 3 (slopeHeights ℝ)) (constRng 7)).2).2
      = (generateHeightValues Real.sqrt Real.cos false
        (generateHeightValues Real.sqrt Real.cos true
          (sampleTerrain ℝ 'c' 3 (bumpHeights ℝ)) (constRng 7)).1
        (generateHeightValues Real.sqrt Real.cos true
          (sampleTerrain ℝ 'c' 3 (bumpHeights ℝ)) (constRng 7)).2).2) :=
  ⟨by norm_num [sampleTerrain, slopeHeights, bumpHeights],
    C30_regeneration_independent Real.sqrt Real.cos
      (sampleTerrain ℝ 'c' 3 (slopeHeights ℝ)) (sampleTerrain ℝ 'c' 3 (bumpHeights ℝ))
      (constRng 7) rfl rfl rfl rfl (by decide) (by decide)⟩

end Regeneration

/-! ## The renderer's strips -/

section RendererClaims

/-- Both branches of the loop body advance the counter by one. -/
theorem stripStep_counter (s : StripState) : (stripStep s).counter = s.counter + 1 := by
  unfold stripStep
  split_ifs <;> rfl

/-- The state of the strip loop of layer `z` after `k` passes of its body: pass `m` has emitted
the vertex `(m / 2, z + m % 2)`. -/
theorem stripStep_iterate (z : Int) (k : Nat) :
    stripStep^[k] { i := z, j := 0, counter := 0, emitted := [] }
      = { i := z + ((k % 2 : Nat) : Int), j := ((k / 2 : Nat) : Int), counter := (k : Int),
          emitted := (List.range k).map
            (fun m : Nat => (((m / 2 : Nat) : Int), z + ((m % 2 : Nat) : Int))) } := by
  induction k with
  | zero => simp
  | succ k ih =>
    rw [Function.iterate_succ_apply', ih]
    have hmod : Int.tmod (k : Int) 2 = ((k % 2 : Nat) : Int) := by
      rw [Int.tmod_eq_emod (by omega) (by omega)]
      norm_cast
    rcases Nat.mod_two_eq_zero_or_one k with h | h
    · have h1 : (k + 1) % 2 = 1 := by omega
      have h2 : (k + 1) / 2 = k / 2 := by omega
      simp only [stripStep, hmod, h, h1, h2, List.range_succ, List.map_append, List.map_cons,
        List.map_nil]
      simp
    · have h1 : (k + 1) % 2 = 0 := by omega
      have h2 : (k + 1) / 2 = k / 2 + 1 := by omega
      simp only [stripStep, hmod, h, h1, h2, List.range_succ, List.map_append, List.map_cons,
        List.map_nil]
      simp

/-- The strip loop breaks: from a state `n` passes short of the break, with more than `n` tests
allowed, it returns the state reached by `n` passes of the body. -/
theorem stripLoop_run (W : Int) (n : Nat) :
    ∀ (fuel : Nat) (s : StripState), s.counter + (n : Int) = 2 * W → n < fuel →
      stripLoop W fuel s = some (stripStep^[n] s) := by
  induction n with
  | zero =>
    intro fuel s hs hf
    obtain ⟨f, rfl⟩ := Nat.exists_eq_succ_of_ne_zero (by omega : fuel ≠ 0)
    have hc : s.counter = 2 * W := by simpa using hs
    simp [stripLoop, hc]
  | succ n ih =>
    intro fuel s hs hf
    obtain ⟨f, rfl⟩ := Nat.exists_eq_succ_of_ne_zero (by omega : fuel ≠ 0)
    have hc : s.counter ≠ 2 * W := by
      push_cast at hs
      omega
    rw [Function.iterate_succ_apply]
    simp only [stripLoop, hc, if_false]
    apply ih f (stripStep s) _ (by omega)
    rw [stripStep_counter]
    push_cast at hs
    omega

/-- The strip of layer `z` is returned, and it is the list of the `2 * width` vertices
`(m / 2, z + m % 2)`. -/
theorem drawStrip_eq (W : Int) (hW : 0 ≤ W) (fuel : Nat) (hf : (2 * W).toNat < fuel) (z : Int) :
    drawStrip W fuel z
      = some ((List.range (2 * W).toNat).map
          (fun m : Nat => (((m / 2 : Nat) : Int), z + ((m % 2 : Nat) : Int)))) := by
  unfold drawStrip
  rw [stripLoop_run W (2 * W).toNat fuel _ (by simp only [zero_add]; omega) hf,
    stripStep_iterate]

/-- The renderer returns, and it emits one strip for every `z` in `[0, depth)`. -/
theorem drawTerrain_eq (W D : Int) (hW : 0 ≤ W) (fuel : Nat) (hf : (2 * W).toNat < fuel) :
    drawTerrain W D fuel
      = some ((List.range D.toNat).map (fun z : Nat =>
          (List.range (2 * W).toNat).map
            (fun m : Nat => (((m / 2 : Nat) : Int), (z : Int) + ((m % 2 : Nat) : Int))))) := by
  unfold drawTerrain
  rcases le_or_lt D 0 with hD | hD
  · have h : D.toNat = 0 := by omega
    rw [forLoop_nonpos D hD, h]
    rfl
  · obtain ⟨n, rfl⟩ := Int.eq_ofNat_of_zero_le (le_of_lt hD)
    clear hD
    rw [Int.toNat_ofNat]
    induction n with
    | zero =>
      rw [forLoop_nonpos _ (by simp)]
      rfl
    | succ n ih =>
      have hn : ((n + 1 : Nat) : Int) = (n : Int) + 1 := by push_cast; ring
      rw [hn, forLoop_succ, ih, drawStrip_eq W hW fuel hf, List.range_succ, List.map_append]
      rfl

/-- Every vertex of a strip that is not the last one is on the grid. -/
theorem strip_in_range (W D z : Int) (hz : 0 ≤ z) (hzD : z + 1 < D) (p : Int × Int)
    (hp : p ∈ (List.range (2 * W).toNat).map
      (fun m : Nat => (((m / 2 : Nat) : Int), z + ((m % 2 : Nat) : Int)))) :
    0 ≤ p.1 ∧ p.1 < W ∧ 0 ≤ p.2 ∧ p.2 < D := by
  obtain ⟨m, hm, rfl⟩ := List.mem_map.1 hp
  rw [List.mem_range] at hm
  simp only
  omega

/-- The strip of layer `z` of a grid of positive width emits `(j, z + 1)` for every `j`. -/
theorem strip_upper_row (W z j : Int) (hj : 0 ≤ j) (hjW : j < W) :
    (j, z + 1) ∈ (List.range (2 * W).toNat).map
      (fun m : Nat => (((m / 2 : Nat) : Int), z + ((m % 2 : Nat) : Int))) := by
  refine List.mem_map.2 ⟨(2 * j + 1).toNat, ?_, ?_⟩
  · rw [List.mem_range]
    omega
  · have h1 : (2 * j + 1).toNat / 2 = j.toNat := by omega
    have h2 : (2 * j + 1).toNat % 2 = 1 := by omega
    rw [h1, h2]
    simp only [Nat.cast_one, Prod.mk.injEq, and_true]
    omega

end RendererClaims

section RendererBug

/-- C31, the code at the failing input (a 50 x 50 grid, the smallest the program accepts):
`drawTerrain` returns after emitting 50 strips of 100 vertices, strip `z` holding the vertices
`(m / 2, z + m % 2)`. Every vertex of the strips `z < 49` is on the grid, but the last strip,
`z = 49`, emits the vertex `(49, 50)`, whose `i = 50` is the depth itself: its height is read at
`getIndex(49,50) = 2500`, the length of `heightMap`, and its normal at slot `7500`, the length of
each vertex-normal array, both one past the last valid slot. -/
theorem C31_last_strip_reads_past_end :
    drawTerrain 50 50 101
      = some ((List.range 50).map (fun z : Nat =>
          (List.range 100).map
            (fun m : Nat => (((m / 2 : Nat) : Int), (z : Int) + ((m % 2 : Nat) : Int))))) ∧
    (∀ z : Int, 0 ≤ z → z < 49 →
      ∀ p ∈ (List.range 100).map
          (fun m : Nat => (((m / 2 : Nat) : Int), z + ((m % 2 : Nat) : Int))),
        0 ≤ p.1 ∧ p.1 < 50 ∧ 0 ≤ p.2 ∧ p.2 < 50) ∧
    drawStrip 50 101 49
      = some ((List.range 100).map
          (fun m : Nat => (((m / 2 : Nat) : Int), (49 : Int) + ((m % 2 : Nat) : Int)))) ∧
    ((49 : Int), (50 : Int)) ∈ (List.range 100).map
      (fun m : Nat => (((m / 2 : Nat) : Int), (49 : Int) + ((m % 2 : Nat) : Int))) ∧
    getIndex 50 49 50 = heightMapSize 50 50 ∧
    vertexNormalIndex 50 49 50 = vertexNormalsSize 50 50 ∧
    vertexNormalsSize 50 50 = 7500 := by
  refine ⟨drawTerrain_eq 50 50 (by decide) 101 (by decide), ?_,
    drawStrip_eq 50 (by decide) 101 (by decide) 49, ?_, by decide, by decide, by decide⟩
  · intro z hz hz49 p hp
    exact strip_in_range 50 50 z hz (by omega) p hp
  · exact strip_upper_row 50 49 49 (by decide) (by decide)

end RendererBug

end TerrainGen
